import Mathlib

/-!
Verification development for the heat-pump topology builder in
`src/models/heatpump.py` (class `Heatpump`).

The builder is embedded shallowly:

* Python `str` is Lean `String`; f-string interpolation of an integer is
  `natStr`, defined below as plain decimal rendering.
* Python `dict` (insertion ordered) is an association list
  `List (String × α)`; assignment `d[k] = v` is `dinsert` (replace in
  place when the key exists, append otherwise), `del d[k]` is `derase`,
  membership/lookup is `dlookup`.
* `generate_components` is the fold of `dinsert` over the ordered list of
  component assignments `componentEntries`.
* `generate_topology` is the sequence of `set_conn` calls `topoCalls`
  (each call records the arguments passed to `set_conn`, in program
  order); `set_conn` itself looks the two components up and inserts a
  `Conn` into the connection table, and fails (Python `KeyError`) when a
  component key is missing, hence the `Option`.
* The TESPy network object (`self.nw`) is an external collaborator and is
  not part of the model; only the `components` and `connections` tables
  of the `Heatpump` object are modelled.
-/

/-! ### Decimal rendering of integers (Python f-string interpolation) -/

def digitChar : Nat → Char
  | 0 => '0'
  | 1 => '1'
  | 2 => '2'
  | 3 => '3'
  | 4 => '4'
  | 5 => '5'
  | 6 => '6'
  | 7 => '7'
  | 8 => '8'
  | _ => '9'

def natDigitsAux : Nat → Nat → List Char
  | 0, _ => []
  | fuel+1, n => if n < 10 then [digitChar n] else natDigitsAux fuel (n / 10) ++ [digitChar (n % 10)]

def natDigits (n : Nat) : List Char := natDigitsAux (n + 1) n

def natStr (n : Nat) : String := ⟨natDigits n⟩

def isDigB (ch : Char) : Bool := 48 ≤ ch.toNat && ch.toNat ≤ 57

/-! ### String helpers -/

/-! ### Ordered dictionaries (Python `dict`) as association lists -/

def dlookup (k : String) : List (String × α) → Option α
  | [] => none
  | e :: rest => if e.1 = k then some e.2 else dlookup k rest

def dinsert (k : String) (v : α) : List (String × α) → List (String × α)
  | [] => [(k, v)]
  | e :: rest => if e.1 = k then (k, v) :: rest else e :: dinsert k v rest

def derase (k : String) : List (String × α) → List (String × α)
  | [] => []
  | e :: rest => if e.1 = k then rest else e :: derase k rest

/-- A dictionary built by successive `dinsert`s, the way
`generate_components` fills `self.components`. -/
def buildDict {α : Type} (entries : List (String × α)) : List (String × α) :=
  entries.foldl (fun m e => dinsert e.1 e.2 m) []

/-! ### Data model of the heat pump

Mirrors the TESPy component kinds instantiated by `generate_components`
and the `Connection` objects created by `set_conn`:
a `Component` keeps the label passed to its constructor and its kind, a
`Conn` keeps the two endpoint components with the outlet/inlet port
names.  `Config` is the constructor signature of `Heatpump.__init__`
(`nr_cycles`, `int_heatex`, `intercooler`); the two Python dicts are
modelled as partial functions on cycle indices since the code only ever
performs membership tests and key lookups on them.  A value of
`int_heatex` is either a single integer or a list of integers, and an
`intercooler` value carries the stage count (`amount`) and the unit kind
(`type`, either `HeatExchanger` or `HeatExchangerSimple`). -/

inductive CKind where
  | source
  | sink
  | pump
  | heatExchanger
  | condenser
  | heatExchangerSimple
  | compressor
  | valve
  | cycleCloser
deriving DecidableEq

structure Component where
  label : String
  kind : CKind
deriving DecidableEq

structure Conn where
  source : Component
  outlet : String
  target : Component
  inlet : String
deriving DecidableEq

inductive IHTarget where
  | single (t : Nat)
  | multi (ts : List Nat)
deriving DecidableEq

inductive IcType where
  | heatExchanger
  | heatExchangerSimple
deriving DecidableEq

structure IcSpec where
  amount : Nat
  icType : IcType
deriving DecidableEq

structure Config where
  nr_cycles : Nat
  int_heatex : Nat → Option IHTarget
  intercooler : Nat → Option IcSpec

structure Heatpump where
  components : List (String × Component)
  connections : List (String × Conn)
deriving DecidableEq

/-- One `set_conn` call of `generate_topology`: the connection label, the
key of the source component with its outlet port, and the key of the
target component with its inlet port, exactly as passed in the source. -/
structure SC where
  label : String
  src : String
  outlet : String
  tgt : String
  inlet : String
deriving DecidableEq

/-! ### `generate_components` -/

def ihxKey (s t : Nat) : String :=
  "Internal Heat Exchanger " ++ natStr s ++ "_" ++ natStr t

def fixedComponentEntries : List (String × Component) :=
  [("Heat Source Feed Flow", ⟨"Heat Source Feed Flow", .source⟩),
   ("Heat Source Back Flow", ⟨"Heat Source Back Flow", .sink⟩),
   ("Heat Source Recirculation Pump", ⟨"Heat Source Recirculation Pump", .pump⟩),
   ("Evaporator 1", ⟨"Evaporator 1", .heatExchanger⟩),
   ("Consumer Cycle Closer", ⟨"Consumer Cycle Closer", .cycleCloser⟩),
   ("Consumer Recirculation Pump", ⟨"Consumer Recirculation Pump", .pump⟩),
   ("Consumer", ⟨"Consumer", .heatExchangerSimple⟩)]

def icKind : IcType → CKind
  | .heatExchanger => .heatExchanger
  | .heatExchangerSimple => .heatExchangerSimple

/-- Intercooler/compressor creation loop (`for i in range(1, nr_intercooler+2)`):
the table key of the i-th compressor uses a hyphen while the component
object's label uses an underscore, exactly as in the source. -/
def icEntries (cycle : Nat) (ic : IcSpec) : List (String × Component) :=
  (List.range' 1 (ic.amount + 1)).flatMap (fun i =>
    (if i < ic.amount + 1 then
      [("Intercooler " ++ natStr cycle ++ "-" ++ natStr i,
        ⟨"Intercooler " ++ natStr cycle ++ "-" ++ natStr i, icKind ic.icType⟩)]
     else [])
    ++ [("Compressor " ++ natStr cycle ++ "-" ++ natStr i,
         ⟨"Compressor " ++ natStr cycle ++ "_" ++ natStr i, .compressor⟩)])

def ihxEntries (cycle : Nat) : IHTarget → List (String × Component)
  | .single t => [(ihxKey cycle t, ⟨ihxKey cycle t, .heatExchanger⟩)]
  | .multi ts => ts.map (fun t => (ihxKey cycle t, ⟨ihxKey cycle t, .heatExchanger⟩))

def cycleComponentEntries (cfg : Config) (cycle : Nat) : List (String × Component) :=
  [("Cycle Closer " ++ natStr cycle, ⟨"Cycle Closer " ++ natStr cycle, .cycleCloser⟩),
   ("Valve " ++ natStr cycle, ⟨"Valve " ++ natStr cycle, .valve⟩)]
  ++ (if cycle ≠ 1 then
        [("Heat Exchanger " ++ natStr (cycle-1) ++ "_" ++ natStr cycle,
          ⟨"Heat Exchanger " ++ natStr (cycle-1) ++ "_" ++ natStr cycle, .heatExchanger⟩)]
      else [])
  ++ (if cycle = cfg.nr_cycles then
        [("Condenser " ++ natStr cycle, ⟨"Condenser " ++ natStr cycle, .condenser⟩)]
      else [])
  ++ (match cfg.intercooler cycle with
      | some ic => icEntries cycle ic
      | none => [("Compressor " ++ natStr cycle, ⟨"Compressor " ++ natStr cycle, .compressor⟩)])
  ++ (match cfg.int_heatex cycle with
      | some tgt => ihxEntries cycle tgt
      | none => [])

def componentEntries (cfg : Config) : List (String × Component) :=
  fixedComponentEntries ++ (List.range' 1 cfg.nr_cycles).flatMap (cycleComponentEntries cfg)

def generate_components (cfg : Config) : List (String × Component) :=
  buildDict (componentEntries cfg)

/-! ### `generate_topology`: the ordered `set_conn` call list -/

def skeletonCalls (cfg : Config) : List SC :=
  [⟨"valve1_to_evaporator1", "Valve 1", "out1", "Evaporator 1", "in2"⟩,
   ⟨"heatsource_ff_to_heatsource_pump", "Heat Source Feed Flow", "out1",
    "Heat Source Recirculation Pump", "in1"⟩,
   ⟨"heatsource_pump_to_evaporator1", "Heat Source Recirculation Pump", "out1",
    "Evaporator 1", "in1"⟩,
   ⟨"evaporator1_to_heatsource_bf", "Evaporator 1", "out1", "Heat Source Back Flow", "in1"⟩,
   ⟨"heatsink_cc_to_heatsink_pump", "Consumer Cycle Closer", "out1",
    "Consumer Recirculation Pump", "in1"⟩,
   ⟨"heatsink_pump_to_cond" ++ natStr cfg.nr_cycles, "Consumer Recirculation Pump", "out1",
    "Condenser " ++ natStr cfg.nr_cycles, "in2"⟩,
   ⟨"cond" ++ natStr cfg.nr_cycles ++ "_to_consumer", "Condenser " ++ natStr cfg.nr_cycles,
    "out2", "Consumer", "in1"⟩,
   ⟨"consumer_to_heatsink_cc", "Consumer", "out1", "Consumer Cycle Closer", "in1"⟩]

/-- The source cycles `i = 1..nr_cycles` whose `int_heatex` entry targets
`cycle` (an `int` entry equal to `cycle`, or a list entry containing it). -/
def cycleIntHeatex (cfg : Config) (cycle : Nat) : List Nat :=
  (List.range' 1 cfg.nr_cycles).filter (fun i =>
    match cfg.int_heatex i with
    | some (.single t) => t == cycle
    | some (.multi ts) => ts.contains cycle
    | none => false)

def coldFirstCall (cycle s : Nat) : SC :=
  if cycle = 1 then
    ⟨"evaporator" ++ natStr cycle ++ "_to_int_heatex" ++ natStr s ++ "_" ++ natStr cycle,
     "Evaporator 1", "out2", ihxKey s cycle, "in2"⟩
  else
    ⟨"heatex" ++ natStr (cycle-1) ++ "_" ++ natStr cycle ++ "_to_int_heatex" ++ natStr s
       ++ "_" ++ natStr cycle,
     "Heat Exchanger " ++ natStr (cycle-1) ++ "_" ++ natStr cycle, "out2",
     ihxKey s cycle, "in2"⟩

def coldBetweenCall (cycle last s : Nat) : SC :=
  ⟨"int_heatex" ++ natStr last ++ "_" ++ natStr cycle ++ "_to_int_heatex" ++ natStr s
     ++ "_" ++ natStr cycle,
   ihxKey last cycle, "out2", ihxKey s cycle, "in2"⟩

/-- The `for c_int_heatex in cycle_int_heatex` loop, carrying
`last_int_heatex` (`none` models the initial empty string). -/
def coldChainCalls (cycle : Nat) : List Nat → Option Nat → List SC
  | [], _ => []
  | s :: rest, none => coldFirstCall cycle s :: coldChainCalls cycle rest (some s)
  | s :: rest, some last => coldBetweenCall cycle last s :: coldChainCalls cycle rest (some s)

def compFeedIc (cycle : Nat) : Option Nat → SC
  | none =>
    if cycle = 1 then
      ⟨"evaporator1_to_comp" ++ natStr cycle ++ "-1", "Evaporator 1", "out2",
       "Compressor " ++ natStr cycle ++ "-1", "in1"⟩
    else
      ⟨"heatex" ++ natStr (cycle-1) ++ "_" ++ natStr cycle ++ "_to_comp" ++ natStr cycle,
       "Heat Exchanger " ++ natStr (cycle-1) ++ "_" ++ natStr cycle, "out2",
       "Compressor " ++ natStr cycle ++ "-1", "in1"⟩
  | some last =>
    ⟨"int_heatex" ++ natStr last ++ "_" ++ natStr cycle ++ "_to_comp" ++ natStr cycle,
     ihxKey last cycle, "out2", "Compressor " ++ natStr cycle ++ "-1", "in1"⟩

def compFeedSingle (cycle : Nat) : Option Nat → SC
  | none =>
    if cycle = 1 then
      ⟨"evaporator1_to_comp" ++ natStr cycle, "Evaporator 1", "out2",
       "Compressor " ++ natStr cycle, "in1"⟩
    else
      ⟨"heatex" ++ natStr (cycle-1) ++ "_" ++ natStr cycle ++ "_to_comp" ++ natStr cycle,
       "Heat Exchanger " ++ natStr (cycle-1) ++ "_" ++ natStr cycle, "out2",
       "Compressor " ++ natStr cycle, "in1"⟩
  | some last =>
    ⟨"int_heatex" ++ natStr last ++ "_" ++ natStr cycle ++ "_to_comp" ++ natStr cycle,
     ihxKey last cycle, "out2", "Compressor " ++ natStr cycle, "in1"⟩

def icPairCalls (cycle i : Nat) : List SC :=
  [⟨"comp" ++ natStr cycle ++ "-" ++ natStr i ++ "_to_intercooler" ++ natStr cycle ++ "-"
      ++ natStr i,
    "Compressor " ++ natStr cycle ++ "-" ++ natStr i, "out1",
    "Intercooler " ++ natStr cycle ++ "-" ++ natStr i, "in1"⟩,
   ⟨"intercooler" ++ natStr cycle ++ "-" ++ natStr i ++ "_to_comp" ++ natStr cycle ++ "-"
      ++ natStr (i+1),
    "Intercooler " ++ natStr cycle ++ "-" ++ natStr i, "out1",
    "Compressor " ++ natStr cycle ++ "-" ++ natStr (i+1), "in1"⟩]

def icDischargeCall (cfg : Config) (cycle k : Nat) : SC :=
  if cycle = cfg.nr_cycles then
    ⟨"comp" ++ natStr cycle ++ "-" ++ natStr (k+1) ++ "_to_cond" ++ natStr cycle,
     "Compressor " ++ natStr cycle ++ "-" ++ natStr (k+1), "out1",
     "Condenser " ++ natStr cycle, "in1"⟩
  else
    ⟨"comp" ++ natStr cycle ++ "-" ++ natStr (k+1) ++ "_to_heatex" ++ natStr cycle ++ "_"
       ++ natStr (cycle+1),
     "Compressor " ++ natStr cycle ++ "-" ++ natStr (k+1), "out1",
     "Heat Exchanger " ++ natStr cycle ++ "_" ++ natStr (cycle+1), "in1"⟩

def singleDischargeCall (cfg : Config) (cycle : Nat) : SC :=
  if cycle = cfg.nr_cycles then
    ⟨"comp" ++ natStr cycle ++ "_to_cond" ++ natStr cycle,
     "Compressor " ++ natStr cycle, "out1", "Condenser " ++ natStr cycle, "in1"⟩
  else
    ⟨"comp" ++ natStr cycle ++ "_to_heatex" ++ natStr cycle ++ "_" ++ natStr (cycle+1),
     "Compressor " ++ natStr cycle, "out1",
     "Heat Exchanger " ++ natStr cycle ++ "_" ++ natStr (cycle+1), "in1"⟩

/-- Compression block: `last` is the value of `last_int_heatex` after the
cold-side chain loop. -/
def compressionCalls (cfg : Config) (cycle : Nat) (last : Option Nat) : List SC :=
  match cfg.intercooler cycle with
  | some ic =>
      compFeedIc cycle last
        :: ((List.range' 1 ic.amount).flatMap (icPairCalls cycle)
            ++ [icDischargeCall cfg cycle ic.amount])
  | none => compFeedSingle cycle last :: [singleDischargeCall cfg cycle]

/-! Hot-side return chain: Python filters `self.components` by the
substring test `f'Internal Heat Exchanger {cycle}' in comp` and sorts the
matches with `sort(reverse=True)` (descending string order). -/

def isPrefB : List Char → List Char → Bool
  | [], _ => true
  | _ :: _, [] => false
  | a :: as, b :: bs => a = b && isPrefB as bs

def containsSub (pat : List Char) : List Char → Bool
  | [] => isPrefB pat []
  | ch :: rest => isPrefB pat (ch :: rest) || containsSub pat rest

/-- Strict lexicographic comparison by Unicode code point, as Python
compares strings. -/
def strLtB : List Char → List Char → Bool
  | [], [] => false
  | [], _ :: _ => true
  | _ :: _, [] => false
  | a :: as, b :: bs =>
    if a.toNat < b.toNat then true
    else if b.toNat < a.toNat then false
    else strLtB as bs

def insertRev (x : String) : List String → List String
  | [] => [x]
  | y :: ys => if strLtB y.data x.data then x :: y :: ys else y :: insertRev x ys

/-- Descending, stable sort (`list.sort(reverse=True)`). -/
def sortRev : List String → List String
  | [] => []
  | x :: xs => insertRev x (sortRev xs)

/-- `int_heatex.split(' ')[-1]`: the token after the last space. -/
def lastTokL (l : List Char) : List Char :=
  l.foldl (fun acc ch => if ch = ' ' then [] else acc ++ [ch]) []

def lastTok (s : String) : String := ⟨lastTokL s.data⟩

def hotMatchedKeys (compKeys : List String) (cycle : Nat) : List String :=
  compKeys.filter (fun k =>
    containsSub ("Internal Heat Exchanger " ++ natStr cycle).data k.data)

def hotFirstCall (cfg : Config) (cycle : Nat) (u : String) : SC :=
  if cycle = cfg.nr_cycles then
    ⟨"cond" ++ natStr cycle ++ "_to_int_heatex" ++ lastTok u,
     "Condenser " ++ natStr cycle, "out1", u, "in1"⟩
  else
    ⟨"heatex" ++ natStr cycle ++ "_" ++ natStr (cycle+1) ++ "_to_int_heatex" ++ lastTok u,
     "Heat Exchanger " ++ natStr cycle ++ "_" ++ natStr (cycle+1), "out1", u, "in1"⟩

def hotBetweenCall (lastu u : String) : SC :=
  ⟨"int_heatex" ++ lastTok lastu ++ "_to_int_heatex" ++ lastTok u, lastu, "out1", u, "in1"⟩

def hotLoopCalls (cfg : Config) (cycle : Nat) : List String → Option String → List SC
  | [], _ => []
  | u :: rest, none => hotFirstCall cfg cycle u :: hotLoopCalls cfg cycle rest (some u)
  | u :: rest, some lastu => hotBetweenCall lastu u :: hotLoopCalls cfg cycle rest (some u)

def hotFinalCall (cfg : Config) (cycle : Nat) : Option String → SC
  | none =>
    if cycle = cfg.nr_cycles then
      ⟨"cond" ++ natStr cycle ++ "_to_cc" ++ natStr cycle,
       "Condenser " ++ natStr cycle, "out1", "Cycle Closer " ++ natStr cycle, "in1"⟩
    else
      ⟨"heatex" ++ natStr cycle ++ "_" ++ natStr (cycle+1) ++ "_to_cc" ++ natStr cycle,
       "Heat Exchanger " ++ natStr cycle ++ "_" ++ natStr (cycle+1), "out1",
       "Cycle Closer " ++ natStr cycle, "in1"⟩
  | some lastu =>
    ⟨"int_heatex" ++ lastTok lastu ++ "_to_cc" ++ natStr cycle, lastu, "out1",
     "Cycle Closer " ++ natStr cycle, "in1"⟩

def hotPhaseCalls (cfg : Config) (compKeys : List String) (cycle : Nat) : List SC :=
  let ihs := sortRev (hotMatchedKeys compKeys cycle)
  hotLoopCalls cfg cycle ihs none ++ [hotFinalCall cfg cycle ihs.getLast?]

def ccValveCall (cycle : Nat) : SC :=
  ⟨"cc" ++ natStr cycle ++ "_to_valve" ++ natStr cycle,
   "Cycle Closer " ++ natStr cycle, "out1", "Valve " ++ natStr cycle, "in1"⟩

def valveHeatExCalls (cycle : Nat) : List SC :=
  if cycle ≠ 1 then
    [⟨"valve" ++ natStr cycle ++ "_to_heat_ex" ++ natStr (cycle-1) ++ "_" ++ natStr cycle,
      "Valve " ++ natStr cycle, "out1",
      "Heat Exchanger " ++ natStr (cycle-1) ++ "_" ++ natStr cycle, "in2"⟩]
  else []

def cycleCalls (cfg : Config) (compKeys : List String) (cycle : Nat) : List SC :=
  [ccValveCall cycle]
  ++ valveHeatExCalls cycle
  ++ (let cih := cycleIntHeatex cfg cycle
      coldChainCalls cycle cih none ++ compressionCalls cfg cycle cih.getLast?)
  ++ hotPhaseCalls cfg compKeys cycle

def topoCalls (cfg : Config) (comps : List (String × Component)) : List SC :=
  skeletonCalls cfg
    ++ (List.range' 1 cfg.nr_cycles).flatMap (cycleCalls cfg (comps.map Prod.fst))

/-! ### `set_conn`, `generate_topology`, `delete_component` -/

/-- `set_conn`: looks both components up in the component table (Python
raises `KeyError` when a key is absent, modelled by `none`) and assigns
the new `Connection` into `self.connections[label]`. -/
def set_conn (hp : Heatpump) (label comp_out outlet comp_in inlet : String) : Option Heatpump :=
  match dlookup comp_out hp.components, dlookup comp_in hp.components with
  | some src, some tgt =>
      some { hp with connections := dinsert label ⟨src, outlet, tgt, inlet⟩ hp.connections }
  | _, _ => none

def runCalls (hp : Heatpump) : List SC → Option Heatpump
  | [] => some hp
  | c :: rest =>
    match set_conn hp c.label c.src c.outlet c.tgt c.inlet with
    | some hp' => runCalls hp' rest
    | none => none

def generate_topology (cfg : Config) (comps : List (String × Component)) : Option Heatpump :=
  runCalls { components := comps, connections := [] } (topoCalls cfg comps)

def buildHeatpump (cfg : Config) : Option Heatpump :=
  generate_topology cfg (generate_components cfg)

def connTouches (component : String) (conn : Conn) : Bool :=
  component == conn.source.label || component == conn.target.label

/-- `delete_component`: a missing label is a no-op; otherwise the
component is removed and the loop over `self.connections.items()`
deletes from the copy every connection whose source or target label
equals the given label. -/
def delete_component (hp : Heatpump) (component : String) : Heatpump :=
  if (dlookup component hp.components).isSome then
    { components := derase component hp.components,
      connections := hp.connections.foldl
        (fun copy e => if connTouches component e.2 then derase e.1 copy else copy)
        hp.connections }
  else hp

/-! Sanity checks on the single-stage configuration (N = 1, no internal
heat exchanger, no intercooler), matching the spec scenario of 11
components and 12 connections. -/

def cfgN1 : Config := ⟨1, fun _ => none, fun _ => none⟩

/-! ### Spec-side vocabulary for the wiring claims

`Link` is a `set_conn` call with the connection label forgotten: the
source component key and outlet port, and the target component key and
inlet port.  The wiring claims speak about which ports feed which, not
about connection label spelling, so they are stated on `Link`s. -/

structure Link where
  src : String
  outlet : String
  tgt : String
  inlet : String
deriving DecidableEq

def SC.link (c : SC) : Link := ⟨c.src, c.outlet, c.tgt, c.inlet⟩

/-- The chain of links `upstream.outPort → u₁.inPort`,
`u₁.outPort → u₂.inPort`, …, `uₙ₋₁.outPort → uₙ.inPort`. -/
def chainThrough (upstream outPort : String) (units : List String) (inPort : String) : List Link :=
  List.zipWith (fun a b => Link.mk a outPort b inPort) (upstream :: units) units

/-- The last unit of a chain, or the upstream component when the chain is
empty. -/
def lastUnitOr (upstream : String) (units : List String) : String :=
  units.getLast?.getD upstream

/-- Target-cycle list of an `int_heatex` entry (a scalar entry has one
target, a list entry has the listed targets, a missing entry none). -/
def ihTargets : Option IHTarget → List Nat
  | some (.single t) => [t]
  | some (.multi ts) => ts
  | none => []

/-- Spec wording for the cold-side source set of cycle `c`: the cycles
`s`, in iteration order `s = 1..nr_cycles`, with `c` among the targets of
`int_heatex[s]`. -/
def coldSources (cfg : Config) (c : Nat) : List Nat :=
  (List.range' 1 cfg.nr_cycles).filter (fun s => decide (c ∈ ihTargets (cfg.int_heatex s)))

/-- Spec wording: the component feeding the cold-side chain of cycle `c`
(the evaporator for cycle 1, the inter-cycle heat exchanger otherwise). -/
def coldUpstream (c : Nat) : String :=
  if c = 1 then "Evaporator 1" else "Heat Exchanger " ++ natStr (c-1) ++ "_" ++ natStr c

/-- Spec wording: the key of the first compressor of cycle `c`. -/
def firstCompKey (cfg : Config) (c : Nat) : String :=
  match cfg.intercooler c with
  | some _ => "Compressor " ++ natStr c ++ "-1"
  | none => "Compressor " ++ natStr c

/-- Spec wording: the component whose hot outlet starts the hot-side
return chain of cycle `c` (the condenser at the top cycle, the
inter-cycle heat exchanger otherwise). -/
def hotUpstream (cfg : Config) (c : Nat) : String :=
  if c = cfg.nr_cycles then "Condenser " ++ natStr c
  else "Heat Exchanger " ++ natStr c ++ "_" ++ natStr (c+1)

/-- `a` is lexicographically at least `b` (descending-sort order). -/
def StrGe (a b : String) : Prop := strLtB a.data b.data = false

/-- Descending sort of target-cycle indices, as claim C1 orders the
hot-side chain. -/
def insertDescNat (x : Nat) : List Nat → List Nat
  | [] => [x]
  | y :: ys => if y < x then x :: y :: ys else y :: insertDescNat x ys

def descSortNat : List Nat → List Nat
  | [] => []
  | x :: xs => insertDescNat x (descSortNat xs)

/-- Claim C1, as stated, instantiated at one configuration and cycle:
the hot-side return chain visits the internal-heat-exchanger units of
source cycle `c` in descending order of their target-cycle index, the
upstream hot outlet feeding the unit with the highest target index and
the last unit feeding the cycle closer. -/
def C1ClaimAt (cfg : Config) (c : Nat) : Prop :=
  (hotPhaseCalls cfg ((generate_components cfg).map Prod.fst) c).map SC.link =
    chainThrough (hotUpstream cfg c) "out1"
        ((descSortNat (ihTargets (cfg.int_heatex c))).map (fun t => ihxKey c t)) "in1"
      ++ [⟨lastUnitOr (hotUpstream cfg c)
             ((descSortNat (ihTargets (cfg.int_heatex c))).map (fun t => ihxKey c t)),
           "out1", "Cycle Closer " ++ natStr c, "in1"⟩]

/-- Configuration refuting claim C1: ten cycles, cycle 1 routed through
internal heat exchangers against cycles 9 and 10. -/
def cfgC1cex : Config :=
  ⟨10, fun i => if i = 1 then some (.multi [9, 10]) else none, fun _ => none⟩

/-- The key list of the component table built for a configuration. -/
def compKeysOf (cfg : Config) : List String := (generate_components cfg).map Prod.fst

/-- Hyphenated component-table key of a stage compressor. -/
def compKeyH (c i : Nat) : String := "Compressor " ++ natStr c ++ "-" ++ natStr i

/-- Underscored label carried by the stage-compressor object itself. -/
def compLabelU (c i : Nat) : String := "Compressor " ++ natStr c ++ "_" ++ natStr i

/-- Key (and label) of a stage intercooler. -/
def icKeyH (c i : Nat) : String := "Intercooler " ++ natStr c ++ "-" ++ natStr i

/-- Witness configuration for the intercooler claims: two cycles, cycle 1
with two intercooler stages. -/
def cfgC3w : Config :=
  ⟨2, fun _ => none, fun i => if i = 1 then some ⟨2, .heatExchanger⟩ else none⟩

/-- A configuration whose maps reference cycle indices outside `[1, 2]`:
`int_heatex = {1: 10, 7: 1}` and `intercooler = {9: ...}` with
`nr_cycles = 2`. -/
def cfgC5w : Config :=
  ⟨2,
   fun i => if i = 1 then some (.single 10) else if i = 7 then some (.single 1) else none,
   fun i => if i = 9 then some ⟨1, .heatExchanger⟩ else none⟩

/-- Claim C5, as stated, at one configuration: the build fails with a
configuration error before any component is created, leaving the component
table empty. -/
def C5ClaimAt (cfg : Config) : Prop :=
  buildHeatpump cfg = none ∧ generate_components cfg = []

/-- The built single-stage heat pump (used as a concrete witness state). -/
def hpN1 : Heatpump := (buildHeatpump cfgN1).getD ⟨[], []⟩

/-- Claim C6, as stated, at one `set_conn` call: an attempt to add a
connection whose label already exists in the connection table is rejected
as a structural error (the call fails) rather than silently overwriting. -/
def C6ClaimAt (hp : Heatpump) (label src outlet tgt inlet : String) : Prop :=
  label ∈ hp.connections.map Prod.fst → set_conn hp label src outlet tgt inlet = none

/-- The connection object used in the C6 witness call. -/
def connC6 : Conn :=
  ⟨⟨"Consumer", .heatExchangerSimple⟩, "out1", ⟨"Consumer", .heatExchangerSimple⟩, "in1"⟩

/-- Referential integrity: every connection's source and target component
labels exist as keys of the component table. -/
def integrityOk (hp : Heatpump) : Prop :=
  ∀ e ∈ hp.connections,
    e.2.source.label ∈ hp.components.map Prod.fst ∧
    e.2.target.label ∈ hp.components.map Prod.fst

/-- Claim C7, as stated, at one configuration: after construction the
connection table never references a missing component label. -/
def C7ClaimAt (cfg : Config) : Prop :=
  ∀ hp, buildHeatpump cfg = some hp → integrityOk hp

/-- Configuration refuting claim C7: one cycle with one intercooler stage. -/
def cfgC7cex : Config :=
  ⟨1, fun _ => none, fun i => if i = 1 then some ⟨1, .heatExchanger⟩ else none⟩

def hpC7cex : Heatpump := (buildHeatpump cfgC7cex).getD ⟨[], []⟩

/-- The heat pump built from the two-cycle intercooler configuration. -/
def hpC3w : Heatpump := (buildHeatpump cfgC3w).getD ⟨[], []⟩

/-- A configuration with `n` cycles, empty `int_heatex` map and empty
`intercooler` map. -/
def cfgEmpty (n : Nat) : Config := ⟨n, fun _ => none, fun _ => none⟩

/-- Claim C4, as stated, at one cycle count: component count
`7 + 2N + N + (N-1) + 1` and connection count equal to component count
plus one. -/
def C4ClaimAt (n : Nat) : Prop :=
  ∀ hp, buildHeatpump (cfgEmpty n) = some hp →
    hp.components.length = 7 + 2*n + n + (n-1) + 1 ∧
    hp.connections.length = hp.components.length + 1

def hpE2 : Heatpump := (buildHeatpump (cfgEmpty 2)).getD ⟨[], []⟩

/-! ### Theorems -/

theorem natDigitsAux_fuel : ∀ (n f g : Nat), n < f → n < g → natDigitsAux f n = natDigitsAux g n := by
  intro n
  induction n using Nat.strong_induction_on with
  | _ n ih =>
    intro f g hf hg
    cases f with
    | zero => omega
    | succ f' =>
      cases g with
      | zero => omega
      | succ g' =>
        show (if n < 10 then _ else _) = (if n < 10 then _ else _)
        by_cases h10 : n < 10
        · rw [if_pos h10, if_pos h10]
        · rw [if_neg h10, if_neg h10]
          have hdiv : n / 10 < n := Nat.div_lt_self (by omega) (by omega)
          rw [ih (n / 10) hdiv f' g' (by omega) (by omega)]

theorem natDigits_def (n : Nat) :
    natDigits n = if n < 10 then [digitChar n] else natDigits (n / 10) ++ [digitChar (n % 10)] := by
  by_cases h10 : n < 10
  · rw [if_pos h10]
    show (if n < 10 then _ else _) = _
    rw [if_pos h10]
  · rw [if_neg h10]
    show (if n < 10 then _ else _) = _
    rw [if_neg h10]
    have hdiv : n / 10 < n := Nat.div_lt_self (by omega) (by omega)
    rw [natDigitsAux_fuel (n / 10) n (n / 10 + 1) (by omega) (by omega)]
    rfl

theorem digitChar_isDig : ∀ d : Nat, isDigB (digitChar d) = true := by
  intro d
  match d with
  | 0 | 1 | 2 | 3 | 4 | 5 | 6 | 7 | 8 => rfl
  | n+9 => rfl

theorem digitChar_inj : ∀ a < 10, ∀ b < 10, digitChar a = digitChar b → a = b := by
  decide

theorem natDigits_ne_nil (n : Nat) : natDigits n ≠ [] := by
  rw [natDigits_def]
  by_cases h : n < 10 <;> simp [h]

theorem natDigits_all_digits : ∀ n, ∀ ch ∈ natDigits n, isDigB ch = true := by
  intro n
  induction n using Nat.strong_induction_on with
  | _ n ih =>
    rw [natDigits_def]
    by_cases h : n < 10
    · simp only [h, if_true]
      intro ch hch
      simp only [List.mem_singleton] at hch
      subst hch
      exact digitChar_isDig n
    · simp only [h, if_false]
      intro ch hch
      rcases List.mem_append.1 hch with hl | hr
      · exact ih (n / 10) (Nat.div_lt_self (by omega) (by omega)) ch hl
      · simp only [List.mem_singleton] at hr
        subst hr
        exact digitChar_isDig (n % 10)

theorem natDigits_inj : ∀ m n : Nat, natDigits m = natDigits n → m = n := by
  intro m
  induction m using Nat.strong_induction_on with
  | _ m ih =>
    intro n h
    rw [natDigits_def m, natDigits_def n] at h
    by_cases hm : m < 10 <;> by_cases hn : n < 10
    · simp only [hm, hn, if_true] at h
      exact digitChar_inj m hm n hn (by simpa using h)
    · simp only [hm, hn, if_true, if_false] at h
      exfalso
      have := congrArg List.length h
      have hne := natDigits_ne_nil (n / 10)
      simp only [List.length_append, List.length_singleton] at this
      cases hd : natDigits (n / 10) with
      | nil => exact hne hd
      | cons a l => rw [hd] at this; simp at this
    · simp only [hm, hn, if_false, if_true] at h
      exfalso
      have := congrArg List.length h
      have hne := natDigits_ne_nil (m / 10)
      simp only [List.length_append, List.length_singleton] at this
      cases hd : natDigits (m / 10) with
      | nil => exact hne hd
      | cons a l => rw [hd] at this; simp at this
    · simp only [hm, hn, if_false] at h
      have hlen : (natDigits (m / 10)).length = (natDigits (n / 10)).length := by
        have := congrArg List.length h
        simp only [List.length_append, List.length_singleton] at this
        omega
      obtain ⟨h1, h2⟩ := List.append_inj h hlen
      have hq : m / 10 = n / 10 := ih (m / 10) (Nat.div_lt_self (by omega) (by omega)) (n / 10) h1
      have hr : m % 10 = n % 10 :=
        digitChar_inj _ (Nat.mod_lt _ (by omega)) _ (Nat.mod_lt _ (by omega)) (by simpa using h2)
      omega

theorem natStr_inj {m n : Nat} (h : natStr m = natStr n) : m = n :=
  natDigits_inj m n (congrArg String.data h)

/-- Splitting a concatenation at the first non-digit character is unambiguous. -/
theorem digits_token_split : ∀ (a b : List Char) (x y : Char) (r s : List Char),
    (∀ ch ∈ a, isDigB ch = true) → (∀ ch ∈ b, isDigB ch = true) →
    isDigB x = false → isDigB y = false →
    a ++ x :: r = b ++ y :: s → a = b ∧ x = y ∧ r = s := by
  intro a
  induction a with
  | nil =>
    intro b x y r s _ hb hx hy h
    cases b with
    | nil =>
      simp only [List.nil_append] at h
      injection h with h1 h2
      exact ⟨rfl, h1, h2⟩
    | cons c bs =>
      exfalso
      simp only [List.nil_append, List.cons_append] at h
      injection h with h1 _
      have hc := hb c (List.mem_cons_self _ _)
      rw [← h1, hx] at hc
      exact absurd hc (by decide)
  | cons c as iha =>
    intro b x y r s ha hb hx hy h
    cases b with
    | nil =>
      exfalso
      simp only [List.nil_append, List.cons_append] at h
      injection h with h1 _
      have hc := ha c (List.mem_cons_self _ _)
      rw [h1, hy] at hc
      exact absurd hc (by decide)
    | cons c' bs =>
      simp only [List.cons_append] at h
      injection h with h1 h2
      obtain ⟨e1, e2, e3⟩ := iha bs x y r s
        (fun ch hch => ha ch (List.mem_cons_of_mem _ hch))
        (fun ch hch => hb ch (List.mem_cons_of_mem _ hch)) hx hy h2
      exact ⟨by rw [h1, e1], e2, e3⟩

/-- An all-digit run never equals a list whose suffix starts with a non-digit. -/
theorem all_digits_ne_append (d b : List Char) (y : Char) (s : List Char)
    (hd : ∀ ch ∈ d, isDigB ch = true) (hy : isDigB y = false) : d ≠ b ++ y :: s := by
  intro h
  have hmem : y ∈ d := by
    rw [h]
    exact List.mem_append.2 (Or.inr (List.mem_cons_self _ _))
  rw [hd y hmem] at hy
  exact absurd hy (by decide)

theorem str_data_append (a b : String) : (a ++ b).data = a.data ++ b.data := by
  cases a; cases b; rfl

theorem str_append_assoc (a b c : String) : a ++ b ++ c = a ++ (b ++ c) := by
  cases a; cases b; cases c
  show String.mk _ = String.mk _
  rw [List.append_assoc]

theorem str_ne_of_data {a b : String} (h : a.data ≠ b.data) : a ≠ b :=
  fun he => h (congrArg String.data he)

theorem str_data_eq {a b : String} (h : a = b) : a.data = b.data := congrArg String.data h

/-- Disagreement at one position refutes list equality. -/
theorem ne_of_idx {l m : List Char} (i : Nat) (h : l[i]? ≠ m[i]?) : l ≠ m :=
  fun he => h (he ▸ rfl)

theorem dinsert_cons_pos {α : Type} (k : String) (v : α) (e : String × α)
    (rest : List (String × α)) (h : e.1 = k) : dinsert k v (e :: rest) = (k, v) :: rest := by
  show (if e.1 = k then _ else _) = _
  rw [if_pos h]

theorem dinsert_cons_neg {α : Type} (k : String) (v : α) (e : String × α)
    (rest : List (String × α)) (h : ¬ e.1 = k) : dinsert k v (e :: rest) = e :: dinsert k v rest := by
  show (if e.1 = k then _ else _) = _
  rw [if_neg h]

theorem derase_cons_pos {α : Type} (k : String) (e : String × α)
    (rest : List (String × α)) (h : e.1 = k) : derase k (e :: rest) = rest := by
  show (if e.1 = k then _ else _) = _
  rw [if_pos h]

theorem derase_cons_neg {α : Type} (k : String) (e : String × α)
    (rest : List (String × α)) (h : ¬ e.1 = k) : derase k (e :: rest) = e :: derase k rest := by
  show (if e.1 = k then _ else _) = _
  rw [if_neg h]

theorem dlookup_cons_pos {α : Type} (k : String) (e : String × α)
    (rest : List (String × α)) (h : e.1 = k) : dlookup k (e :: rest) = some e.2 := by
  show (if e.1 = k then _ else _) = _
  rw [if_pos h]

theorem dlookup_cons_neg {α : Type} (k : String) (e : String × α)
    (rest : List (String × α)) (h : ¬ e.1 = k) : dlookup k (e :: rest) = dlookup k rest := by
  show (if e.1 = k then _ else _) = _
  rw [if_neg h]

theorem dlookup_isSome_iff {α : Type} (k : String) :
    ∀ m : List (String × α), (dlookup k m).isSome = true ↔ k ∈ m.map Prod.fst := by
  intro m
  induction m with
  | nil => simp [dlookup]
  | cons e rest ih =>
    simp only [List.map_cons, List.mem_cons]
    by_cases h : e.1 = k
    · rw [dlookup_cons_pos k e rest h]
      simp [h]
    · rw [dlookup_cons_neg k e rest h]
      rw [ih]
      constructor
      · intro hm
        exact Or.inr hm
      · intro hm
        rcases hm with hm | hm
        · exact absurd hm.symm h
        · exact hm

theorem dlookup_eq_none_iff {α : Type} (k : String) :
    ∀ m : List (String × α), dlookup k m = none ↔ k ∉ m.map Prod.fst := by
  intro m
  constructor
  · intro h hmem
    have hs := (dlookup_isSome_iff k m).2 hmem
    rw [h] at hs
    simp at hs
  · intro h
    cases he : dlookup k m with
    | none => rfl
    | some v =>
      exact absurd ((dlookup_isSome_iff k m).1 (by rw [he]; rfl)) h

theorem dlookup_mem {α : Type} (k : String) :
    ∀ m : List (String × α), ∀ v, dlookup k m = some v → (k, v) ∈ m := by
  intro m
  induction m with
  | nil => intro v h; simp [dlookup] at h
  | cons e rest ih =>
    intro v h
    by_cases he : e.1 = k
    · rw [dlookup_cons_pos k e rest he] at h
      have hv : e.2 = v := Option.some.inj h
      have he2 : e = (k, v) := by
        rw [← he, ← hv]
      rw [← he2]
      exact List.mem_cons_self _ _
    · rw [dlookup_cons_neg k e rest he] at h
      exact List.mem_cons_of_mem _ (ih v h)

theorem keys_dinsert {α : Type} (k : String) (v : α) :
    ∀ m : List (String × α), (dinsert k v m).map Prod.fst =
      if k ∈ m.map Prod.fst then m.map Prod.fst else m.map Prod.fst ++ [k] := by
  intro m
  induction m with
  | nil => simp [dinsert]
  | cons e rest ih =>
    by_cases h : e.1 = k
    · rw [dinsert_cons_pos k v e rest h]
      rw [if_pos (by simp [List.map_cons, List.mem_cons, h.symm])]
      simp [List.map_cons, h]
    · rw [dinsert_cons_neg k v e rest h]
      simp only [List.map_cons, ih]
      by_cases hm : k ∈ rest.map Prod.fst
      · rw [if_pos hm, if_pos (by simp [List.mem_cons, hm])]
      · rw [if_neg hm, if_neg (by
          simp only [List.mem_cons]
          push_neg
          exact ⟨fun hk => h hk.symm, hm⟩)]
        simp

theorem nodup_keys_dinsert {α : Type} (k : String) (v : α) (m : List (String × α))
    (h : (m.map Prod.fst).Nodup) : ((dinsert k v m).map Prod.fst).Nodup := by
  rw [keys_dinsert]
  by_cases hm : k ∈ m.map Prod.fst
  · rw [if_pos hm]
    exact h
  · rw [if_neg hm]
    refine List.Nodup.append h (by simp) ?_
    intro a ha hb
    simp only [List.mem_singleton] at hb
    exact hm (hb ▸ ha)

theorem length_dinsert {α : Type} (k : String) (v : α) :
    ∀ m : List (String × α), (dinsert k v m).length =
      if k ∈ m.map Prod.fst then m.length else m.length + 1 := by
  intro m
  induction m with
  | nil => simp [dinsert]
  | cons e rest ih =>
    by_cases h : e.1 = k
    · rw [dinsert_cons_pos k v e rest h]
      rw [if_pos (by simp [List.map_cons, List.mem_cons, h.symm])]
      simp
    · rw [dinsert_cons_neg k v e rest h]
      simp only [List.length_cons, ih, List.map_cons]
      by_cases hm : k ∈ rest.map Prod.fst
      · rw [if_pos hm, if_pos (by simp [List.mem_cons, hm])]
      · rw [if_neg hm, if_neg (by
          simp only [List.mem_cons]
          push_neg
          exact ⟨fun hk => h hk.symm, hm⟩)]

theorem dlookup_dinsert_self {α : Type} (k : String) (v : α) :
    ∀ m : List (String × α), dlookup k (dinsert k v m) = some v := by
  intro m
  induction m with
  | nil =>
    show dlookup k [(k, v)] = some v
    exact dlookup_cons_pos k (k, v) [] rfl
  | cons e rest ih =>
    by_cases h : e.1 = k
    · rw [dinsert_cons_pos k v e rest h]
      exact dlookup_cons_pos k (k, v) rest rfl
    · rw [dinsert_cons_neg k v e rest h]
      rw [dlookup_cons_neg k e _ h]
      exact ih

theorem dlookup_dinsert_ne {α : Type} (k k' : String) (v : α) (hne : k' ≠ k) :
    ∀ m : List (String × α), dlookup k' (dinsert k v m) = dlookup k' m := by
  intro m
  induction m with
  | nil =>
    show dlookup k' [(k, v)] = dlookup k' []
    rw [dlookup_cons_neg k' (k, v) [] (fun hh => hne hh.symm)]
  | cons e rest ih =>
    by_cases h : e.1 = k
    · rw [dinsert_cons_pos k v e rest h]
      rw [dlookup_cons_neg k' (k, v) rest (fun hh => hne hh.symm)]
      rw [dlookup_cons_neg k' e rest (by rw [h]; exact fun hh => hne hh.symm)]
    · rw [dinsert_cons_neg k v e rest h]
      by_cases h' : e.1 = k'
      · rw [dlookup_cons_pos k' e _ h', dlookup_cons_pos k' e rest h']
      · rw [dlookup_cons_neg k' e _ h', dlookup_cons_neg k' e rest h']
        exact ih

theorem dlookup_dinsert_cases {α : Type} (k k' : String) (v : α) (m : List (String × α)) (w : α)
    (h : dlookup k' (dinsert k v m) = some w) :
    (k' = k ∧ w = v) ∨ dlookup k' m = some w := by
  by_cases he : k' = k
  · subst he
    rw [dlookup_dinsert_self] at h
    exact Or.inl ⟨rfl, (Option.some.inj h).symm⟩
  · rw [dlookup_dinsert_ne k k' v he] at h
    exact Or.inr h

theorem mem_dinsert {α : Type} (k : String) (v : α) :
    ∀ (m : List (String × α)) (e : String × α), e ∈ dinsert k v m → e = (k, v) ∨ e ∈ m := by
  intro m
  induction m with
  | nil =>
    intro e he
    simp only [dinsert, List.mem_singleton] at he
    exact Or.inl he
  | cons f rest ih =>
    intro e he
    by_cases h : f.1 = k
    · rw [dinsert_cons_pos k v f rest h] at he
      rcases List.mem_cons.1 he with h1 | h2
      · exact Or.inl h1
      · exact Or.inr (List.mem_cons_of_mem _ h2)
    · rw [dinsert_cons_neg k v f rest h] at he
      rcases List.mem_cons.1 he with h1 | h2
      · exact Or.inr (h1 ▸ List.mem_cons_self _ _)
      · rcases ih e h2 with h3 | h4
        · exact Or.inl h3
        · exact Or.inr (List.mem_cons_of_mem _ h4)

theorem derase_sublist {α : Type} (k : String) :
    ∀ m : List (String × α), List.Sublist (derase k m) m := by
  intro m
  induction m with
  | nil => exact List.Sublist.refl _
  | cons e rest ih =>
    by_cases h : e.1 = k
    · rw [derase_cons_pos k e rest h]
      exact List.sublist_cons_self e rest
    · rw [derase_cons_neg k e rest h]
      exact List.Sublist.cons₂ e ih

theorem mem_derase_of_ne {α : Type} (k : String) :
    ∀ m : List (String × α), ∀ e : String × α, e ∈ m → e.1 ≠ k → e ∈ derase k m := by
  intro m
  induction m with
  | nil => intro e he _; simp at he
  | cons f rest ih =>
    intro e he hne
    by_cases h : f.1 = k
    · rw [derase_cons_pos k f rest h]
      rcases List.mem_cons.1 he with h1 | h2
      · exact absurd (h1 ▸ h) hne
      · exact h2
    · rw [derase_cons_neg k f rest h]
      rcases List.mem_cons.1 he with h1 | h2
      · exact h1 ▸ List.mem_cons_self _ _
      · exact List.mem_cons_of_mem _ (ih e h2 hne)

theorem mem_of_mem_derase {α : Type} (k : String) :
    ∀ m : List (String × α), ∀ e : String × α, e ∈ derase k m → e ∈ m := by
  intro m e he
  exact (derase_sublist k m).subset he

theorem nodup_keys_derase {α : Type} (k : String) (m : List (String × α))
    (h : (m.map Prod.fst).Nodup) : ((derase k m).map Prod.fst).Nodup :=
  h.sublist ((derase_sublist k m).map Prod.fst)

theorem derase_of_not_mem {α : Type} (k : String) :
    ∀ m : List (String × α), k ∉ m.map Prod.fst → derase k m = m := by
  intro m
  induction m with
  | nil => intro _; rfl
  | cons e rest ih =>
    intro h
    simp only [List.map_cons, List.mem_cons] at h
    push_neg at h
    rw [derase_cons_neg k e rest (fun hh => h.1 hh.symm)]
    rw [ih h.2]

theorem dlookup_derase_self {α : Type} (k : String) :
    ∀ m : List (String × α), (m.map Prod.fst).Nodup → dlookup k (derase k m) = none := by
  intro m
  induction m with
  | nil => intro _; rfl
  | cons e rest ih =>
    intro hnd
    simp only [List.map_cons, List.nodup_cons] at hnd
    by_cases h : e.1 = k
    · rw [derase_cons_pos k e rest h]
      rw [dlookup_eq_none_iff]
      rw [← h]
      exact hnd.1
    · rw [derase_cons_neg k e rest h]
      rw [dlookup_cons_neg k e _ h]
      exact ih hnd.2

theorem dlookup_derase_ne {α : Type} (k k' : String) (hne : k' ≠ k) :
    ∀ m : List (String × α), dlookup k' (derase k m) = dlookup k' m := by
  intro m
  induction m with
  | nil => rfl
  | cons e rest ih =>
    by_cases h : e.1 = k
    · rw [derase_cons_pos k e rest h]
      rw [dlookup_cons_neg k' e rest (by rw [h]; exact fun hh => hne hh.symm)]
    · rw [derase_cons_neg k e rest h]
      by_cases h' : e.1 = k'
      · rw [dlookup_cons_pos k' e _ h', dlookup_cons_pos k' e rest h']
      · rw [dlookup_cons_neg k' e _ h', dlookup_cons_neg k' e rest h']
        exact ih

theorem derase_append {α : Type} (k : String) :
    ∀ (a b : List (String × α)), k ∉ a.map Prod.fst → derase k (a ++ b) = a ++ derase k b := by
  intro a
  induction a with
  | nil => intro b _; rfl
  | cons e rest ih =>
    intro b h
    simp only [List.map_cons, List.mem_cons] at h
    push_neg at h
    rw [List.cons_append, derase_cons_neg k e _ (fun hh => h.1 hh.symm)]
    rw [ih b h.2, List.cons_append]

theorem length_derase_of_mem {α : Type} (k : String) :
    ∀ m : List (String × α), k ∈ m.map Prod.fst → (derase k m).length + 1 = m.length := by
  intro m
  induction m with
  | nil => intro h; simp at h
  | cons e rest ih =>
    intro h
    by_cases he : e.1 = k
    · rw [derase_cons_pos k e rest he]
      simp
    · simp only [List.map_cons, List.mem_cons] at h
      rcases h with h1 | h2
      · exact absurd h1.symm he
      · rw [derase_cons_neg k e rest he]
        simp only [List.length_cons]
        rw [← ih h2]

theorem keys_foldl_dinsert {α : Type} :
    ∀ (entries : List (String × α)) (m : List (String × α)) (k : String),
      (k ∈ (entries.foldl (fun m e => dinsert e.1 e.2 m) m).map Prod.fst ↔
        k ∈ m.map Prod.fst ∨ k ∈ entries.map Prod.fst) := by
  intro entries
  induction entries with
  | nil => intro m k; simp
  | cons e rest ih =>
    intro m k
    simp only [List.foldl_cons, ih, List.map_cons, List.mem_cons]
    rw [keys_dinsert]
    by_cases hm : e.1 ∈ m.map Prod.fst
    · rw [if_pos hm]
      constructor
      · intro h
        rcases h with h | h
        · exact Or.inl h
        · exact Or.inr (Or.inr h)
      · intro h
        rcases h with h | h | h
        · exact Or.inl h
        · exact Or.inl (h ▸ hm)
        · exact Or.inr h
    · rw [if_neg hm]
      constructor
      · intro h
        rcases h with h | h
        · rcases List.mem_append.1 h with h | h
          · exact Or.inl h
          · simp only [List.mem_singleton] at h
            exact Or.inr (Or.inl h)
        · exact Or.inr (Or.inr h)
      · intro h
        rcases h with h | h | h
        · exact Or.inl (List.mem_append.2 (Or.inl h))
        · exact Or.inl (List.mem_append.2 (Or.inr (by simp [h])))
        · exact Or.inr h

theorem mem_keys_buildDict {α : Type} (entries : List (String × α)) (k : String) :
    k ∈ (buildDict entries).map Prod.fst ↔ k ∈ entries.map Prod.fst := by
  rw [buildDict, keys_foldl_dinsert]
  simp

theorem nodup_keys_foldl_dinsert {α : Type} :
    ∀ (entries : List (String × α)) (m : List (String × α)),
      (m.map Prod.fst).Nodup →
      ((entries.foldl (fun m e => dinsert e.1 e.2 m) m).map Prod.fst).Nodup := by
  intro entries
  induction entries with
  | nil => intro m h; simpa using h
  | cons e rest ih =>
    intro m h
    exact ih _ (nodup_keys_dinsert e.1 e.2 m h)

theorem nodup_keys_buildDict {α : Type} (entries : List (String × α)) :
    ((buildDict entries).map Prod.fst).Nodup :=
  nodup_keys_foldl_dinsert entries [] (by simp)

theorem mem_foldl_dinsert {α : Type} :
    ∀ (entries : List (String × α)) (m : List (String × α)) (e : String × α),
      e ∈ entries.foldl (fun m e => dinsert e.1 e.2 m) m → e ∈ entries ∨ e ∈ m := by
  intro entries
  induction entries with
  | nil => intro m e h; exact Or.inr h
  | cons f rest ih =>
    intro m e h
    rcases ih _ e h with h1 | h2
    · exact Or.inl (List.mem_cons_of_mem _ h1)
    · rcases mem_dinsert f.1 f.2 m e h2 with h3 | h4
      · refine Or.inl ?_
        rw [h3]
        have : (f.1, f.2) = f := rfl
        rw [this]
        exact List.mem_cons_self _ _
      · exact Or.inr h4

theorem mem_buildDict {α : Type} (entries : List (String × α)) (e : String × α)
    (h : e ∈ buildDict entries) : e ∈ entries := by
  rcases mem_foldl_dinsert entries [] e h with h1 | h2
  · exact h1
  · simp at h2

theorem length_foldl_dinsert_of_nodup {α : Type} :
    ∀ (entries : List (String × α)) (m : List (String × α)),
      (entries.map Prod.fst).Nodup →
      (∀ k ∈ entries.map Prod.fst, k ∉ m.map Prod.fst) →
      (entries.foldl (fun m e => dinsert e.1 e.2 m) m).length = m.length + entries.length := by
  intro entries
  induction entries with
  | nil => intro m _ _; simp
  | cons e rest ih =>
    intro m hnd hdisj
    simp only [List.map_cons, List.nodup_cons] at hnd
    simp only [List.foldl_cons]
    have h1 : e.1 ∉ m.map Prod.fst := hdisj e.1 (by simp)
    have hlen : (dinsert e.1 e.2 m).length = m.length + 1 := by
      rw [length_dinsert, if_neg h1]
    rw [ih (dinsert e.1 e.2 m) hnd.2]
    · rw [hlen]
      simp only [List.length_cons]
      omega
    · intro k hk
      rw [keys_dinsert, if_neg h1]
      intro hmem
      rcases List.mem_append.1 hmem with h2 | h3
      · exact hdisj k (List.mem_cons_of_mem _ hk) h2
      · simp only [List.mem_singleton] at h3
        exact hnd.1 (h3 ▸ hk)

theorem length_buildDict_of_nodup {α : Type} (entries : List (String × α))
    (hnd : (entries.map Prod.fst).Nodup) : (buildDict entries).length = entries.length := by
  rw [buildDict, length_foldl_dinsert_of_nodup entries [] hnd (by simp)]
  simp

theorem dlookup_foldl_dinsert_mem {α : Type} :
    ∀ (entries : List (String × α)) (m : List (String × α)) (k : String) (v : α),
      dlookup k (entries.foldl (fun m e => dinsert e.1 e.2 m) m) = some v →
      (k, v) ∈ entries ∨ dlookup k m = some v := by
  intro entries
  induction entries with
  | nil => intro m k v h; exact Or.inr h
  | cons e rest ih =>
    intro m k v h
    rcases ih _ k v h with h1 | h2
    · exact Or.inl (List.mem_cons_of_mem _ h1)
    · rcases dlookup_dinsert_cases e.1 k e.2 m v h2 with ⟨hk, hv⟩ | h3
      · refine Or.inl ?_
        rw [hk, hv]
        have : (e.1, e.2) = e := rfl
        rw [this]
        exact List.mem_cons_self _ _
      · exact Or.inr h3

theorem dlookup_buildDict_mem {α : Type} (entries : List (String × α)) (k : String) (v : α)
    (h : dlookup k (buildDict entries) = some v) : (k, v) ∈ entries := by
  rcases dlookup_foldl_dinsert_mem entries [] k v h with h1 | h2
  · exact h1
  · simp [dlookup] at h2

example : (generate_components cfgN1).length = 11 := by decide

example : (buildHeatpump cfgN1).isSome = true := by decide

/-! ### Lexicographic comparison and descending sort -/

theorem strLtB_cons (p q : Char) (ps qs : List Char) :
    strLtB (p :: ps) (q :: qs) =
      if p.toNat < q.toNat then true
      else if q.toNat < p.toNat then false
      else strLtB ps qs := rfl

theorem strLtB_asymm : ∀ a b : List Char, strLtB a b = true → strLtB b a = false := by
  intro a
  induction a with
  | nil =>
    intro b h
    cases b with
    | nil => exact absurd h (by decide)
    | cons c cs => rfl
  | cons x xs ih =>
    intro b h
    cases b with
    | nil => simp [strLtB] at h
    | cons y ys =>
      rw [strLtB_cons] at h
      rw [strLtB_cons]
      by_cases h1 : x.toNat < y.toNat
      · rw [if_neg (by omega), if_pos h1]
      · rw [if_neg h1] at h
        by_cases h2 : y.toNat < x.toNat
        · rw [if_pos h2] at h
          exact absurd h (by decide)
        · rw [if_neg h2] at h
          rw [if_neg (by omega), if_neg (by omega)]
          exact ih ys h

theorem strLtB_trans : ∀ a b c : List Char,
    strLtB a b = true → strLtB b c = true → strLtB a c = true := by
  intro a
  induction a with
  | nil =>
    intro b c hab hbc
    cases c with
    | nil =>
      cases b with
      | nil => exact absurd hab (by decide)
      | cons d ds => simp [strLtB] at hbc
    | cons e es => rfl
  | cons x xs ih =>
    intro b c hab hbc
    cases b with
    | nil => simp [strLtB] at hab
    | cons y ys =>
      cases c with
      | nil => simp [strLtB] at hbc
      | cons z zs =>
        rw [strLtB_cons] at hab hbc
        rw [strLtB_cons]
        by_cases h1 : x.toNat < y.toNat
        · by_cases h2 : y.toNat < z.toNat
          · rw [if_pos (by omega)]
          · rw [if_neg h2] at hbc
            by_cases h3 : z.toNat < y.toNat
            · rw [if_pos h3] at hbc
              exact absurd hbc (by decide)
            · rw [if_pos (by omega)]
        · rw [if_neg h1] at hab
          by_cases h1' : y.toNat < x.toNat
          · rw [if_pos h1'] at hab
            exact absurd hab (by decide)
          · rw [if_neg h1'] at hab
            by_cases h2 : y.toNat < z.toNat
            · rw [if_pos (by omega)]
            · rw [if_neg h2] at hbc
              by_cases h3 : z.toNat < y.toNat
              · rw [if_pos h3] at hbc
                exact absurd hbc (by decide)
              · rw [if_neg h3] at hbc
                rw [if_neg (by omega), if_neg (by omega)]
                exact ih ys zs hab hbc

theorem mem_insertRev : ∀ (l : List String) (x y : String),
    y ∈ insertRev x l ↔ y = x ∨ y ∈ l := by
  intro l x y
  induction l with
  | nil => simp [insertRev]
  | cons z zs ih =>
    show y ∈ (if strLtB z.data x.data = true then x :: z :: zs else z :: insertRev x zs) ↔ _
    by_cases h : strLtB z.data x.data = true
    · rw [if_pos h]
      simp [List.mem_cons]
    · rw [if_neg h]
      simp only [List.mem_cons, ih]
      tauto

theorem insertRev_perm : ∀ (l : List String) (x : String), (insertRev x l).Perm (x :: l) := by
  intro l x
  induction l with
  | nil => exact List.Perm.refl _
  | cons z zs ih =>
    show (if strLtB z.data x.data = true then x :: z :: zs else z :: insertRev x zs).Perm _
    by_cases h : strLtB z.data x.data = true
    · rw [if_pos h]
    · rw [if_neg h]
      exact (ih.cons z).trans (List.Perm.swap x z zs)

theorem sortRev_perm : ∀ l : List String, (sortRev l).Perm l := by
  intro l
  induction l with
  | nil => exact List.Perm.refl _
  | cons x xs ih =>
    show (insertRev x (sortRev xs)).Perm _
    exact (insertRev_perm (sortRev xs) x).trans (ih.cons x)

theorem insertRev_pairwise : ∀ (l : List String) (x : String),
    l.Pairwise StrGe → (insertRev x l).Pairwise StrGe := by
  intro l x
  induction l with
  | nil => intro _; simp [insertRev]
  | cons y ys ih =>
    intro hp
    rw [List.pairwise_cons] at hp
    obtain ⟨hy, hys⟩ := hp
    show (if strLtB y.data x.data = true then x :: y :: ys else y :: insertRev x ys).Pairwise StrGe
    by_cases h : strLtB y.data x.data = true
    · rw [if_pos h, List.pairwise_cons]
      constructor
      · intro z hz
        rcases List.mem_cons.1 hz with h1 | h2
        · rw [h1]
          show strLtB x.data y.data = false
          exact strLtB_asymm y.data x.data h
        · show strLtB x.data z.data = false
          cases hxz : strLtB x.data z.data with
          | false => rfl
          | true =>
            exfalso
            have htr := strLtB_trans y.data x.data z.data h hxz
            have hyz : strLtB y.data z.data = false := hy z h2
            rw [hyz] at htr
            exact absurd htr (by decide)
      · rw [List.pairwise_cons]
        exact ⟨hy, hys⟩
    · rw [if_neg h, List.pairwise_cons]
      constructor
      · intro z hz
        rcases (mem_insertRev ys x z).1 hz with h1 | h2
        · rw [h1]
          show strLtB y.data x.data = false
          cases hb : strLtB y.data x.data with
          | false => rfl
          | true => exact absurd hb h
        · exact hy z h2
      · exact ih hys

theorem sortRev_pairwise : ∀ l : List String, (sortRev l).Pairwise StrGe := by
  intro l
  induction l with
  | nil => simp [sortRev]
  | cons x xs ih =>
    show (insertRev x (sortRev xs)).Pairwise StrGe
    exact insertRev_pairwise (sortRev xs) x ih

/-! ### Chain characterizations of the wiring loops -/

theorem coldChainCalls_some_links (cycle : Nat) :
    ∀ (rest : List Nat) (w : Nat), (coldChainCalls cycle rest (some w)).map SC.link =
      chainThrough (ihxKey w cycle) "out2" (rest.map (fun s => ihxKey s cycle)) "in2" := by
  intro rest
  induction rest with
  | nil => intro w; rfl
  | cons s r ih =>
    intro w
    show (coldBetweenCall cycle w s :: coldChainCalls cycle r (some s)).map SC.link = _
    rw [List.map_cons, ih s]
    rfl

theorem coldChainCalls_none_links (cycle : Nat) (S : List Nat) :
    (coldChainCalls cycle S none).map SC.link =
      chainThrough (coldUpstream cycle) "out2" (S.map (fun s => ihxKey s cycle)) "in2" := by
  cases S with
  | nil => rfl
  | cons s r =>
    show (coldFirstCall cycle s :: coldChainCalls cycle r (some s)).map SC.link = _
    rw [List.map_cons, coldChainCalls_some_links cycle r s]
    by_cases h : cycle = 1
    · simp only [coldFirstCall, coldUpstream, if_pos h]
      rfl
    · simp only [coldFirstCall, coldUpstream, if_neg h]
      rfl

theorem hotLoopCalls_some_links (cfg : Config) (cycle : Nat) :
    ∀ (rest : List String) (w : String), (hotLoopCalls cfg cycle rest (some w)).map SC.link =
      chainThrough w "out1" rest "in1" := by
  intro rest
  induction rest with
  | nil => intro w; rfl
  | cons u us ih =>
    intro w
    show (hotBetweenCall w u :: hotLoopCalls cfg cycle us (some u)).map SC.link = _
    rw [List.map_cons, ih u]
    rfl

theorem hotLoopCalls_none_links (cfg : Config) (cycle : Nat) (l : List String) :
    (hotLoopCalls cfg cycle l none).map SC.link =
      chainThrough (hotUpstream cfg cycle) "out1" l "in1" := by
  cases l with
  | nil => rfl
  | cons u us =>
    show (hotFirstCall cfg cycle u :: hotLoopCalls cfg cycle us (some u)).map SC.link = _
    rw [List.map_cons, hotLoopCalls_some_links cfg cycle us u]
    by_cases h : cycle = cfg.nr_cycles
    · simp only [hotFirstCall, hotUpstream, if_pos h]
      rfl
    · simp only [hotFirstCall, hotUpstream, if_neg h]
      rfl

theorem hotFinalCall_link (cfg : Config) (cycle : Nat) (o : Option String) :
    (hotFinalCall cfg cycle o).link =
      ⟨o.getD (hotUpstream cfg cycle), "out1", "Cycle Closer " ++ natStr cycle, "in1"⟩ := by
  cases o with
  | none =>
    by_cases h : cycle = cfg.nr_cycles
    · simp only [hotFinalCall, if_pos h, hotUpstream, SC.link, Option.getD]
    · simp only [hotFinalCall, if_neg h, hotUpstream, SC.link, Option.getD]
  | some w => rfl

theorem hotPhaseCalls_links (cfg : Config) (ks : List String) (cycle : Nat) :
    (hotPhaseCalls cfg ks cycle).map SC.link =
      chainThrough (hotUpstream cfg cycle) "out1" (sortRev (hotMatchedKeys ks cycle)) "in1"
        ++ [⟨lastUnitOr (hotUpstream cfg cycle) (sortRev (hotMatchedKeys ks cycle)), "out1",
             "Cycle Closer " ++ natStr cycle, "in1"⟩] := by
  show ((hotLoopCalls cfg cycle (sortRev (hotMatchedKeys ks cycle)) none)
      ++ [hotFinalCall cfg cycle (sortRev (hotMatchedKeys ks cycle)).getLast?]).map SC.link = _
  rw [List.map_append, hotLoopCalls_none_links, List.map_singleton, hotFinalCall_link]
  rfl

/-! ### Claims C1 and C2: the two internal-heat-exchanger chains -/

/-- C2: for every configuration and every cycle `c`, the cold-side chain
built by `generate_topology` consists of exactly the internal-heat-exchanger
units whose source cycle `s` has `c` among its targets, taken in ascending
order of `s` (iteration order `s = 1..nr_cycles`); the chain's cold inlet is
fed by Evaporator 1's second outlet when `c = 1` and by heat exchanger
`(c-1, c)`'s second outlet otherwise; each unit's cold outlet feeds the next
unit's cold inlet; and the final cold outlet — that same upstream outlet when
the chain is empty — feeds the first compressor of cycle `c`.  The last
conjunct places this block inside the per-cycle call sequence. -/
theorem C2_cold_chain (cfg : Config) (c : Nat) :
    cycleIntHeatex cfg c = coldSources cfg c ∧
    (cycleIntHeatex cfg c).Pairwise (· < ·) ∧
    (coldChainCalls c (cycleIntHeatex cfg c) none).map SC.link =
      chainThrough (coldUpstream c) "out2"
        ((cycleIntHeatex cfg c).map (fun s => ihxKey s c)) "in2" ∧
    (∃ feed rest, compressionCalls cfg c (cycleIntHeatex cfg c).getLast? = feed :: rest ∧
      feed.link = ⟨lastUnitOr (coldUpstream c) ((cycleIntHeatex cfg c).map (fun s => ihxKey s c)),
        "out2", firstCompKey cfg c, "in1"⟩) ∧
    (∀ ks, ∃ pre hot, cycleCalls cfg ks c =
      pre ++ (coldChainCalls c (cycleIntHeatex cfg c) none
              ++ compressionCalls cfg c (cycleIntHeatex cfg c).getLast?) ++ hot) := by
  refine ⟨?_, ?_, coldChainCalls_none_links c _, ?_, ?_⟩
  · unfold cycleIntHeatex coldSources
    apply List.filter_congr
    intro s _
    cases hv : cfg.int_heatex s with
    | none => simp [hv, ihTargets]
    | some v =>
      cases v with
      | single t =>
        simp only [hv, ihTargets, List.mem_singleton]
        by_cases h : t = c
        · subst h
          simp
        · have h2 : ¬ c = t := fun hh => h hh.symm
          simp [h, h2]
      | multi ts =>
        simp only [hv, ihTargets]
        by_cases h : c ∈ ts
        · simp [h]
        · simp [h]
  · exact List.Pairwise.filter _ (List.pairwise_lt_range' 1 cfg.nr_cycles)
  · cases hic : cfg.intercooler c with
    | some ic =>
      simp only [compressionCalls, hic]
      refine ⟨_, _, rfl, ?_⟩
      cases hl : (cycleIntHeatex cfg c).getLast? with
      | none =>
        by_cases h : c = 1
        · subst h
          simp [compFeedIc, lastUnitOr, List.getLast?_map, hl, coldUpstream, firstCompKey,
            hic, SC.link]
        · simp [compFeedIc, lastUnitOr, List.getLast?_map, hl, coldUpstream, firstCompKey,
            hic, SC.link, h]
      | some l =>
        simp [compFeedIc, lastUnitOr, List.getLast?_map, hl, firstCompKey, hic, SC.link]
    | none =>
      simp only [compressionCalls, hic]
      refine ⟨_, _, rfl, ?_⟩
      cases hl : (cycleIntHeatex cfg c).getLast? with
      | none =>
        by_cases h : c = 1
        · subst h
          simp [compFeedSingle, lastUnitOr, List.getLast?_map, hl, coldUpstream, firstCompKey,
            hic, SC.link]
        · simp [compFeedSingle, lastUnitOr, List.getLast?_map, hl, coldUpstream, firstCompKey,
            hic, SC.link, h]
      | some l =>
        simp [compFeedSingle, lastUnitOr, List.getLast?_map, hl, firstCompKey, hic, SC.link]
  · intro ks
    exact ⟨[ccValveCall c] ++ valveHeatExCalls c, hotPhaseCalls cfg ks c,
      by simp [cycleCalls, List.append_assoc]⟩

/-- C1 (amended): for every configuration and every cycle `c`, the hot-side
return chain built by `generate_topology` visits the component-table keys
containing the substring `Internal Heat Exchanger c` in descending
lexicographic (string) order — which equals descending target-index order only
when the indices compare alike as strings, e.g. when all are single-digit; the
hot outlet of the condenser (when `c = nr_cycles`) or of heat exchanger
`(c, c+1)` feeds the first key in that order, each unit's hot outlet feeds the
next unit's hot inlet, and the last unit's hot outlet feeds Cycle Closer `c`. -/
theorem C1_hot_chain (cfg : Config) (c : Nat) :
    (hotPhaseCalls cfg (compKeysOf cfg) c).map SC.link =
      chainThrough (hotUpstream cfg c) "out1"
          (sortRev (hotMatchedKeys (compKeysOf cfg) c)) "in1"
        ++ [⟨lastUnitOr (hotUpstream cfg c) (sortRev (hotMatchedKeys (compKeysOf cfg) c)),
             "out1", "Cycle Closer " ++ natStr c, "in1"⟩] ∧
    (sortRev (hotMatchedKeys (compKeysOf cfg) c)).Pairwise StrGe ∧
    (sortRev (hotMatchedKeys (compKeysOf cfg) c)).Perm (hotMatchedKeys (compKeysOf cfg) c) ∧
    (∀ ks, ∃ pre, cycleCalls cfg ks c = pre ++ hotPhaseCalls cfg ks c) := by
  refine ⟨hotPhaseCalls_links cfg (compKeysOf cfg) c, sortRev_pairwise _, sortRev_perm _, ?_⟩
  intro ks
  exact ⟨[ccValveCall c] ++ valveHeatExCalls c
      ++ (coldChainCalls c (cycleIntHeatex cfg c) none
          ++ compressionCalls cfg c (cycleIntHeatex cfg c).getLast?),
    by simp [cycleCalls, List.append_assoc]⟩

/-- C1 fails as stated: with ten cycles and `int_heatex = {1: [9, 10]}`, the
string sort places `Internal Heat Exchanger 1_9` before
`Internal Heat Exchanger 1_10`, so the hot chain visits target 9 before
target 10 instead of in descending target-index order. -/
theorem C1_cex_decimal_order : ¬ C1ClaimAt cfgC1cex 1 := by
  unfold C1ClaimAt
  decide

/-! ### Claim C3: intercooler expansion and strict alternation -/

theorem flatMap_congr_mem {α β : Type} :
    ∀ (l : List α) (f g : α → List β), (∀ x ∈ l, f x = g x) → l.flatMap f = l.flatMap g := by
  intro l
  induction l with
  | nil => intro f g _; rfl
  | cons x xs ih =>
    intro f g h
    simp only [List.flatMap_cons]
    rw [h x (List.mem_cons_self _ _), ih f g (fun y hy => h y (List.mem_cons_of_mem _ hy))]

theorem range'_one_concat (n : Nat) : List.range' 1 (n+1) = List.range' 1 n ++ [n+1] := by
  rw [List.range'_concat]
  congr 1
  simp [Nat.add_comm]

theorem flatMap_pair_length {α β : Type} (f g : β → α) :
    ∀ l : List β, (l.flatMap (fun i => [f i, g i])).length = 2 * l.length := by
  intro l
  induction l with
  | nil => rfl
  | cons x xs ih =>
    simp only [List.flatMap_cons, List.length_append, List.length_cons, List.length_nil, ih]
    omega

theorem flatMap_pair_countP {α β : Type} (p : α → Bool) (f g : β → α)
    (hf : ∀ i, p (f i) = false) (hg : ∀ i, p (g i) = true) :
    ∀ l : List β, (l.flatMap (fun i => [f i, g i])).countP p = l.length := by
  intro l
  induction l with
  | nil => rfl
  | cons x xs ih =>
    simp [List.flatMap_cons, List.countP_append, List.countP_cons, hf x, hg x, ih]

theorem flatMap_pair_map {α β γ : Type} (g : α → γ) (f1 f2 : β → α) :
    ∀ l : List β, (l.flatMap (fun i => [f1 i, f2 i])).map g
      = l.flatMap (fun i => [g (f1 i), g (f2 i)]) := by
  intro l
  induction l with
  | nil => rfl
  | cons x xs ih =>
    simp only [List.flatMap_cons, List.map_append, ih]
    rfl

/-- The creation loop of `generate_components` for an intercooled cycle in
normal form: stages `1..k` each contribute the intercooler and the stage
compressor, stage `k+1` the final compressor alone. -/
theorem icEntries_normal (c : Nat) (ic : IcSpec) :
    icEntries c ic =
      (List.range' 1 ic.amount).flatMap (fun i =>
        [(icKeyH c i, ⟨icKeyH c i, icKind ic.icType⟩),
         (compKeyH c i, ⟨compLabelU c i, .compressor⟩)])
      ++ [(compKeyH c (ic.amount+1), ⟨compLabelU c (ic.amount+1), .compressor⟩)] := by
  unfold icEntries
  rw [range'_one_concat, List.flatMap_append]
  congr 1
  · apply flatMap_congr_mem
    intro i hi
    have hlt : i < ic.amount + 1 := by
      have := List.mem_range'_1.1 hi
      omega
    rw [if_pos hlt]
    rfl
  · show (if ic.amount + 1 < ic.amount + 1 then _ else _) ++ _ ++ _ = _
    rw [if_neg (by omega)]
    rfl

/-- C3: for every cycle `c` with an intercooler entry of stage count `k`, the
build creates exactly `k+1` compressor components and `k` intercooler
components for cycle `c` (the creation loop alternates them with no skipped or
repeated stage), and the wiring strictly alternates: compressor `(c,i)`'s
outlet feeds intercooler `(c,i)`'s inlet and intercooler `(c,i)`'s outlet
feeds compressor `(c,i+1)`'s inlet for `i = 1..k`, with the outlet of
compressor `(c,k+1)` discharging into the condenser when `c = nr_cycles` and
into heat exchanger `(c, c+1)` otherwise. -/
theorem C3_intercooler_alternation (cfg : Config) (c : Nat) (ic : IcSpec)
    (hic : cfg.intercooler c = some ic) :
    icEntries c ic =
      (List.range' 1 ic.amount).flatMap (fun i =>
        [(icKeyH c i, ⟨icKeyH c i, icKind ic.icType⟩),
         (compKeyH c i, ⟨compLabelU c i, .compressor⟩)])
      ++ [(compKeyH c (ic.amount+1), ⟨compLabelU c (ic.amount+1), .compressor⟩)] ∧
    (cycleComponentEntries cfg c).countP (fun e => decide (e.2.kind = CKind.compressor))
      = ic.amount + 1 ∧
    (icEntries c ic).length = 2 * ic.amount + 1 ∧
    (∀ last, compressionCalls cfg c last =
      compFeedIc c last
        :: ((List.range' 1 ic.amount).flatMap (icPairCalls c)
            ++ [icDischargeCall cfg c ic.amount])) ∧
    ((List.range' 1 ic.amount).flatMap (icPairCalls c)).map SC.link =
      (List.range' 1 ic.amount).flatMap (fun i =>
        [⟨compKeyH c i, "out1", icKeyH c i, "in1"⟩,
         ⟨icKeyH c i, "out1", compKeyH c (i+1), "in1"⟩]) ∧
    (icDischargeCall cfg c ic.amount).link =
      ⟨compKeyH c (ic.amount+1), "out1",
       (if c = cfg.nr_cycles then "Condenser " ++ natStr c
        else "Heat Exchanger " ++ natStr c ++ "_" ++ natStr (c+1)), "in1"⟩ := by
  refine ⟨icEntries_normal c ic, ?_, ?_, ?_, ?_, ?_⟩
  · simp only [cycleComponentEntries, hic]
    rw [List.countP_append, List.countP_append, List.countP_append, List.countP_append]
    have hA : ([("Cycle Closer " ++ natStr c, (⟨"Cycle Closer " ++ natStr c, .cycleCloser⟩ : Component)),
        ("Valve " ++ natStr c, ⟨"Valve " ++ natStr c, .valve⟩)]).countP
        (fun e => decide (e.2.kind = CKind.compressor)) = 0 := by
      simp [List.countP_cons]
    have hB : (if c ≠ 1 then
        [("Heat Exchanger " ++ natStr (c-1) ++ "_" ++ natStr c,
          (⟨"Heat Exchanger " ++ natStr (c-1) ++ "_" ++ natStr c, .heatExchanger⟩ : Component))]
        else []).countP (fun e => decide (e.2.kind = CKind.compressor)) = 0 := by
      by_cases h : c ≠ 1 <;> simp [h, List.countP_cons]
    have hC : (if c = cfg.nr_cycles then
        [("Condenser " ++ natStr c, (⟨"Condenser " ++ natStr c, .condenser⟩ : Component))]
        else []).countP (fun e => decide (e.2.kind = CKind.compressor)) = 0 := by
      by_cases h : c = cfg.nr_cycles <;> simp [h, List.countP_cons]
    have hD : (icEntries c ic).countP (fun e => decide (e.2.kind = CKind.compressor))
        = ic.amount + 1 := by
      rw [icEntries_normal, List.countP_append]
      rw [flatMap_pair_countP (fun (e : String × Component) => decide (e.2.kind = CKind.compressor))
        (fun i => ((icKeyH c i, ⟨icKeyH c i, icKind ic.icType⟩) : String × Component))
        (fun i => ((compKeyH c i, ⟨compLabelU c i, .compressor⟩) : String × Component))
        (fun i => by cases ic.icType <;> simp [icKind])
        (fun i => by simp)]
      have hlen : (List.range' 1 ic.amount).length = ic.amount := by simp
      simp [hlen, List.countP_cons]
    have hE : ((match cfg.int_heatex c with
        | some tgt => ihxEntries c tgt
        | none => []) : List (String × Component)).countP
        (fun e => decide (e.2.kind = CKind.compressor)) = 0 := by
      cases hih : cfg.int_heatex c with
      | none => rfl
      | some v =>
        cases v with
        | single t => simp [ihxEntries, List.countP_cons]
        | multi ts =>
          rw [List.countP_eq_zero]
          intro e he
          simp only [ihxEntries, List.mem_map] at he
          obtain ⟨t, _, ht⟩ := he
          rw [← ht]
          simp
    rw [hA, hB, hC, hD, hE]
    omega
  · rw [icEntries_normal, List.length_append,
      flatMap_pair_length
        (fun i => ((icKeyH c i, ⟨icKeyH c i, icKind ic.icType⟩) : String × Component))
        (fun i => ((compKeyH c i, ⟨compLabelU c i, .compressor⟩) : String × Component))]
    have hlen : (List.range' 1 ic.amount).length = ic.amount := by simp
    simp [hlen]
  · intro last
    simp only [compressionCalls, hic]
  · have hfl : (List.range' 1 ic.amount).flatMap (icPairCalls c)
        = (List.range' 1 ic.amount).flatMap (fun i =>
          [(⟨"comp" ++ natStr c ++ "-" ++ natStr i ++ "_to_intercooler" ++ natStr c ++ "-"
              ++ natStr i,
            "Compressor " ++ natStr c ++ "-" ++ natStr i, "out1",
            "Intercooler " ++ natStr c ++ "-" ++ natStr i, "in1"⟩ : SC),
           (⟨"intercooler" ++ natStr c ++ "-" ++ natStr i ++ "_to_comp" ++ natStr c ++ "-"
              ++ natStr (i+1),
            "Intercooler " ++ natStr c ++ "-" ++ natStr i, "out1",
            "Compressor " ++ natStr c ++ "-" ++ natStr (i+1), "in1"⟩ : SC)]) := rfl
    rw [hfl, flatMap_pair_map SC.link
      (fun i => (⟨"comp" ++ natStr c ++ "-" ++ natStr i ++ "_to_intercooler" ++ natStr c ++ "-"
          ++ natStr i,
        "Compressor " ++ natStr c ++ "-" ++ natStr i, "out1",
        "Intercooler " ++ natStr c ++ "-" ++ natStr i, "in1"⟩ : SC))
      (fun i => (⟨"intercooler" ++ natStr c ++ "-" ++ natStr i ++ "_to_comp" ++ natStr c ++ "-"
          ++ natStr (i+1),
        "Intercooler " ++ natStr c ++ "-" ++ natStr i, "out1",
        "Compressor " ++ natStr c ++ "-" ++ natStr (i+1), "in1"⟩ : SC))]
    rfl
  · by_cases h : c = cfg.nr_cycles
    · simp [icDischargeCall, h, SC.link, compKeyH]
    · simp [icDischargeCall, h, SC.link, compKeyH]

/-- Witness for C3 at the two-cycle configuration with two intercooler stages
on cycle 1: three compressors and a component list of length five for the
compression block of cycle 1. -/
theorem C3_witness :
    (cycleComponentEntries cfgC3w 1).countP (fun e => decide (e.2.kind = CKind.compressor)) = 3 ∧
    (icEntries 1 ⟨2, .heatExchanger⟩).length = 5 :=
  ⟨(C3_intercooler_alternation cfgC3w 1 ⟨2, .heatExchanger⟩ rfl).2.1,
   (C3_intercooler_alternation cfgC3w 1 ⟨2, .heatExchanger⟩ rfl).2.2.1⟩

/-! ### Totality of the build: every `set_conn` lookup succeeds -/

theorem set_conn_components (hp hp' : Heatpump) (label a o b i : String)
    (h : set_conn hp label a o b i = some hp') : hp'.components = hp.components := by
  unfold set_conn at h
  cases hda : dlookup a hp.components with
  | none =>
    rw [hda] at h
    simp at h
  | some s =>
    rw [hda] at h
    cases hdb : dlookup b hp.components with
    | none =>
      rw [hdb] at h
      simp at h
    | some t =>
      rw [hdb] at h
      simp only [Option.some.injEq] at h
      rw [← h]

theorem runCalls_isSome : ∀ (calls : List SC) (hp : Heatpump),
    (∀ sc ∈ calls, sc.src ∈ hp.components.map Prod.fst ∧ sc.tgt ∈ hp.components.map Prod.fst) →
    (runCalls hp calls).isSome = true := by
  intro calls
  induction calls with
  | nil => intro hp _; rfl
  | cons sc rest ih =>
    intro hp h
    obtain ⟨hsrc, htgt⟩ := h sc (List.mem_cons_self _ _)
    obtain ⟨s, hs⟩ := Option.isSome_iff_exists.1 ((dlookup_isSome_iff _ _).2 hsrc)
    obtain ⟨t, ht⟩ := Option.isSome_iff_exists.1 ((dlookup_isSome_iff _ _).2 htgt)
    have hset : set_conn hp sc.label sc.src sc.outlet sc.tgt sc.inlet
        = some { hp with
            connections := dinsert sc.label ⟨s, sc.outlet, t, sc.inlet⟩ hp.connections } := by
      unfold set_conn
      rw [hs, ht]
    show (runCalls hp (sc :: rest)).isSome = true
    have hrun : runCalls hp (sc :: rest)
        = runCalls { hp with
            connections := dinsert sc.label ⟨s, sc.outlet, t, sc.inlet⟩ hp.connections } rest := by
      simp only [runCalls, hset]
    rw [hrun]
    apply ih
    intro sc' hsc'
    exact h sc' (List.mem_cons_of_mem _ hsc')

/-! Key-membership lemmas for the component table. -/

theorem mem_compKeys_of_entry (cfg : Config) (k : String)
    (hk : k ∈ (componentEntries cfg).map Prod.fst) :
    k ∈ (generate_components cfg).map Prod.fst := by
  show k ∈ (buildDict (componentEntries cfg)).map Prod.fst
  rw [mem_keys_buildDict]
  exact hk

theorem mem_compKeys_fixed (cfg : Config) (k : String)
    (hk : k ∈ fixedComponentEntries.map Prod.fst) :
    k ∈ (generate_components cfg).map Prod.fst := by
  apply mem_compKeys_of_entry
  unfold componentEntries
  rw [List.map_append, List.mem_append]
  exact Or.inl hk

theorem mem_compKeys_of_cycle (cfg : Config) (c : Nat) (hc : c ∈ List.range' 1 cfg.nr_cycles)
    (k : String) (hk : k ∈ (cycleComponentEntries cfg c).map Prod.fst) :
    k ∈ (generate_components cfg).map Prod.fst := by
  apply mem_compKeys_of_entry
  unfold componentEntries
  rw [List.map_append, List.mem_append]
  right
  obtain ⟨e, he, hek⟩ := List.mem_map.1 hk
  exact List.mem_map.2 ⟨e, List.mem_flatMap.2 ⟨c, hc, he⟩, hek⟩

theorem cc_key_mem (cfg : Config) (c : Nat) (hc : c ∈ List.range' 1 cfg.nr_cycles) :
    ("Cycle Closer " ++ natStr c) ∈ (generate_components cfg).map Prod.fst := by
  apply mem_compKeys_of_cycle cfg c hc
  simp [cycleComponentEntries]

theorem valve_key_mem (cfg : Config) (c : Nat) (hc : c ∈ List.range' 1 cfg.nr_cycles) :
    ("Valve " ++ natStr c) ∈ (generate_components cfg).map Prod.fst := by
  apply mem_compKeys_of_cycle cfg c hc
  simp [cycleComponentEntries]

theorem heatEx_key_mem (cfg : Config) (c : Nat) (hc : c ∈ List.range' 1 cfg.nr_cycles)
    (h1 : c ≠ 1) :
    ("Heat Exchanger " ++ natStr (c-1) ++ "_" ++ natStr c)
      ∈ (generate_components cfg).map Prod.fst := by
  apply mem_compKeys_of_cycle cfg c hc
  simp [cycleComponentEntries, h1]

theorem condenser_key_mem (cfg : Config) (hN : 1 ≤ cfg.nr_cycles) :
    ("Condenser " ++ natStr cfg.nr_cycles) ∈ (generate_components cfg).map Prod.fst := by
  apply mem_compKeys_of_cycle cfg cfg.nr_cycles
    (List.mem_range'_1.2 ⟨hN, by omega⟩)
  simp [cycleComponentEntries]

theorem compressor_single_key_mem (cfg : Config) (c : Nat)
    (hc : c ∈ List.range' 1 cfg.nr_cycles) (hic : cfg.intercooler c = none) :
    ("Compressor " ++ natStr c) ∈ (generate_components cfg).map Prod.fst := by
  apply mem_compKeys_of_cycle cfg c hc
  simp [cycleComponentEntries, hic]

theorem compKeyH_mem (cfg : Config) (c : Nat) (hc : c ∈ List.range' 1 cfg.nr_cycles)
    (ic : IcSpec) (hic : cfg.intercooler c = some ic) (i : Nat) (h1 : 1 ≤ i)
    (h2 : i ≤ ic.amount + 1) :
    compKeyH c i ∈ (generate_components cfg).map Prod.fst := by
  apply mem_compKeys_of_cycle cfg c hc
  simp only [cycleComponentEntries, hic, List.map_append, List.mem_append]
  left; right
  rw [icEntries_normal]
  by_cases hik : i ≤ ic.amount
  · rw [List.map_append, List.mem_append]
    left
    refine List.mem_map.2 ⟨(compKeyH c i, ⟨compLabelU c i, .compressor⟩), ?_, rfl⟩
    exact List.mem_flatMap.2 ⟨i, List.mem_range'_1.2 ⟨h1, by omega⟩, by simp⟩
  · have : i = ic.amount + 1 := by omega
    subst this
    rw [List.map_append, List.mem_append]
    right
    simp

theorem icKeyH_mem (cfg : Config) (c : Nat) (hc : c ∈ List.range' 1 cfg.nr_cycles)
    (ic : IcSpec) (hic : cfg.intercooler c = some ic) (i : Nat) (h1 : 1 ≤ i)
    (h2 : i ≤ ic.amount) :
    icKeyH c i ∈ (generate_components cfg).map Prod.fst := by
  apply mem_compKeys_of_cycle cfg c hc
  simp only [cycleComponentEntries, hic, List.map_append, List.mem_append]
  left; right
  rw [icEntries_normal, List.map_append, List.mem_append]
  left
  refine List.mem_map.2 ⟨(icKeyH c i, ⟨icKeyH c i, icKind ic.icType⟩), ?_, rfl⟩
  exact List.mem_flatMap.2 ⟨i, List.mem_range'_1.2 ⟨h1, by omega⟩, by simp⟩

theorem ihxKey_mem (cfg : Config) (s t : Nat) (hs : s ∈ List.range' 1 cfg.nr_cycles)
    (h : t ∈ ihTargets (cfg.int_heatex s)) :
    ihxKey s t ∈ (generate_components cfg).map Prod.fst := by
  apply mem_compKeys_of_cycle cfg s hs
  cases hih : cfg.int_heatex s with
  | none =>
    rw [hih] at h
    simp [ihTargets] at h
  | some v =>
    cases v with
    | single t' =>
      rw [hih] at h
      simp only [ihTargets, List.mem_singleton] at h
      subst h
      simp [cycleComponentEntries, hih, ihxEntries]
    | multi ts =>
      rw [hih] at h
      simp only [ihTargets] at h
      simp only [cycleComponentEntries, hih, ihxEntries, List.map_append, List.mem_append]
      right
      exact List.mem_map.2 ⟨(ihxKey s t, ⟨ihxKey s t, .heatExchanger⟩),
        List.mem_map.2 ⟨t, h, rfl⟩, rfl⟩

theorem contains_iff_mem (ts : List Nat) (c : Nat) : ts.contains c = true ↔ c ∈ ts := by
  by_cases h : c ∈ ts <;> simp [h]

theorem cycleIntHeatex_prop (cfg : Config) (c : Nat) :
    ∀ s ∈ cycleIntHeatex cfg c,
      s ∈ List.range' 1 cfg.nr_cycles ∧ c ∈ ihTargets (cfg.int_heatex s) := by
  intro s hs
  unfold cycleIntHeatex at hs
  rw [List.mem_filter] at hs
  refine ⟨hs.1, ?_⟩
  have hp := hs.2
  cases hih : cfg.int_heatex s with
  | none => rw [hih] at hp; simp at hp
  | some v =>
    cases v with
    | single t =>
      rw [hih] at hp
      simp only at hp
      have ht : t = c := by simpa using hp
      subst ht
      simp [ihTargets]
    | multi ts =>
      rw [hih] at hp
      simp only at hp
      simp only [ihTargets]
      exact (contains_iff_mem ts c).1 hp

/-! Per-phase lemmas: every `set_conn` call of `generate_topology` references
existing component keys. -/

theorem skeletonCalls_keys (cfg : Config) (hN : 1 ≤ cfg.nr_cycles) :
    ∀ sc ∈ skeletonCalls cfg,
      sc.src ∈ (generate_components cfg).map Prod.fst ∧
      sc.tgt ∈ (generate_components cfg).map Prod.fst := by
  have h1 : (1 : Nat) ∈ List.range' 1 cfg.nr_cycles := List.mem_range'_1.2 ⟨le_refl 1, by omega⟩
  have hvalve : ("Valve 1" : String) ∈ (generate_components cfg).map Prod.fst := by
    have := valve_key_mem cfg 1 h1
    simpa using this
  have hcond := condenser_key_mem cfg hN
  intro sc hsc
  simp only [skeletonCalls, List.mem_cons, List.not_mem_nil, or_false] at hsc
  rcases hsc with h | h | h | h | h | h | h | h
  all_goals subst h
  · exact ⟨hvalve, mem_compKeys_fixed cfg _ (by simp [fixedComponentEntries])⟩
  · exact ⟨mem_compKeys_fixed cfg _ (by simp [fixedComponentEntries]),
      mem_compKeys_fixed cfg _ (by simp [fixedComponentEntries])⟩
  · exact ⟨mem_compKeys_fixed cfg _ (by simp [fixedComponentEntries]),
      mem_compKeys_fixed cfg _ (by simp [fixedComponentEntries])⟩
  · exact ⟨mem_compKeys_fixed cfg _ (by simp [fixedComponentEntries]),
      mem_compKeys_fixed cfg _ (by simp [fixedComponentEntries])⟩
  · exact ⟨mem_compKeys_fixed cfg _ (by simp [fixedComponentEntries]),
      mem_compKeys_fixed cfg _ (by simp [fixedComponentEntries])⟩
  · exact ⟨mem_compKeys_fixed cfg _ (by simp [fixedComponentEntries]), hcond⟩
  · exact ⟨hcond, mem_compKeys_fixed cfg _ (by simp [fixedComponentEntries])⟩
  · exact ⟨mem_compKeys_fixed cfg _ (by simp [fixedComponentEntries]),
      mem_compKeys_fixed cfg _ (by simp [fixedComponentEntries])⟩

theorem coldUpstream_key_mem (cfg : Config) (c : Nat) (hc : c ∈ List.range' 1 cfg.nr_cycles) :
    coldUpstream c ∈ (generate_components cfg).map Prod.fst := by
  by_cases h : c = 1
  · rw [coldUpstream, if_pos h]
    exact mem_compKeys_fixed cfg _ (by simp [fixedComponentEntries])
  · rw [coldUpstream, if_neg h]
    exact heatEx_key_mem cfg c hc h

theorem coldChainCalls_keys (cfg : Config) (c : Nat) (hc : c ∈ List.range' 1 cfg.nr_cycles) :
    ∀ (S : List Nat) (w : Option Nat),
      (∀ s ∈ S, s ∈ List.range' 1 cfg.nr_cycles ∧ c ∈ ihTargets (cfg.int_heatex s)) →
      (∀ l, w = some l → l ∈ List.range' 1 cfg.nr_cycles ∧ c ∈ ihTargets (cfg.int_heatex l)) →
      ∀ sc ∈ coldChainCalls c S w,
        sc.src ∈ (generate_components cfg).map Prod.fst ∧
        sc.tgt ∈ (generate_components cfg).map Prod.fst := by
  intro S
  induction S with
  | nil =>
    intro w _ _ sc hsc
    simp [coldChainCalls] at hsc
  | cons s rest ih =>
    intro w hS hw sc hsc
    have hs := hS s (List.mem_cons_self _ _)
    have hrest : ∀ x ∈ rest, x ∈ List.range' 1 cfg.nr_cycles ∧ c ∈ ihTargets (cfg.int_heatex x) :=
      fun x hx => hS x (List.mem_cons_of_mem _ hx)
    have hsome : ∀ l, (some s : Option Nat) = some l →
        l ∈ List.range' 1 cfg.nr_cycles ∧ c ∈ ihTargets (cfg.int_heatex l) := by
      intro l hl
      cases hl
      exact hs
    cases w with
    | none =>
      rcases List.mem_cons.1 hsc with h | h
      · subst h
        constructor
        · by_cases h1 : c = 1
          · show (coldFirstCall c s).src ∈ _
            simp only [coldFirstCall, if_pos h1]
            exact mem_compKeys_fixed cfg _ (by simp [fixedComponentEntries])
          · show (coldFirstCall c s).src ∈ _
            simp only [coldFirstCall, if_neg h1]
            exact heatEx_key_mem cfg c hc h1
        · by_cases h1 : c = 1
          · show (coldFirstCall c s).tgt ∈ _
            simp only [coldFirstCall, if_pos h1]
            exact ihxKey_mem cfg s c hs.1 hs.2
          · show (coldFirstCall c s).tgt ∈ _
            simp only [coldFirstCall, if_neg h1]
            exact ihxKey_mem cfg s c hs.1 hs.2
      · exact ih (some s) hrest hsome sc h
    | some l =>
      have hl := hw l rfl
      rcases List.mem_cons.1 hsc with h | h
      · subst h
        exact ⟨ihxKey_mem cfg l c hl.1 hl.2, ihxKey_mem cfg s c hs.1 hs.2⟩
      · exact ih (some s) hrest hsome sc h

theorem compressionCalls_keys (cfg : Config) (c : Nat) (hc : c ∈ List.range' 1 cfg.nr_cycles)
    (last : Option Nat)
    (hlast : ∀ l, last = some l →
      l ∈ List.range' 1 cfg.nr_cycles ∧ c ∈ ihTargets (cfg.int_heatex l)) :
    ∀ sc ∈ compressionCalls cfg c last,
      sc.src ∈ (generate_components cfg).map Prod.fst ∧
      sc.tgt ∈ (generate_components cfg).map Prod.fst := by
  have hcrange := List.mem_range'_1.1 hc
  have hdischargeTgt : ∀ h : ¬ c = cfg.nr_cycles,
      ("Heat Exchanger " ++ natStr c ++ "_" ++ natStr (c+1))
        ∈ (generate_components cfg).map Prod.fst := by
    intro h
    have hc1 : c + 1 ∈ List.range' 1 cfg.nr_cycles := by
      apply List.mem_range'_1.2
      omega
    exact heatEx_key_mem cfg (c+1) hc1 (by omega)
  intro sc hsc
  cases hic : cfg.intercooler c with
  | some ic =>
    rw [compressionCalls, hic] at hsc
    rcases List.mem_cons.1 hsc with h | h
    · subst h
      constructor
      · cases last with
        | none =>
          by_cases h1 : c = 1
          · show (compFeedIc c none).src ∈ _
            simp only [compFeedIc, if_pos h1]
            exact mem_compKeys_fixed cfg _ (by simp [fixedComponentEntries])
          · show (compFeedIc c none).src ∈ _
            simp only [compFeedIc, if_neg h1]
            exact heatEx_key_mem cfg c hc h1
        | some l =>
          have hl := hlast l rfl
          exact ihxKey_mem cfg l c hl.1 hl.2
      · have hcomp1 := compKeyH_mem cfg c hc ic hic 1 (le_refl 1) (by omega)
        have heq : compKeyH c 1 = "Compressor " ++ natStr c ++ "-1" := by
          show "Compressor " ++ natStr c ++ "-" ++ natStr 1 = _
          rw [str_append_assoc]
          rfl
        have hcompA : ("Compressor " ++ natStr c ++ "-1" : String)
            ∈ (generate_components cfg).map Prod.fst := heq ▸ hcomp1
        cases last with
        | none =>
          by_cases h1 : c = 1
          · show (compFeedIc c none).tgt ∈ _
            simp only [compFeedIc, if_pos h1]
            exact hcompA
          · show (compFeedIc c none).tgt ∈ _
            simp only [compFeedIc, if_neg h1]
            exact hcompA
        | some l =>
          exact hcompA
    · rcases List.mem_append.1 h with h2 | h2
      · obtain ⟨i, hi, hsc2⟩ := List.mem_flatMap.1 h2
        have hirange := List.mem_range'_1.1 hi
        simp only [icPairCalls, List.mem_cons, List.not_mem_nil, or_false] at hsc2
        rcases hsc2 with h3 | h3
        all_goals subst h3
        · exact ⟨compKeyH_mem cfg c hc ic hic i (by omega) (by omega),
            icKeyH_mem cfg c hc ic hic i (by omega) (by omega)⟩
        · exact ⟨icKeyH_mem cfg c hc ic hic i (by omega) (by omega),
            compKeyH_mem cfg c hc ic hic (i+1) (by omega) (by omega)⟩
      · simp only [List.mem_singleton] at h2
        subst h2
        by_cases h3 : c = cfg.nr_cycles
        · show (icDischargeCall cfg c ic.amount).src ∈ _ ∧ (icDischargeCall cfg c ic.amount).tgt ∈ _
          simp only [icDischargeCall, if_pos h3]
          refine ⟨compKeyH_mem cfg c hc ic hic (ic.amount+1) (by omega) (le_refl _), ?_⟩
          rw [h3]
          exact condenser_key_mem cfg (by omega)
        · show (icDischargeCall cfg c ic.amount).src ∈ _ ∧ (icDischargeCall cfg c ic.amount).tgt ∈ _
          simp only [icDischargeCall, if_neg h3]
          exact ⟨compKeyH_mem cfg c hc ic hic (ic.amount+1) (by omega) (le_refl _),
            hdischargeTgt h3⟩
  | none =>
    rw [compressionCalls, hic] at hsc
    have hcomp := compressor_single_key_mem cfg c hc hic
    rcases List.mem_cons.1 hsc with h | h
    · subst h
      constructor
      · cases last with
        | none =>
          by_cases h1 : c = 1
          · show (compFeedSingle c none).src ∈ _
            simp only [compFeedSingle, if_pos h1]
            exact mem_compKeys_fixed cfg _ (by simp [fixedComponentEntries])
          · show (compFeedSingle c none).src ∈ _
            simp only [compFeedSingle, if_neg h1]
            exact heatEx_key_mem cfg c hc h1
        | some l =>
          have hl := hlast l rfl
          exact ihxKey_mem cfg l c hl.1 hl.2
      · cases last with
        | none =>
          by_cases h1 : c = 1
          · show (compFeedSingle c none).tgt ∈ _
            simp only [compFeedSingle, if_pos h1]
            exact hcomp
          · show (compFeedSingle c none).tgt ∈ _
            simp only [compFeedSingle, if_neg h1]
            exact hcomp
        | some l =>
          exact hcomp
    · simp only [List.mem_singleton] at h
      subst h
      by_cases h3 : c = cfg.nr_cycles
      · show (singleDischargeCall cfg c).src ∈ _ ∧ (singleDischargeCall cfg c).tgt ∈ _
        simp only [singleDischargeCall, if_pos h3]
        refine ⟨hcomp, ?_⟩
        rw [h3]
        exact condenser_key_mem cfg (by omega)
      · show (singleDischargeCall cfg c).src ∈ _ ∧ (singleDischargeCall cfg c).tgt ∈ _
        simp only [singleDischargeCall, if_neg h3]
        exact ⟨hcomp, hdischargeTgt h3⟩

theorem hotUpstream_key_mem (cfg : Config) (c : Nat) (hc : c ∈ List.range' 1 cfg.nr_cycles) :
    hotUpstream cfg c ∈ (generate_components cfg).map Prod.fst := by
  have hcrange := List.mem_range'_1.1 hc
  by_cases h : c = cfg.nr_cycles
  · rw [hotUpstream, if_pos h, h]
    exact condenser_key_mem cfg (by omega)
  · rw [hotUpstream, if_neg h]
    have hc1 : c + 1 ∈ List.range' 1 cfg.nr_cycles := List.mem_range'_1.2 (by omega)
    exact heatEx_key_mem cfg (c+1) hc1 (by omega)

theorem hotLoopCalls_keys (cfg : Config) (c : Nat) (hc : c ∈ List.range' 1 cfg.nr_cycles) :
    ∀ (units : List String) (w : Option String),
      (∀ u ∈ units, u ∈ (generate_components cfg).map Prod.fst) →
      (∀ u, w = some u → u ∈ (generate_components cfg).map Prod.fst) →
      ∀ sc ∈ hotLoopCalls cfg c units w,
        sc.src ∈ (generate_components cfg).map Prod.fst ∧
        sc.tgt ∈ (generate_components cfg).map Prod.fst := by
  intro units
  induction units with
  | nil =>
    intro w _ _ sc hsc
    simp [hotLoopCalls] at hsc
  | cons u us ih =>
    intro w hU hw sc hsc
    have hu := hU u (List.mem_cons_self _ _)
    have hus : ∀ x ∈ us, x ∈ (generate_components cfg).map Prod.fst :=
      fun x hx => hU x (List.mem_cons_of_mem _ hx)
    have hsome : ∀ x, (some u : Option String) = some x →
        x ∈ (generate_components cfg).map Prod.fst := by
      intro x hx
      cases hx
      exact hu
    cases w with
    | none =>
      rcases List.mem_cons.1 hsc with h | h
      · subst h
        refine ⟨?_, ?_⟩
        · by_cases h1 : c = cfg.nr_cycles
          · show (hotFirstCall cfg c u).src ∈ _
            simp only [hotFirstCall, if_pos h1]
            rw [h1]
            have := List.mem_range'_1.1 hc
            exact condenser_key_mem cfg (by omega)
          · show (hotFirstCall cfg c u).src ∈ _
            simp only [hotFirstCall, if_neg h1]
            have hcr := List.mem_range'_1.1 hc
            have hc1 : c + 1 ∈ List.range' 1 cfg.nr_cycles := List.mem_range'_1.2 (by omega)
            exact heatEx_key_mem cfg (c+1) hc1 (by omega)
        · by_cases h1 : c = cfg.nr_cycles
          · show (hotFirstCall cfg c u).tgt ∈ _
            simp only [hotFirstCall, if_pos h1]
            exact hu
          · show (hotFirstCall cfg c u).tgt ∈ _
            simp only [hotFirstCall, if_neg h1]
            exact hu
      · exact ih (some u) hus hsome sc h
    | some w0 =>
      rcases List.mem_cons.1 hsc with h | h
      · subst h
        exact ⟨hw w0 rfl, hu⟩
      · exact ih (some u) hus hsome sc h

theorem hotPhaseCalls_keys (cfg : Config) (c : Nat) (hc : c ∈ List.range' 1 cfg.nr_cycles) :
    ∀ sc ∈ hotPhaseCalls cfg ((generate_components cfg).map Prod.fst) c,
      sc.src ∈ (generate_components cfg).map Prod.fst ∧
      sc.tgt ∈ (generate_components cfg).map Prod.fst := by
  intro sc hsc
  have hunits : ∀ u ∈ sortRev (hotMatchedKeys ((generate_components cfg).map Prod.fst) c),
      u ∈ (generate_components cfg).map Prod.fst := by
    intro u hu
    have h1 : u ∈ hotMatchedKeys ((generate_components cfg).map Prod.fst) c :=
      (sortRev_perm _).mem_iff.1 hu
    exact List.mem_of_mem_filter h1
  rw [hotPhaseCalls] at hsc
  rcases List.mem_append.1 hsc with h | h
  · exact hotLoopCalls_keys cfg c hc _ none hunits (by intro u hu; cases hu) sc h
  · simp only [List.mem_singleton] at h
    subst h
    cases hlast : (sortRev (hotMatchedKeys ((generate_components cfg).map Prod.fst) c)).getLast? with
    | none =>
      by_cases h1 : c = cfg.nr_cycles
      · show (hotFinalCall cfg c none).src ∈ _ ∧ (hotFinalCall cfg c none).tgt ∈ _
        simp only [hotFinalCall, if_pos h1]
        refine ⟨?_, cc_key_mem cfg c hc⟩
        rw [h1]
        have := List.mem_range'_1.1 hc
        exact condenser_key_mem cfg (by omega)
      · show (hotFinalCall cfg c none).src ∈ _ ∧ (hotFinalCall cfg c none).tgt ∈ _
        simp only [hotFinalCall, if_neg h1]
        have hcr := List.mem_range'_1.1 hc
        have hc1 : c + 1 ∈ List.range' 1 cfg.nr_cycles := List.mem_range'_1.2 (by omega)
        exact ⟨heatEx_key_mem cfg (c+1) hc1 (by omega), cc_key_mem cfg c hc⟩
    | some u =>
      have hu : u ∈ (generate_components cfg).map Prod.fst :=
        hunits u (List.mem_of_mem_getLast? hlast)
      exact ⟨hu, cc_key_mem cfg c hc⟩

theorem topoCalls_keys (cfg : Config) (hN : 1 ≤ cfg.nr_cycles) :
    ∀ sc ∈ topoCalls cfg (generate_components cfg),
      sc.src ∈ (generate_components cfg).map Prod.fst ∧
      sc.tgt ∈ (generate_components cfg).map Prod.fst := by
  intro sc hsc
  rw [topoCalls] at hsc
  rcases List.mem_append.1 hsc with h | h
  · exact skeletonCalls_keys cfg hN sc h
  · obtain ⟨c, hc, hsc2⟩ := List.mem_flatMap.1 h
    rw [cycleCalls] at hsc2
    rcases List.mem_append.1 hsc2 with h2 | h2
    · rcases List.mem_append.1 h2 with h3 | h3
      · rcases List.mem_append.1 h3 with h4 | h4
        · simp only [List.mem_singleton] at h4
          subst h4
          exact ⟨cc_key_mem cfg c hc, valve_key_mem cfg c hc⟩
        · by_cases h5 : c ≠ 1
          · rw [valveHeatExCalls, if_pos h5] at h4
            simp only [List.mem_singleton] at h4
            subst h4
            exact ⟨valve_key_mem cfg c hc, heatEx_key_mem cfg c hc h5⟩
          · rw [valveHeatExCalls, if_neg h5] at h4
            simp at h4
      · rcases List.mem_append.1 h3 with h4 | h4
        · exact coldChainCalls_keys cfg c hc (cycleIntHeatex cfg c) none
            (cycleIntHeatex_prop cfg c) (by intro l hl; cases hl) sc h4
        · apply compressionCalls_keys cfg c hc (cycleIntHeatex cfg c).getLast? _ sc h4
          intro l hl
          exact cycleIntHeatex_prop cfg c l (List.mem_of_mem_getLast? hl)
    · exact hotPhaseCalls_keys cfg c hc sc h2

/-- The whole build succeeds for every configuration with at least one
cycle; no validation of the maps is performed. -/
theorem build_total (cfg : Config) (hN : 1 ≤ cfg.nr_cycles) :
    (buildHeatpump cfg).isSome = true := by
  show (runCalls { components := generate_components cfg, connections := [] }
    (topoCalls cfg (generate_components cfg))).isSome = true
  exact runCalls_isSome _ _ (topoCalls_keys cfg hN)

/-! ### Claim C5: no configuration validation exists -/

/-- C5 (amended): out-of-range cycle indices in `int_heatex` or
`intercooler` are not detected: for every configuration with at least one
cycle — including any with out-of-range references — the build raises no
configuration error (every `set_conn` lookup succeeds) and the component
table is populated, never empty. -/
theorem C5_no_validation (cfg : Config) (hN : 1 ≤ cfg.nr_cycles) :
    (buildHeatpump cfg).isSome = true ∧ generate_components cfg ≠ [] := by
  refine ⟨build_total cfg hN, ?_⟩
  intro hempty
  have hmem : ("Heat Source Feed Flow" : String) ∈ (generate_components cfg).map Prod.fst :=
    mem_compKeys_fixed cfg _ (by simp [fixedComponentEntries])
  rw [hempty] at hmem
  simp at hmem

/-- C5 fails as stated: with `nr_cycles = 2`, `int_heatex = {1: 10, 7: 1}`
and `intercooler = {9: ...}` — every index out of range — the build succeeds
and the component table is not empty. -/
theorem C5_cex_no_failure : ¬ C5ClaimAt cfgC5w := by
  unfold C5ClaimAt
  decide

/-- Witness: C5 (amended) applied to the out-of-range configuration. -/
theorem C5_witness :
    (buildHeatpump cfgC5w).isSome = true ∧ generate_components cfgC5w ≠ [] :=
  C5_no_validation cfgC5w (by decide)

/-! ### Claim C6: `set_conn` never rejects, it overwrites -/

/-- C6 (amended): `set_conn` performs no duplicate-label and no
port-consumption check; whenever both component lookups succeed it
unconditionally stores the new connection under `label`, replacing any
existing entry in place: the new value is found under the label afterwards,
and when the label already existed the table size does not grow (the old
connection is silently overwritten); a fresh label appends instead.  The
label keys of the table do remain unique, but only because it is a keyed
map. -/
theorem C6_set_conn_overwrites (hp : Heatpump) (label a o b i : String) (src tgt : Component)
    (hs : dlookup a hp.components = some src) (ht : dlookup b hp.components = some tgt) :
    set_conn hp label a o b i
      = some { hp with connections := dinsert label ⟨src, o, tgt, i⟩ hp.connections } ∧
    dlookup label (dinsert label ⟨src, o, tgt, i⟩ hp.connections) = some ⟨src, o, tgt, i⟩ ∧
    (label ∈ hp.connections.map Prod.fst →
      (dinsert label ⟨src, o, tgt, i⟩ hp.connections).length = hp.connections.length) ∧
    (label ∉ hp.connections.map Prod.fst →
      (dinsert label ⟨src, o, tgt, i⟩ hp.connections).length = hp.connections.length + 1) ∧
    ((hp.connections.map Prod.fst).Nodup →
      ((dinsert label ⟨src, o, tgt, i⟩ hp.connections).map Prod.fst).Nodup) := by
  refine ⟨?_, dlookup_dinsert_self _ _ _, ?_, ?_, nodup_keys_dinsert _ _ _⟩
  · unfold set_conn
    rw [hs, ht]
  · intro hmem
    rw [length_dinsert, if_pos hmem]
  · intro hmem
    rw [length_dinsert, if_neg hmem]

/-- C6 fails as stated: re-using the existing label
`valve1_to_evaporator1` with different endpoints is not rejected — the call
succeeds and overwrites. -/
theorem C6_cex_silent_overwrite :
    ¬ C6ClaimAt hpN1 "valve1_to_evaporator1" "Consumer" "out1" "Consumer" "in1" := by
  unfold C6ClaimAt
  decide

/-- Witness: C6 (amended) applied to the built single-stage pump with the
already-used label `valve1_to_evaporator1`. -/
theorem C6_witness :
    set_conn hpN1 "valve1_to_evaporator1" "Consumer" "out1" "Consumer" "in1"
      = some { hpN1 with
          connections := dinsert "valve1_to_evaporator1" connC6 hpN1.connections } ∧
    (dinsert "valve1_to_evaporator1" connC6 hpN1.connections).length
      = hpN1.connections.length := by
  have h := C6_set_conn_overwrites hpN1 "valve1_to_evaporator1" "Consumer" "out1" "Consumer"
    "in1" ⟨"Consumer", .heatExchangerSimple⟩ ⟨"Consumer", .heatExchangerSimple⟩
    (by decide) (by decide)
  exact ⟨h.1, h.2.2.1 (by decide)⟩

/-! ### Claims C8 and C9: `delete_component` -/

theorem delete_fold_filter (component : String) :
    ∀ (suffix pre : List (String × Conn)),
      (((pre ++ suffix).map Prod.fst).Nodup) →
      suffix.foldl (fun copy e => if connTouches component e.2 then derase e.1 copy else copy)
          (pre ++ suffix)
        = pre ++ suffix.filter (fun e => ! connTouches component e.2) := by
  intro suffix
  induction suffix with
  | nil =>
    intro pre _
    simp
  | cons e rest ih =>
    intro pre hnd
    show List.foldl _ (if connTouches component e.2 then _ else _) rest = _
    have hkey : e.1 ∉ pre.map Prod.fst := by
      intro hmem
      rw [List.map_append] at hnd
      have := (List.nodup_append.1 hnd).2.2
      exact this hmem (by simp)
    cases hT : connTouches component e.2 with
    | true =>
      rw [if_pos rfl]
      have hd : derase e.1 (pre ++ e :: rest) = pre ++ rest := by
        rw [derase_append e.1 pre (e :: rest) hkey, derase_cons_pos e.1 e rest rfl]
      rw [hd]
      have hnd2 : ((pre ++ rest).map Prod.fst).Nodup := by
        apply hnd.sublist
        apply List.Sublist.map
        exact (List.Sublist.refl pre).append (List.sublist_cons_self e rest)
      rw [ih pre hnd2]
      simp [List.filter_cons, hT]
    | false =>
      rw [if_neg (by simp)]
      have hassoc : pre ++ e :: rest = (pre ++ [e]) ++ rest := by
        simp
      rw [hassoc]
      have hnd2 : (((pre ++ [e]) ++ rest).map Prod.fst).Nodup := by
        rw [← hassoc]
        exact hnd
      rw [ih (pre ++ [e]) hnd2]
      simp [List.filter_cons, hT]

theorem length_filter_countP (component : String) :
    ∀ l : List (String × Conn),
      (l.filter (fun e => ! connTouches component e.2)).length
        + l.countP (fun e => connTouches component e.2) = l.length := by
  intro l
  induction l with
  | nil => rfl
  | cons e rest ih =>
    cases hT : connTouches component e.2 with
    | true => simp [List.filter_cons, List.countP_cons, hT]; omega
    | false => simp [List.filter_cons, List.countP_cons, hT]; omega

/-- C8: for every state with well-formed tables and every component label
present in the component table, `delete_component` removes that component
(and only it) and exactly the connections whose source or target component
label equals the given label; every other connection is kept unchanged, in
place, and the connection count drops by exactly the number of incident
connections. -/
theorem C8_delete_cascade (hp : Heatpump) (component : String)
    (hndConn : (hp.connections.map Prod.fst).Nodup)
    (hndComp : (hp.components.map Prod.fst).Nodup)
    (hmem : (dlookup component hp.components).isSome = true) :
    (delete_component hp component).components = derase component hp.components ∧
    dlookup component (delete_component hp component).components = none ∧
    (∀ k, k ≠ component →
      dlookup k (delete_component hp component).components = dlookup k hp.components) ∧
    (delete_component hp component).connections
      = hp.connections.filter (fun e => ! connTouches component e.2) ∧
    (∀ e, e ∈ (delete_component hp component).connections ↔
      e ∈ hp.connections ∧ connTouches component e.2 = false) ∧
    (delete_component hp component).connections.length
      + hp.connections.countP (fun e => connTouches component e.2)
      = hp.connections.length := by
  have hcomps : (delete_component hp component).components
      = derase component hp.components := by
    unfold delete_component
    rw [if_pos hmem]
  have hconns : (delete_component hp component).connections
      = hp.connections.filter (fun e => ! connTouches component e.2) := by
    unfold delete_component
    rw [if_pos hmem]
    show hp.connections.foldl _ hp.connections = _
    have := delete_fold_filter component hp.connections [] (by simpa using hndConn)
    simpa using this
  refine ⟨hcomps, ?_, ?_, hconns, ?_, ?_⟩
  · rw [hcomps]
    exact dlookup_derase_self component hp.components hndComp
  · intro k hk
    rw [hcomps]
    exact dlookup_derase_ne component k hk hp.components
  · intro e
    rw [hconns, List.mem_filter]
    constructor
    · intro ⟨h1, h2⟩
      refine ⟨h1, ?_⟩
      cases hT : connTouches component e.2 with
      | true => rw [hT] at h2; simp at h2
      | false => rfl
    · intro ⟨h1, h2⟩
      exact ⟨h1, by rw [h2]; rfl⟩
  · rw [hconns]
    exact length_filter_countP component hp.connections

/-- Witness for C8: deleting `Consumer` (which participates in exactly two
connections) from the built single-stage pump removes exactly those two. -/
theorem C8_witness :
    (delete_component hpN1 "Consumer").connections
      = hpN1.connections.filter (fun e => ! connTouches "Consumer" e.2) ∧
    (delete_component hpN1 "Consumer").connections.length
      + hpN1.connections.countP (fun e => connTouches "Consumer" e.2)
      = hpN1.connections.length ∧
    hpN1.connections.countP (fun e => connTouches "Consumer" e.2) = 2 := by
  have h := C8_delete_cascade hpN1 "Consumer" (by decide) (by decide) (by decide)
  exact ⟨h.2.2.2.1, h.2.2.2.2.2, by decide⟩

/-- C9: deleting a label absent from the component table is a benign no-op:
the call returns with both the component table and the connection table
completely unchanged. -/
theorem C9_delete_absent_noop (hp : Heatpump) (component : String)
    (h : dlookup component hp.components = none) :
    delete_component hp component = hp ∧
    (delete_component hp component).components = hp.components ∧
    (delete_component hp component).connections = hp.connections := by
  have hd : delete_component hp component = hp := by
    unfold delete_component
    rw [if_neg (by rw [h]; simp)]
  exact ⟨hd, by rw [hd], by rw [hd]⟩

/-- Witness for C9: deleting the nonexistent label `Compressor 7` from the
built single-stage pump changes nothing. -/
theorem C9_witness :
    delete_component hpN1 "Compressor 7" = hpN1 ∧
    (delete_component hpN1 "Compressor 7").components = hpN1.components ∧
    (delete_component hpN1 "Compressor 7").connections = hpN1.connections :=
  C9_delete_absent_noop hpN1 "Compressor 7" (by decide)

/-! ### String-shape tools for label analysis -/

theorem ne_of_two_lits (l1 r1 l2 r2 : List Char) (n : Nat) (h1 : n < l1.length)
    (h2 : n < l2.length) (hne : l1[n]? ≠ l2[n]?) : l1 ++ r1 ≠ l2 ++ r2 := by
  apply ne_of_idx n
  rw [List.getElem?_append_left h1, List.getElem?_append_left h2]
  exact hne

theorem ne_lit_app (l1 l2 r2 : List Char) (n : Nat) (h2 : n < l2.length)
    (hne : l1[n]? ≠ l2[n]?) : l1 ≠ l2 ++ r2 := by
  apply ne_of_idx n
  rw [List.getElem?_append_left h2]
  exact hne

theorem lit_nat_data (lit : String) (n : Nat) :
    (lit ++ natStr n).data = lit.data ++ natDigits n := by
  rw [str_data_append]
  rfl

theorem lit2_data (lit : String) (a : Nat) (sep : String) (b : Nat) :
    (lit ++ natStr a ++ sep ++ natStr b).data
      = lit.data ++ (natDigits a ++ (sep.data ++ natDigits b)) := by
  rw [str_data_append, str_data_append, str_data_append, List.append_assoc, List.append_assoc]
  rfl

theorem compKeyH_data (c i : Nat) :
    (compKeyH c i).data = "Compressor ".data ++ (natDigits c ++ ('-' :: natDigits i)) := by
  have h := lit2_data "Compressor " c "-" i
  exact h

theorem compLabelU_data (c i : Nat) :
    (compLabelU c i).data = "Compressor ".data ++ (natDigits c ++ ('_' :: natDigits i)) := by
  have h := lit2_data "Compressor " c "_" i
  exact h

theorem icKeyH_data (c i : Nat) :
    (icKeyH c i).data = "Intercooler ".data ++ (natDigits c ++ ('-' :: natDigits i)) := by
  have h := lit2_data "Intercooler " c "-" i
  exact h

theorem ihxKey_data (s t : Nat) :
    (ihxKey s t).data
      = "Internal Heat Exchanger ".data ++ (natDigits s ++ ('_' :: natDigits t)) := by
  have h := lit2_data "Internal Heat Exchanger " s "_" t
  exact h

theorem heatExKey_data (a b : Nat) :
    ("Heat Exchanger " ++ natStr a ++ "_" ++ natStr b).data
      = "Heat Exchanger ".data ++ (natDigits a ++ ('_' :: natDigits b)) := by
  have h := lit2_data "Heat Exchanger " a "_" b
  exact h

/-- Splitting `digits ++ sep :: digits` concatenations: equal only when the
numbers and the separators agree. -/
theorem two_num_token_eq (a b : Nat) (x : Char) (a' b' : Nat) (y : Char)
    (hx : isDigB x = false) (hy : isDigB y = false)
    (h : natDigits a ++ (x :: natDigits b) = natDigits a' ++ (y :: natDigits b')) :
    a = a' ∧ x = y ∧ b = b' := by
  obtain ⟨h1, h2, h3⟩ := digits_token_split (natDigits a) (natDigits a') x y
    (natDigits b) (natDigits b') (natDigits_all_digits a) (natDigits_all_digits a') hx hy h
  exact ⟨natDigits_inj _ _ h1, h2, natDigits_inj _ _ h3⟩

/-! ### Shape of the component-entry list -/

theorem componentEntries_shape (cfg : Config) :
    ∀ e ∈ componentEntries cfg,
      e ∈ fixedComponentEntries
      ∨ (∃ c, e = ("Cycle Closer " ++ natStr c, ⟨"Cycle Closer " ++ natStr c, .cycleCloser⟩))
      ∨ (∃ c, e = ("Valve " ++ natStr c, ⟨"Valve " ++ natStr c, .valve⟩))
      ∨ (∃ c, e = ("Heat Exchanger " ++ natStr (c-1) ++ "_" ++ natStr c,
            ⟨"Heat Exchanger " ++ natStr (c-1) ++ "_" ++ natStr c, .heatExchanger⟩))
      ∨ (∃ c, e = ("Condenser " ++ natStr c, ⟨"Condenser " ++ natStr c, .condenser⟩))
      ∨ (∃ c, cfg.intercooler c = none ∧
            e = ("Compressor " ++ natStr c, ⟨"Compressor " ++ natStr c, .compressor⟩))
      ∨ (∃ c i ty, e = (icKeyH c i, ⟨icKeyH c i, icKind ty⟩))
      ∨ (∃ c i ic, cfg.intercooler c = some ic ∧ 1 ≤ i ∧
            e = (compKeyH c i, ⟨compLabelU c i, .compressor⟩))
      ∨ (∃ s t, e = (ihxKey s t, ⟨ihxKey s t, .heatExchanger⟩)) := by
  intro e he
  unfold componentEntries at he
  rcases List.mem_append.1 he with hfix | hcyc
  · exact Or.inl hfix
  · obtain ⟨c, hc, he2⟩ := List.mem_flatMap.1 hcyc
    unfold cycleComponentEntries at he2
    rcases List.mem_append.1 he2 with h4 | h5
    · rcases List.mem_append.1 h4 with h6 | h7
      · rcases List.mem_append.1 h6 with h8 | h9
        · rcases List.mem_append.1 h8 with h10 | h11
          · rcases List.mem_cons.1 h10 with h12 | h12
            · exact Or.inr (Or.inl ⟨c, h12⟩)
            · simp only [List.mem_singleton] at h12
              exact Or.inr (Or.inr (Or.inl ⟨c, h12⟩))
          · by_cases hcc : c ≠ 1
            · rw [if_pos hcc] at h11
              simp only [List.mem_singleton] at h11
              exact Or.inr (Or.inr (Or.inr (Or.inl ⟨c, h11⟩)))
            · rw [if_neg hcc] at h11
              simp at h11
        · by_cases hcc : c = cfg.nr_cycles
          · rw [if_pos hcc] at h9
            simp only [List.mem_singleton] at h9
            exact Or.inr (Or.inr (Or.inr (Or.inr (Or.inl ⟨c, h9⟩))))
          · rw [if_neg hcc] at h9
            simp at h9
      · cases hic : cfg.intercooler c with
        | some ic =>
          rw [hic] at h7
          obtain ⟨i, hi, he3⟩ := List.mem_flatMap.1 h7
          have hir := List.mem_range'_1.1 hi
          rcases List.mem_append.1 he3 with h10 | h11
          · by_cases hlt : i < ic.amount + 1
            · rw [if_pos hlt] at h10
              simp only [List.mem_singleton] at h10
              exact Or.inr (Or.inr (Or.inr (Or.inr (Or.inr (Or.inr (Or.inl
                ⟨c, i, ic.icType, h10⟩))))))
            · rw [if_neg hlt] at h10
              simp at h10
          · simp only [List.mem_singleton] at h11
            exact Or.inr (Or.inr (Or.inr (Or.inr (Or.inr (Or.inr (Or.inr (Or.inl
              ⟨c, i, ic, hic, by omega, h11⟩)))))))
        | none =>
          rw [hic] at h7
          simp only [List.mem_singleton] at h7
          exact Or.inr (Or.inr (Or.inr (Or.inr (Or.inr (Or.inl ⟨c, hic, h7⟩)))))
    · cases hih : cfg.int_heatex c with
      | some v =>
        rw [hih] at h5
        cases v with
        | single t =>
          simp only [ihxEntries, List.mem_singleton] at h5
          exact Or.inr (Or.inr (Or.inr (Or.inr (Or.inr (Or.inr (Or.inr (Or.inr
            ⟨c, t, h5⟩)))))))
        | multi ts =>
          simp only [ihxEntries] at h5
          obtain ⟨t, _, he4⟩ := List.mem_map.1 h5
          exact Or.inr (Or.inr (Or.inr (Or.inr (Or.inr (Or.inr (Or.inr (Or.inr
            ⟨c, t, he4.symm⟩)))))))
      | none =>
        rw [hih] at h5
        simp at h5

/-! ### No other component key or label collides with a hyphenated compressor key -/

theorem ne_compKeyH_lit (a : String) (c i n : Nat) (h2 : n < ("Compressor ".data).length)
    (hne : a.data[n]? ≠ "Compressor ".data[n]?) : a ≠ compKeyH c i := by
  apply str_ne_of_data
  rw [compKeyH_data]
  exact ne_lit_app a.data "Compressor ".data _ n h2 hne

theorem ne_compKeyH_app (l1 : String) (r1 : List Char) (a : String)
    (ha : a.data = l1.data ++ r1) (c i n : Nat) (h1 : n < l1.data.length)
    (h2 : n < ("Compressor ".data).length) (hne : l1.data[n]? ≠ "Compressor ".data[n]?) :
    a ≠ compKeyH c i := by
  apply str_ne_of_data
  rw [ha, compKeyH_data]
  exact ne_of_two_lits l1.data r1 "Compressor ".data _ n h1 h2 hne

/-- Entry analysis at a hyphenated compressor key: the only component
entries whose key is `compKeyH c i` carry the underscored label, and no
component label at all equals `compKeyH c i`. -/
theorem componentEntries_compKeyH_analysis (cfg : Config) (c i : Nat) :
    ∀ e ∈ componentEntries cfg,
      (e.1 = compKeyH c i → e.2 = ⟨compLabelU c i, .compressor⟩) ∧
      e.2.label ≠ compKeyH c i := by
  intro e he
  rcases componentEntries_shape cfg e he with hfix | ⟨c', he'⟩ | ⟨c', he'⟩ | ⟨c', he'⟩
    | ⟨c', he'⟩ | ⟨c', hic, he'⟩ | ⟨c', i', ty, he'⟩ | ⟨c', i', ic, hic, hi1, he'⟩
    | ⟨s, t, he'⟩
  · simp only [fixedComponentEntries, List.mem_cons, List.not_mem_nil, or_false] at hfix
    rcases hfix with h | h | h | h | h | h | h <;> subst h <;>
      first
        | exact ⟨fun h2 => absurd h2 (ne_compKeyH_lit _ c i 0 (by decide) (by decide)),
            ne_compKeyH_lit _ c i 0 (by decide) (by decide)⟩
        | exact ⟨fun h2 => absurd h2 (ne_compKeyH_lit _ c i 2 (by decide) (by decide)),
            ne_compKeyH_lit _ c i 2 (by decide) (by decide)⟩
  · subst he'
    have hne : ("Cycle Closer " ++ natStr c') ≠ compKeyH c i :=
      ne_compKeyH_app "Cycle Closer " (natDigits c') _ (lit_nat_data _ _) c i 1
        (by decide) (by decide) (by decide)
    exact ⟨fun h2 => absurd h2 hne, hne⟩
  · subst he'
    have hne : ("Valve " ++ natStr c') ≠ compKeyH c i :=
      ne_compKeyH_app "Valve " (natDigits c') _ (lit_nat_data _ _) c i 0
        (by decide) (by decide) (by decide)
    exact ⟨fun h2 => absurd h2 hne, hne⟩
  · subst he'
    have hne : ("Heat Exchanger " ++ natStr (c'-1) ++ "_" ++ natStr c') ≠ compKeyH c i :=
      ne_compKeyH_app "Heat Exchanger " (natDigits (c'-1) ++ ('_' :: natDigits c')) _
        (heatExKey_data _ _) c i 0 (by decide) (by decide) (by decide)
    exact ⟨fun h2 => absurd h2 hne, hne⟩
  · subst he'
    have hne : ("Condenser " ++ natStr c') ≠ compKeyH c i :=
      ne_compKeyH_app "Condenser " (natDigits c') _ (lit_nat_data _ _) c i 2
        (by decide) (by decide) (by decide)
    exact ⟨fun h2 => absurd h2 hne, hne⟩
  · subst he'
    have hne : ("Compressor " ++ natStr c') ≠ compKeyH c i := by
      apply str_ne_of_data
      rw [lit_nat_data, compKeyH_data]
      intro h2
      have h3 := List.append_cancel_left h2
      exact all_digits_ne_append (natDigits c') (natDigits c) '-' (natDigits i)
        (natDigits_all_digits c') (by decide) h3
    exact ⟨fun h2 => absurd h2 hne, hne⟩
  · subst he'
    have hne : icKeyH c' i' ≠ compKeyH c i :=
      ne_compKeyH_app "Intercooler " (natDigits c' ++ ('-' :: natDigits i')) _
        (icKeyH_data _ _) c i 0 (by decide) (by decide) (by decide)
    exact ⟨fun h2 => absurd h2 hne, hne⟩
  · subst he'
    constructor
    · intro h2
      have h2' : compKeyH c' i' = compKeyH c i := h2
      have hd := str_data_eq h2'
      rw [compKeyH_data, compKeyH_data] at hd
      have h3 := List.append_cancel_left hd
      obtain ⟨hc2, -, hi2⟩ := two_num_token_eq c' i' '-' c i '-' (by decide) (by decide) h3
      subst hc2
      subst hi2
      rfl
    · show compLabelU c' i' ≠ compKeyH c i
      apply str_ne_of_data
      rw [compLabelU_data, compKeyH_data]
      intro h2
      have h3 := List.append_cancel_left h2
      obtain ⟨-, hsep, -⟩ := two_num_token_eq c' i' '_' c i '-' (by decide) (by decide) h3
      exact absurd hsep (by decide)
  · subst he'
    have hne : ihxKey s t ≠ compKeyH c i :=
      ne_compKeyH_app "Internal Heat Exchanger " (natDigits s ++ ('_' :: natDigits t)) _
        (ihxKey_data _ _) c i 0 (by decide) (by decide) (by decide)
    exact ⟨fun h2 => absurd h2 hne, hne⟩

/-! ### Invariants carried through `runCalls` -/

theorem dinsert_mem {α : Type} (k : String) (v : α) :
    ∀ (m : List (String × α)) (e : String × α), e ∈ dinsert k v m → e = (k, v) ∨ e ∈ m := by
  intro m
  induction m with
  | nil =>
    intro e he
    simp only [dinsert, List.mem_singleton] at he
    exact Or.inl he
  | cons f rest ih =>
    intro e he
    by_cases h : f.1 = k
    · rw [dinsert_cons_pos k v f rest h] at he
      rcases List.mem_cons.1 he with h1 | h1
      · exact Or.inl h1
      · exact Or.inr (List.mem_cons_of_mem _ h1)
    · rw [dinsert_cons_neg k v f rest h] at he
      rcases List.mem_cons.1 he with h1 | h1
      · exact Or.inr (h1 ▸ List.mem_cons_self _ _)
      · rcases ih e h1 with h2 | h2
        · exact Or.inl h2
        · exact Or.inr (List.mem_cons_of_mem _ h2)

theorem runCalls_components : ∀ (calls : List SC) (hp hp' : Heatpump),
    runCalls hp calls = some hp' → hp'.components = hp.components := by
  intro calls
  induction calls with
  | nil =>
    intro hp hp' h
    simp only [runCalls, Option.some.injEq] at h
    rw [← h]
  | cons sc rest ih =>
    intro hp hp' h
    simp only [runCalls] at h
    cases hsc : set_conn hp sc.label sc.src sc.outlet sc.tgt sc.inlet with
    | none => rw [hsc] at h; simp at h
    | some hp1 =>
      rw [hsc] at h
      rw [ih hp1 hp' h, set_conn_components hp hp1 _ _ _ _ _ hsc]

/-- Any property of components that holds of every value in the component
table holds of both endpoints of every connection that `runCalls` adds. -/
theorem runCalls_conn_comp_pred (Q : Component → Prop) :
    ∀ (calls : List SC) (hp hp' : Heatpump),
      runCalls hp calls = some hp' →
      (∀ k v, dlookup k hp.components = some v → Q v) →
      (∀ e ∈ hp.connections, Q e.2.source ∧ Q e.2.target) →
      ∀ e ∈ hp'.connections, Q e.2.source ∧ Q e.2.target := by
  intro calls
  induction calls with
  | nil =>
    intro hp hp' h hcomp hconn
    simp only [runCalls, Option.some.injEq] at h
    rw [← h]
    exact hconn
  | cons sc rest ih =>
    intro hp hp' h hcomp hconn
    simp only [runCalls] at h
    cases hsc : set_conn hp sc.label sc.src sc.outlet sc.tgt sc.inlet with
    | none => rw [hsc] at h; simp at h
    | some hp1 =>
      rw [hsc] at h
      unfold set_conn at hsc
      cases hda : dlookup sc.src hp.components with
      | none => rw [hda] at hsc; simp at hsc
      | some s =>
        rw [hda] at hsc
        cases hdb : dlookup sc.tgt hp.components with
        | none => rw [hdb] at hsc; simp at hsc
        | some t =>
          rw [hdb] at hsc
          simp only [Option.some.injEq] at hsc
          apply ih hp1 hp' h
          · intro k v hkv
            rw [← hsc] at hkv
            exact hcomp k v hkv
          · intro e hee
            rw [← hsc] at hee
            have hee2 : e ∈ dinsert sc.label ⟨s, sc.outlet, t, sc.inlet⟩ hp.connections := hee
            rcases dinsert_mem _ _ _ _ hee2 with h1 | h1
            · rw [h1]
              exact ⟨hcomp sc.src s hda, hcomp sc.tgt t hdb⟩
            · exact hconn e h1

theorem foldl_derase_noop (key : String) :
    ∀ (l : List (String × Conn)) (acc : List (String × Conn)),
      (∀ e ∈ l, connTouches key e.2 = false) →
      l.foldl (fun copy e => if connTouches key e.2 then derase e.1 copy else copy) acc
        = acc := by
  intro l
  induction l with
  | nil => intro acc _; rfl
  | cons e rest ih =>
    intro acc h
    have he : connTouches key e.2 = false := h e (List.mem_cons_self _ _)
    rw [List.foldl_cons]
    show List.foldl _ (if connTouches key e.2 = true then derase e.1 acc else acc) rest = acc
    rw [he, if_neg (by decide : ¬(false = true))]
    exact ih acc (fun e' he' => h e' (List.mem_cons_of_mem _ he'))

/-- C10: for every cycle `c` that has an intercooler entry and every stage
index `i` of that cycle, `generate_components` stores the stage compressor
under the hyphenated table key `Compressor c-i` while the stored component
object's own label is the underscored `Compressor c_i`, so the table key
differs from the component label; consequently `delete_component` at the
hyphenated key removes the compressor from the component table but removes
none of the connections, because the cascade compares the key against the
connections' endpoint labels, which never equal the hyphenated key. -/
theorem C10_key_label_mismatch (cfg : Config) (c : Nat) (hc : c ∈ List.range' 1 cfg.nr_cycles)
    (ic : IcSpec) (hic : cfg.intercooler c = some ic) (i : Nat) (hi1 : 1 ≤ i)
    (hi2 : i ≤ ic.amount + 1) (hp : Heatpump) (hbuild : buildHeatpump cfg = some hp) :
    dlookup (compKeyH c i) hp.components = some ⟨compLabelU c i, .compressor⟩ ∧
    compKeyH c i ≠ compLabelU c i ∧
    delete_component hp (compKeyH c i)
      = ⟨derase (compKeyH c i) hp.components, hp.connections⟩ := by
  have hbuild' : runCalls ⟨generate_components cfg, []⟩
      (topoCalls cfg (generate_components cfg)) = some hp := hbuild
  have hcomps : hp.components = generate_components cfg :=
    runCalls_components _ _ _ hbuild'
  have hmem : compKeyH c i ∈ (generate_components cfg).map Prod.fst :=
    compKeyH_mem cfg c hc ic hic i hi1 hi2
  obtain ⟨v, hv⟩ := Option.isSome_iff_exists.1
    ((dlookup_isSome_iff (compKeyH c i) (generate_components cfg)).2 hmem)
  have hventry : (compKeyH c i, v) ∈ componentEntries cfg := dlookup_buildDict_mem _ _ _ hv
  have hval : v = ⟨compLabelU c i, .compressor⟩ :=
    (componentEntries_compKeyH_analysis cfg c i _ hventry).1 rfl
  have hlook : dlookup (compKeyH c i) hp.components = some ⟨compLabelU c i, .compressor⟩ := by
    rw [hcomps, hv, hval]
  have hQ : ∀ e ∈ hp.connections,
      e.2.source.label ≠ compKeyH c i ∧ e.2.target.label ≠ compKeyH c i := by
    apply runCalls_conn_comp_pred (fun comp => comp.label ≠ compKeyH c i) _ _ _ hbuild'
    · intro k w hkw
      have hw : (k, w) ∈ componentEntries cfg := dlookup_buildDict_mem _ _ _ hkw
      exact (componentEntries_compKeyH_analysis cfg c i _ hw).2
    · intro e he
      simp at he
  have hnotouch : ∀ e ∈ hp.connections, connTouches (compKeyH c i) e.2 = false := by
    intro e he
    obtain ⟨h1, h2⟩ := hQ e he
    simp only [connTouches, Bool.or_eq_false_iff, beq_eq_false_iff_ne]
    exact ⟨Ne.symm h1, Ne.symm h2⟩
  refine ⟨hlook, ?_, ?_⟩
  · apply str_ne_of_data
    rw [compKeyH_data, compLabelU_data]
    intro h2
    have h3 := List.append_cancel_left h2
    obtain ⟨-, hsep, -⟩ := two_num_token_eq c i '-' c i '_' (by decide) (by decide) h3
    exact absurd hsep (by decide)
  · have hcond : (dlookup (compKeyH c i) hp.components).isSome = true := by
      rw [hlook]; rfl
    unfold delete_component
    rw [if_pos hcond, foldl_derase_noop (compKeyH c i) hp.connections hp.connections hnotouch]

theorem C10_witness :
    dlookup (compKeyH 1 1) hpC3w.components = some ⟨compLabelU 1 1, .compressor⟩ ∧
    compKeyH 1 1 ≠ compLabelU 1 1 ∧
    delete_component hpC3w (compKeyH 1 1)
      = ⟨derase (compKeyH 1 1) hpC3w.components, hpC3w.connections⟩ :=
  C10_key_label_mismatch cfgC3w 1 (by decide) ⟨2, .heatExchanger⟩ (by decide) 1 (by decide)
    (by decide) hpC3w (by decide)

/-! ### Referential integrity (claim C7) -/

/-- Without intercoolers, every component entry's stored label equals its
table key. -/
theorem componentEntries_label_eq_key (cfg : Config)
    (hnoic : ∀ x, cfg.intercooler x = none) :
    ∀ e ∈ componentEntries cfg, e.2.label = e.1 := by
  intro e he
  rcases componentEntries_shape cfg e he with hfix | ⟨c', he'⟩ | ⟨c', he'⟩ | ⟨c', he'⟩
    | ⟨c', he'⟩ | ⟨c', hic, he'⟩ | ⟨c', i', ty, he'⟩ | ⟨c', i', ic, hic, hi1, he'⟩
    | ⟨s, t, he'⟩
  · simp only [fixedComponentEntries, List.mem_cons, List.not_mem_nil, or_false] at hfix
    rcases hfix with h | h | h | h | h | h | h <;> subst h <;> rfl
  · subst he'; rfl
  · subst he'; rfl
  · subst he'; rfl
  · subst he'; rfl
  · subst he'; rfl
  · subst he'; rfl
  · rw [hnoic c'] at hic
    exact Option.noConfusion hic
  · subst he'; rfl

theorem mem_keys_derase_of_ne {α : Type} (k l : String) (hne : l ≠ k) :
    ∀ m : List (String × α), l ∈ m.map Prod.fst → l ∈ (derase k m).map Prod.fst := by
  intro m
  induction m with
  | nil => intro h; simp at h
  | cons e rest ih =>
    intro h
    simp only [List.map_cons, List.mem_cons] at h
    by_cases hek : e.1 = k
    · rw [derase_cons_pos k e rest hek]
      rcases h with h1 | h1
      · rw [hek] at h1
        exact absurd h1 hne
      · exact h1
    · rw [derase_cons_neg k e rest hek]
      simp only [List.map_cons, List.mem_cons]
      rcases h with h1 | h1
      · exact Or.inl h1
      · exact Or.inr (ih h1)

theorem runCalls_conn_nodup : ∀ (calls : List SC) (hp hp' : Heatpump),
    runCalls hp calls = some hp' →
    (hp.connections.map Prod.fst).Nodup →
    (hp'.connections.map Prod.fst).Nodup := by
  intro calls
  induction calls with
  | nil =>
    intro hp hp' h hnd
    simp only [runCalls, Option.some.injEq] at h
    rw [← h]
    exact hnd
  | cons sc rest ih =>
    intro hp hp' h hnd
    simp only [runCalls] at h
    cases hsc : set_conn hp sc.label sc.src sc.outlet sc.tgt sc.inlet with
    | none => rw [hsc] at h; simp at h
    | some hp1 =>
      rw [hsc] at h
      unfold set_conn at hsc
      cases hda : dlookup sc.src hp.components with
      | none => rw [hda] at hsc; simp at hsc
      | some s =>
        rw [hda] at hsc
        cases hdb : dlookup sc.tgt hp.components with
        | none => rw [hdb] at hsc; simp at hsc
        | some t =>
          rw [hdb] at hsc
          simp only [Option.some.injEq] at hsc
          apply ih hp1 hp' h
          rw [← hsc]
          exact nodup_keys_dinsert _ _ _ hnd

/-- One `delete_component` call keeps referential integrity and keeps the
connection labels duplicate-free. -/
theorem delete_preserves_integrity (hp : Heatpump) (component : String)
    (hnd : (hp.connections.map Prod.fst).Nodup) (hint : integrityOk hp) :
    integrityOk (delete_component hp component) ∧
    ((delete_component hp component).connections.map Prod.fst).Nodup := by
  cases hmem : (dlookup component hp.components).isSome with
  | false =>
    have hd : delete_component hp component = hp := by
      unfold delete_component
      rw [if_neg (by rw [hmem]; simp)]
    rw [hd]
    exact ⟨hint, hnd⟩
  | true =>
    have hcomps : (delete_component hp component).components
        = derase component hp.components := by
      unfold delete_component
      rw [if_pos hmem]
    have hconns : (delete_component hp component).connections
        = hp.connections.filter (fun e => ! connTouches component e.2) := by
      unfold delete_component
      rw [if_pos hmem]
      show hp.connections.foldl _ hp.connections = _
      have := delete_fold_filter component hp.connections [] (by simpa using hnd)
      simpa using this
    constructor
    · intro e he
      rw [hconns] at he
      obtain ⟨hmem2, htouch⟩ := List.mem_filter.1 he
      obtain ⟨hs, ht⟩ := hint e hmem2
      have htouch2 : connTouches component e.2 = false := by simpa using htouch
      simp only [connTouches, Bool.or_eq_false_iff, beq_eq_false_iff_ne] at htouch2
      rw [hcomps]
      exact ⟨mem_keys_derase_of_ne component _ (Ne.symm htouch2.1) _ hs,
             mem_keys_derase_of_ne component _ (Ne.symm htouch2.2) _ ht⟩
    · rw [hconns]
      exact hnd.sublist (List.Sublist.map _ (List.filter_sublist _))

/-- C7 is refuted as stated: with an intercooler stage, the freshly built
heat pump already holds connections whose endpoint component labels (the
underscored compressor labels) are absent from the component table, whose
keys are hyphenated. -/
theorem C7_cex_dangling_reference : ¬ C7ClaimAt cfgC7cex := by
  intro h
  have h2 := h hpC7cex (by decide)
  unfold integrityOk at h2
  exact absurd h2 (by decide)

/-- C7 (amended): restricted to configurations without intercoolers, the
invariant does hold — after construction, and after every sequence of
`delete_component` calls, every connection's source and target component
labels exist in the component table. -/
theorem C7_integrity_no_intercooler (cfg : Config)
    (hnoic : ∀ x, cfg.intercooler x = none) (hp : Heatpump)
    (hbuild : buildHeatpump cfg = some hp) :
    integrityOk hp ∧
    ∀ ds : List String, integrityOk (ds.foldl delete_component hp) := by
  have hbuild' : runCalls ⟨generate_components cfg, []⟩
      (topoCalls cfg (generate_components cfg)) = some hp := hbuild
  have hcomps : hp.components = generate_components cfg :=
    runCalls_components _ _ _ hbuild'
  have hint : integrityOk hp := by
    intro e he
    have hQ := runCalls_conn_comp_pred
      (fun comp => comp.label ∈ (generate_components cfg).map Prod.fst)
      _ _ _ hbuild' ?_ ?_ e he
    · rw [hcomps]
      exact hQ
    · intro k v hkv
      have hv : (k, v) ∈ componentEntries cfg := dlookup_buildDict_mem _ _ _ hkv
      rw [componentEntries_label_eq_key cfg hnoic _ hv]
      exact (dlookup_isSome_iff _ _).1 (by rw [hkv]; rfl)
    · intro e2 he2
      simp at he2
  have hnd : (hp.connections.map Prod.fst).Nodup :=
    runCalls_conn_nodup _ _ _ hbuild' (by simp)
  refine ⟨hint, ?_⟩
  have hmain : ∀ (ds : List String) (h : Heatpump), integrityOk h →
      (h.connections.map Prod.fst).Nodup →
      integrityOk (ds.foldl delete_component h) ∧
      ((ds.foldl delete_component h).connections.map Prod.fst).Nodup := by
    intro ds
    induction ds with
    | nil => intro h hi hn; exact ⟨hi, hn⟩
    | cons d rest ih =>
      intro h hi hn
      obtain ⟨hi2, hn2⟩ := delete_preserves_integrity h d hn hi
      rw [List.foldl_cons]
      exact ih _ hi2 hn2
  intro ds
  exact (hmain ds hp hint hnd).1

/-- Witness for C7 (amended): the single-stage configuration has no
intercoolers; integrity holds after the build and after deleting two
components in sequence. -/
theorem C7_witness :
    integrityOk hpN1 ∧
    integrityOk (List.foldl delete_component hpN1 ["Consumer", "Valve 1"]) :=
  ⟨(C7_integrity_no_intercooler cfgN1 (fun _ => rfl) hpN1 (by decide)).1,
   (C7_integrity_no_intercooler cfgN1 (fun _ => rfl) hpN1 (by decide)).2
     ["Consumer", "Valve 1"]⟩

/-- C4 is refuted as stated: at `N = 2` the build yields 15 components and
17 connections, not 16 — the table sizes differ by `N`, not by one. -/
theorem C4_cex_connection_count : ¬ C4ClaimAt 2 := by
  intro h
  have h2 := h hpE2 (by decide)
  exact absurd h2.2 (by decide)

/-! ### Generic string-distinctness framework for the cardinality claim -/

theorem str_data_self (a : String) : a.data = a.data ++ [] := (List.append_nil _).symm

theorem ne_by_take_gen (a b : String) (k : Nat) (la lb : String) (ra rb : List Char)
    (hada : a.data = la.data ++ ra) (hadb : b.data = lb.data ++ rb)
    (hka : k ≤ la.data.length) (hkb : k ≤ lb.data.length)
    (h : la.data.take k ≠ lb.data.take k) : a ≠ b := by
  apply str_ne_of_data
  rw [hada, hadb]
  intro heq
  apply h
  rw [← List.take_append_of_le_length hka, ← List.take_append_of_le_length hkb, heq]

theorem lit_nat_lit_data (l1 : String) (a : Nat) (l2 : String) :
    (l1 ++ natStr a ++ l2).data = l1.data ++ (natDigits a ++ l2.data) := by
  simp only [str_data_append, List.append_assoc]
  rfl

theorem lit3_data (l1 : String) (a : Nat) (l2 : String) (b : Nat) (l3 : String) (c : Nat) :
    (l1 ++ natStr a ++ l2 ++ natStr b ++ l3 ++ natStr c).data
      = l1.data ++ (natDigits a ++ (l2.data ++ (natDigits b ++ (l3.data ++ natDigits c)))) := by
  simp only [str_data_append, List.append_assoc]
  rfl

theorem lit_tokens_eq (lit : String) (a a' : Nat) (x x' : Char) (r r' : List Char)
    (hx : isDigB x = false) (hx' : isDigB x' = false)
    (h : lit.data ++ (natDigits a ++ (x :: r)) = lit.data ++ (natDigits a' ++ (x' :: r'))) :
    a = a' ∧ x = x' ∧ r = r' := by
  have h2 := List.append_cancel_left h
  obtain ⟨h3, h4, h5⟩ := digits_token_split (natDigits a) (natDigits a') x x' r r'
    (natDigits_all_digits a) (natDigits_all_digits a') hx hx' h2
  exact ⟨natDigits_inj _ _ h3, h4, h5⟩

theorem lit_natStr_inj (lit : String) (a b : Nat)
    (h : lit ++ natStr a = lit ++ natStr b) : a = b := by
  have hd := str_data_eq h
  rw [lit_nat_data, lit_nat_data] at hd
  exact natDigits_inj _ _ (List.append_cancel_left hd)

theorem heatExKey_inj (a b a' b' : Nat)
    (h : ("Heat Exchanger " ++ natStr a ++ "_" ++ natStr b)
       = ("Heat Exchanger " ++ natStr a' ++ "_" ++ natStr b')) : a = a' ∧ b = b' := by
  have hd := str_data_eq h
  rw [heatExKey_data, heatExKey_data] at hd
  have h2 := List.append_cancel_left hd
  obtain ⟨h3, -, h4⟩ := digits_token_split _ _ _ _ _ _ (natDigits_all_digits a)
    (natDigits_all_digits a') (by decide) (by decide) h2
  exact ⟨natDigits_inj _ _ h3, natDigits_inj _ _ h4⟩

theorem nodup3 {α : Type} (a b c : α) (h1 : a ≠ b) (h2 : a ≠ c) (h3 : b ≠ c) :
    List.Nodup [a, b, c] := by
  simp only [List.nodup_cons, List.mem_cons, List.not_mem_nil, or_false, not_or,
    List.mem_singleton, List.nodup_nil, and_true]
  exact ⟨⟨h1, h2⟩, h3, not_false⟩

theorem nodup4 {α : Type} (a b c d : α) (h1 : a ≠ b) (h2 : a ≠ c) (h3 : a ≠ d)
    (h4 : b ≠ c) (h5 : b ≠ d) (h6 : c ≠ d) : List.Nodup [a, b, c, d] := by
  simp only [List.nodup_cons, List.mem_cons, List.not_mem_nil, or_false, not_or,
    List.mem_singleton, List.nodup_nil, and_true]
  exact ⟨⟨h1, h2, h3⟩, ⟨h4, h5⟩, h6, not_false⟩

theorem nodup5 {α : Type} (a b c d e : α) (h1 : a ≠ b) (h2 : a ≠ c) (h3 : a ≠ d) (h4 : a ≠ e)
    (h5 : b ≠ c) (h6 : b ≠ d) (h7 : b ≠ e) (h8 : c ≠ d) (h9 : c ≠ e) (h10 : d ≠ e) :
    List.Nodup [a, b, c, d, e] := by
  simp only [List.nodup_cons, List.mem_cons, List.not_mem_nil, or_false, not_or,
    List.mem_singleton, List.nodup_nil, and_true]
  exact ⟨⟨h1, h2, h3, h4⟩, ⟨h5, h6, h7⟩, ⟨h8, h9⟩, h10, not_false⟩

theorem nodup_flatMap_of {α β : Type} :
    ∀ (l : List α) (f : α → List β),
      (∀ a ∈ l, (f a).Nodup) →
      List.Pairwise (fun a b => ∀ x ∈ f a, x ∉ f b) l →
      (l.flatMap f).Nodup := by
  intro l f
  induction l with
  | nil => intro _ _; simp
  | cons a rest ih =>
    intro h1 h2
    rw [List.flatMap_cons, List.nodup_append]
    obtain ⟨hrel, hpair⟩ := List.pairwise_cons.1 h2
    refine ⟨h1 a (List.mem_cons_self _ _),
      ih (fun b hb => h1 b (List.mem_cons_of_mem _ hb)) hpair, ?_⟩
    intro x hx hx2
    obtain ⟨b, hb, hxb⟩ := List.mem_flatMap.1 hx2
    exact hrel b hb x hx hxb

/-! ### Component keys of the empty configuration are pairwise distinct -/

theorem kCC_ne_kV (c c' : Nat) : ("Cycle Closer " ++ natStr c) ≠ ("Valve " ++ natStr c') :=
  ne_by_take_gen _ _ 6 "Cycle Closer " "Valve " _ _ (lit_nat_data _ _) (lit_nat_data _ _)
    (by decide) (by decide) (by decide)

theorem kCC_ne_kHX (c a b : Nat) :
    ("Cycle Closer " ++ natStr c) ≠ ("Heat Exchanger " ++ natStr a ++ "_" ++ natStr b) :=
  ne_by_take_gen _ _ 6 "Cycle Closer " "Heat Exchanger " _ _ (lit_nat_data _ _)
    (heatExKey_data _ _) (by decide) (by decide) (by decide)

theorem kCC_ne_kCND (c c' : Nat) : ("Cycle Closer " ++ natStr c) ≠ ("Condenser " ++ natStr c') :=
  ne_by_take_gen _ _ 6 "Cycle Closer " "Condenser " _ _ (lit_nat_data _ _) (lit_nat_data _ _)
    (by decide) (by decide) (by decide)

theorem kCC_ne_kCMP (c c' : Nat) :
    ("Cycle Closer " ++ natStr c) ≠ ("Compressor " ++ natStr c') :=
  ne_by_take_gen _ _ 6 "Cycle Closer " "Compressor " _ _ (lit_nat_data _ _) (lit_nat_data _ _)
    (by decide) (by decide) (by decide)

theorem kV_ne_kHX (c a b : Nat) :
    ("Valve " ++ natStr c) ≠ ("Heat Exchanger " ++ natStr a ++ "_" ++ natStr b) :=
  ne_by_take_gen _ _ 6 "Valve " "Heat Exchanger " _ _ (lit_nat_data _ _)
    (heatExKey_data _ _) (by decide) (by decide) (by decide)

theorem kV_ne_kCND (c c' : Nat) : ("Valve " ++ natStr c) ≠ ("Condenser " ++ natStr c') :=
  ne_by_take_gen _ _ 6 "Valve " "Condenser " _ _ (lit_nat_data _ _) (lit_nat_data _ _)
    (by decide) (by decide) (by decide)

theorem kV_ne_kCMP (c c' : Nat) : ("Valve " ++ natStr c) ≠ ("Compressor " ++ natStr c') :=
  ne_by_take_gen _ _ 6 "Valve " "Compressor " _ _ (lit_nat_data _ _) (lit_nat_data _ _)
    (by decide) (by decide) (by decide)

theorem kHX_ne_kCND (a b c' : Nat) :
    ("Heat Exchanger " ++ natStr a ++ "_" ++ natStr b) ≠ ("Condenser " ++ natStr c') :=
  ne_by_take_gen _ _ 6 "Heat Exchanger " "Condenser " _ _ (heatExKey_data _ _)
    (lit_nat_data _ _) (by decide) (by decide) (by decide)

theorem kHX_ne_kCMP (a b c' : Nat) :
    ("Heat Exchanger " ++ natStr a ++ "_" ++ natStr b) ≠ ("Compressor " ++ natStr c') :=
  ne_by_take_gen _ _ 6 "Heat Exchanger " "Compressor " _ _ (heatExKey_data _ _)
    (lit_nat_data _ _) (by decide) (by decide) (by decide)

theorem kCND_ne_kCMP (c c' : Nat) : ("Condenser " ++ natStr c) ≠ ("Compressor " ++ natStr c') :=
  ne_by_take_gen _ _ 6 "Condenser " "Compressor " _ _ (lit_nat_data _ _) (lit_nat_data _ _)
    (by decide) (by decide) (by decide)

/-! ### The component entries of the empty configuration -/

theorem cycleComponentEntries_empty (n c : Nat) :
    cycleComponentEntries (cfgEmpty n) c
      = [("Cycle Closer " ++ natStr c, ⟨"Cycle Closer " ++ natStr c, .cycleCloser⟩),
         ("Valve " ++ natStr c, ⟨"Valve " ++ natStr c, .valve⟩)]
        ++ (if c ≠ 1 then
              [("Heat Exchanger " ++ natStr (c-1) ++ "_" ++ natStr c,
                ⟨"Heat Exchanger " ++ natStr (c-1) ++ "_" ++ natStr c, .heatExchanger⟩)]
            else [])
        ++ (if c = n then
              [("Condenser " ++ natStr c, ⟨"Condenser " ++ natStr c, .condenser⟩)]
            else [])
        ++ [("Compressor " ++ natStr c, ⟨"Compressor " ++ natStr c, .compressor⟩)] := by
  show _ ++ [] = _
  exact List.append_nil _

theorem mem_cycleKeys_empty (n c : Nat) (k : String)
    (h : k ∈ (cycleComponentEntries (cfgEmpty n) c).map Prod.fst) :
    k = "Cycle Closer " ++ natStr c ∨ k = "Valve " ++ natStr c
      ∨ k = "Heat Exchanger " ++ natStr (c-1) ++ "_" ++ natStr c
      ∨ k = "Condenser " ++ natStr c ∨ k = "Compressor " ++ natStr c := by
  rw [cycleComponentEntries_empty] at h
  simp only [List.map_append, List.mem_append] at h
  rcases h with ((h | h) | h) | h
  · simp only [List.map_cons, List.map_nil, List.mem_cons, List.not_mem_nil, or_false] at h
    rcases h with h | h
    · exact Or.inl h
    · exact Or.inr (Or.inl h)
  · by_cases h1 : c ≠ 1
    · rw [if_pos h1] at h
      simp only [List.map_cons, List.map_nil, List.mem_cons, List.not_mem_nil, or_false] at h
      exact Or.inr (Or.inr (Or.inl h))
    · rw [if_neg h1] at h
      simp at h
  · by_cases h2 : c = n
    · rw [if_pos h2] at h
      simp only [List.map_cons, List.map_nil, List.mem_cons, List.not_mem_nil, or_false] at h
      exact Or.inr (Or.inr (Or.inr (Or.inl h)))
    · rw [if_neg h2] at h
      simp at h
  · simp only [List.map_cons, List.map_nil, List.mem_cons, List.not_mem_nil, or_false] at h
    exact Or.inr (Or.inr (Or.inr (Or.inr h)))

theorem cycleKeys_empty_nodup (n c : Nat) :
    ((cycleComponentEntries (cfgEmpty n) c).map Prod.fst).Nodup := by
  rw [cycleComponentEntries_empty]
  by_cases h1 : c ≠ 1 <;> by_cases h2 : c = n
  · rw [if_pos h1, if_pos h2]
    show List.Nodup ["Cycle Closer " ++ natStr c, "Valve " ++ natStr c,
      "Heat Exchanger " ++ natStr (c-1) ++ "_" ++ natStr c, "Condenser " ++ natStr c,
      "Compressor " ++ natStr c]
    exact nodup5 _ _ _ _ _ (kCC_ne_kV c c) (kCC_ne_kHX c (c-1) c) (kCC_ne_kCND c c)
      (kCC_ne_kCMP c c) (kV_ne_kHX c (c-1) c) (kV_ne_kCND c c) (kV_ne_kCMP c c)
      (kHX_ne_kCND (c-1) c c) (kHX_ne_kCMP (c-1) c c) (kCND_ne_kCMP c c)
  · rw [if_pos h1, if_neg h2]
    show List.Nodup ["Cycle Closer " ++ natStr c, "Valve " ++ natStr c,
      "Heat Exchanger " ++ natStr (c-1) ++ "_" ++ natStr c, "Compressor " ++ natStr c]
    exact nodup4 _ _ _ _ (kCC_ne_kV c c) (kCC_ne_kHX c (c-1) c) (kCC_ne_kCMP c c)
      (kV_ne_kHX c (c-1) c) (kV_ne_kCMP c c) (kHX_ne_kCMP (c-1) c c)
  · rw [if_neg h1, if_pos h2]
    show List.Nodup ["Cycle Closer " ++ natStr c, "Valve " ++ natStr c,
      "Condenser " ++ natStr c, "Compressor " ++ natStr c]
    exact nodup4 _ _ _ _ (kCC_ne_kV c c) (kCC_ne_kCND c c) (kCC_ne_kCMP c c)
      (kV_ne_kCND c c) (kV_ne_kCMP c c) (kCND_ne_kCMP c c)
  · rw [if_neg h1, if_neg h2]
    show List.Nodup ["Cycle Closer " ++ natStr c, "Valve " ++ natStr c,
      "Compressor " ++ natStr c]
    exact nodup3 _ _ _ (kCC_ne_kV c c) (kCC_ne_kCMP c c) (kV_ne_kCMP c c)

theorem cycleKeys_empty_disjoint (n c c' : Nat) (hcc : c ≠ c') (k : String)
    (h : k ∈ (cycleComponentEntries (cfgEmpty n) c).map Prod.fst)
    (h' : k ∈ (cycleComponentEntries (cfgEmpty n) c').map Prod.fst) : False := by
  rcases mem_cycleKeys_empty n c k h with h1 | h1 | h1 | h1 | h1 <;>
    rcases mem_cycleKeys_empty n c' k h' with h2 | h2 | h2 | h2 | h2 <;>
    (have heq := h1.symm.trans h2) <;>
    first
      | exact hcc (lit_natStr_inj _ _ _ heq)
      | exact hcc (heatExKey_inj _ _ _ _ heq).2
      | exact absurd heq (kCC_ne_kV _ _)
      | exact absurd heq (kCC_ne_kHX _ _ _)
      | exact absurd heq (kCC_ne_kCND _ _)
      | exact absurd heq (kCC_ne_kCMP _ _)
      | exact absurd heq (kV_ne_kHX _ _ _)
      | exact absurd heq (kV_ne_kCND _ _)
      | exact absurd heq (kV_ne_kCMP _ _)
      | exact absurd heq (kHX_ne_kCND _ _ _)
      | exact absurd heq (kHX_ne_kCMP _ _ _)
      | exact absurd heq (kCND_ne_kCMP _ _)
      | exact absurd heq.symm (kCC_ne_kV _ _)
      | exact absurd heq.symm (kCC_ne_kHX _ _ _)
      | exact absurd heq.symm (kCC_ne_kCND _ _)
      | exact absurd heq.symm (kCC_ne_kCMP _ _)
      | exact absurd heq.symm (kV_ne_kHX _ _ _)
      | exact absurd heq.symm (kV_ne_kCND _ _)
      | exact absurd heq.symm (kV_ne_kCMP _ _)
      | exact absurd heq.symm (kHX_ne_kCND _ _ _)
      | exact absurd heq.symm (kHX_ne_kCMP _ _ _)
      | exact absurd heq.symm (kCND_ne_kCMP _ _)

theorem fixed_block_disjoint (n c : Nat) (k : String)
    (hf : k ∈ fixedComponentEntries.map Prod.fst)
    (hb : k ∈ (cycleComponentEntries (cfgEmpty n) c).map Prod.fst) : False := by
  simp only [fixedComponentEntries, List.map_cons, List.map_nil, List.mem_cons,
    List.not_mem_nil, or_false] at hf
  rcases mem_cycleKeys_empty n c k hb with h1 | h1 | h1 | h1 | h1 <;>
    rcases hf with h2 | h2 | h2 | h2 | h2 | h2 | h2 <;>
    exact absurd (h2.symm.trans h1) (ne_by_take_gen _ _ 6 _ _ _ _ (str_data_self _)
      (by first | exact heatExKey_data _ _ | exact lit_nat_data _ _)
      (by decide) (by decide) (by decide))

theorem componentKeys_empty_nodup (n : Nat) :
    ((componentEntries (cfgEmpty n)).map Prod.fst).Nodup := by
  show ((fixedComponentEntries
      ++ (List.range' 1 n).flatMap (cycleComponentEntries (cfgEmpty n))).map Prod.fst).Nodup
  rw [List.map_append, List.nodup_append]
  refine ⟨by decide, ?_, ?_⟩
  · rw [List.map_flatMap]
    apply nodup_flatMap_of
    · intro c _
      exact cycleKeys_empty_nodup n c
    · have hlt : List.Pairwise (· < ·) (List.range' 1 n) := by
        have := List.pairwise_lt_range' 1 n 1 (by omega)
        simpa using this
      refine List.Pairwise.imp ?_ hlt
      intro a b hab x hxa hxb
      exact cycleKeys_empty_disjoint n a b (Nat.ne_of_lt hab) x hxa hxb
  · intro k hk hk2
    rw [List.map_flatMap] at hk2
    obtain ⟨c, -, hkc⟩ := List.mem_flatMap.1 hk2
    exact fixed_block_disjoint n c k hk hkc

/-! ### Component count of the empty configuration -/

theorem cycleBlock_empty_length (n c : Nat) :
    (cycleComponentEntries (cfgEmpty n) c).length
      = 3 + (if c = 1 then 0 else 1) + (if c = n then 1 else 0) := by
  rw [cycleComponentEntries_empty]
  split_ifs <;> simp_all

theorem sum_blocks_empty (n : Nat) : ∀ m, m < n →
    ((List.range' 1 m).map (fun c => (cycleComponentEntries (cfgEmpty n) c).length)).sum
      = if m = 0 then 0 else 4 * m - 1 := by
  intro m
  induction m with
  | zero => intro _; rfl
  | succ m ih =>
    intro hm
    have hr : List.range' 1 (m+1) = List.range' 1 m ++ [1 + m] := by
      have := @List.range'_concat 1 1 m
      simpa using this
    rw [hr, List.map_append, List.sum_append, ih (by omega)]
    simp only [List.map_cons, List.map_nil, List.sum_cons, List.sum_nil]
    rw [cycleBlock_empty_length]
    rw [if_neg (by omega : ¬(1 + m = n))]
    by_cases hm0 : m = 0 <;> simp [hm0] <;> omega

theorem length_flatMap_map {α β : Type} (l : List α) (f : α → List β) :
    (l.flatMap f).length = (l.map (fun a => (f a).length)).sum := by
  induction l with
  | nil => rfl
  | cons a rest ih => simp [List.flatMap_cons, ih]

theorem components_empty_length (n : Nat) (hn : 1 ≤ n) :
    (generate_components (cfgEmpty n)).length = 4 * n + 7 := by
  show (buildDict (componentEntries (cfgEmpty n))).length = _
  rw [length_buildDict_of_nodup _ (componentKeys_empty_nodup n)]
  show (fixedComponentEntries
    ++ (List.range' 1 n).flatMap (cycleComponentEntries (cfgEmpty n))).length = _
  rw [List.length_append]
  have h7 : fixedComponentEntries.length = 7 := rfl
  rw [h7, length_flatMap_map]
  have hr : List.range' 1 n = List.range' 1 (n-1) ++ [1 + (n-1)] := by
    have h0 := @List.range'_concat 1 1 (n-1)
    have h2 : n - 1 + 1 = n := by omega
    rw [h2] at h0
    simpa using h0
  rw [hr, List.map_append, List.sum_append, sum_blocks_empty n (n-1) (by omega)]
  simp only [List.map_cons, List.map_nil, List.sum_cons, List.sum_nil]
  rw [cycleBlock_empty_length]
  have h1n : 1 + (n-1) = n := by omega
  rw [h1n, if_pos rfl]
  by_cases hn1 : n = 1
  · subst hn1
    simp
  · rw [if_neg (by omega : ¬(n-1 = 0)), if_neg hn1]
    omega

/-! ### The topology call list of the empty configuration -/

theorem cycleIntHeatex_empty (n c : Nat) : cycleIntHeatex (cfgEmpty n) c = [] := by
  unfold cycleIntHeatex
  exact List.filter_eq_nil_iff.2 (fun a _ h => nomatch h)

theorem containsSub_head_false (ch : Char) (pr : List Char) :
    ∀ s : List Char, ch ∉ s → containsSub (ch :: pr) s = false := by
  intro s
  induction s with
  | nil => intro _; rfl
  | cons c2 rest ih =>
    intro h
    have hne : ch ≠ c2 := fun he => h (he ▸ List.mem_cons_self _ _)
    have h2 : ch ∉ rest := fun hm => h (List.mem_cons_of_mem _ hm)
    show (isPrefB (ch :: pr) (c2 :: rest) || containsSub (ch :: pr) rest) = false
    rw [ih h2, Bool.or_false]
    show (decide (ch = c2) && isPrefB pr rest) = false
    rw [decide_eq_false hne, Bool.false_and]

theorem notin_lit_nat (ch : Char) (lit : String) (c : Nat) (hd : isDigB ch = false)
    (hl : ch ∉ lit.data) : ch ∉ (lit ++ natStr c).data := by
  rw [lit_nat_data]
  intro h
  rcases List.mem_append.1 h with h1 | h1
  · exact hl h1
  · rw [natDigits_all_digits c ch h1] at hd
    exact absurd hd (by decide)

theorem notin_hx (ch : Char) (a b : Nat) (hd : isDigB ch = false)
    (hl : ch ∉ "Heat Exchanger ".data) (hsep : ch ≠ '_') :
    ch ∉ ("Heat Exchanger " ++ natStr a ++ "_" ++ natStr b).data := by
  rw [heatExKey_data]
  intro h
  rcases List.mem_append.1 h with h1 | h1
  · exact hl h1
  rcases List.mem_append.1 h1 with h2 | h2
  · rw [natDigits_all_digits a ch h2] at hd
    exact absurd hd (by decide)
  rcases List.mem_cons.1 h2 with h3 | h3
  · exact hsep h3
  · rw [natDigits_all_digits b ch h3] at hd
    exact absurd hd (by decide)

theorem hotMatchedKeys_empty (n c : Nat) :
    hotMatchedKeys ((generate_components (cfgEmpty n)).map Prod.fst) c = [] := by
  unfold hotMatchedKeys
  apply List.filter_eq_nil_iff.2
  intro k hk
  have hI : 'I' ∉ k.data := by
    have hk2 : k ∈ (componentEntries (cfgEmpty n)).map Prod.fst :=
      (mem_keys_buildDict _ _).1 hk
    have hk3 : k ∈ (fixedComponentEntries
        ++ (List.range' 1 n).flatMap (cycleComponentEntries (cfgEmpty n))).map Prod.fst := hk2
    rw [List.map_append] at hk3
    rcases List.mem_append.1 hk3 with h1 | h1
    · simp only [fixedComponentEntries, List.map_cons, List.map_nil, List.mem_cons,
        List.not_mem_nil, or_false] at h1
      rcases h1 with h | h | h | h | h | h | h <;> subst h <;> decide
    · rw [List.map_flatMap] at h1
      obtain ⟨c2, -, hkc⟩ := List.mem_flatMap.1 h1
      rcases mem_cycleKeys_empty n c2 k hkc with h | h | h | h | h <;> subst h
      · exact notin_lit_nat 'I' "Cycle Closer " c2 (by decide) (by decide)
      · exact notin_lit_nat 'I' "Valve " c2 (by decide) (by decide)
      · exact notin_hx 'I' (c2-1) c2 (by decide) (by decide) (by decide)
      · exact notin_lit_nat 'I' "Condenser " c2 (by decide) (by decide)
      · exact notin_lit_nat 'I' "Compressor " c2 (by decide) (by decide)
  have hpat : ("Internal Heat Exchanger " ++ natStr c).data
      = 'I' :: ("nternal Heat Exchanger ".data ++ natDigits c) := by
    rw [lit_nat_data]
    rfl
  intro hcontains
  rw [hpat, containsSub_head_false 'I' _ k.data hI] at hcontains
  exact absurd hcontains (by decide)

theorem compFeedSingle_none (c : Nat) :
    compFeedSingle c none
      = if c = 1 then
          ⟨"evaporator1_to_comp" ++ natStr c, "Evaporator 1", "out2",
           "Compressor " ++ natStr c, "in1"⟩
        else
          ⟨"heatex" ++ natStr (c-1) ++ "_" ++ natStr c ++ "_to_comp" ++ natStr c,
           "Heat Exchanger " ++ natStr (c-1) ++ "_" ++ natStr c, "out2",
           "Compressor " ++ natStr c, "in1"⟩ := rfl

theorem singleDischargeCall_empty (n c : Nat) :
    singleDischargeCall (cfgEmpty n) c
      = if c = n then
          ⟨"comp" ++ natStr c ++ "_to_cond" ++ natStr c,
           "Compressor " ++ natStr c, "out1", "Condenser " ++ natStr c, "in1"⟩
        else
          ⟨"comp" ++ natStr c ++ "_to_heatex" ++ natStr c ++ "_" ++ natStr (c+1),
           "Compressor " ++ natStr c, "out1",
           "Heat Exchanger " ++ natStr c ++ "_" ++ natStr (c+1), "in1"⟩ := rfl

theorem hotFinalCall_none_empty (n c : Nat) :
    hotFinalCall (cfgEmpty n) c none
      = if c = n then
          ⟨"cond" ++ natStr c ++ "_to_cc" ++ natStr c,
           "Condenser " ++ natStr c, "out1", "Cycle Closer " ++ natStr c, "in1"⟩
        else
          ⟨"heatex" ++ natStr c ++ "_" ++ natStr (c+1) ++ "_to_cc" ++ natStr c,
           "Heat Exchanger " ++ natStr c ++ "_" ++ natStr (c+1), "out1",
           "Cycle Closer " ++ natStr c, "in1"⟩ := rfl

theorem hotPhaseCalls_nil (cfg : Config) (K : List String) (c : Nat)
    (hK : hotMatchedKeys K c = []) :
    hotPhaseCalls cfg K c = [hotFinalCall cfg c none] := by
  unfold hotPhaseCalls
  rw [hK]
  rfl

theorem cycleCalls_empty (n c : Nat) :
    cycleCalls (cfgEmpty n) ((generate_components (cfgEmpty n)).map Prod.fst) c
      = [ccValveCall c] ++ valveHeatExCalls c
        ++ [compFeedSingle c none, singleDischargeCall (cfgEmpty n) c]
        ++ [hotFinalCall (cfgEmpty n) c none] := by
  unfold cycleCalls
  rw [cycleIntHeatex_empty, hotPhaseCalls_nil _ _ _ (hotMatchedKeys_empty n c)]
  rfl

theorem blockCalls_empty_length (n c : Nat) :
    (cycleCalls (cfgEmpty n) ((generate_components (cfgEmpty n)).map Prod.fst) c).length
      = 4 + (if c = 1 then 0 else 1) := by
  rw [cycleCalls_empty]
  unfold valveHeatExCalls
  split_ifs <;> simp_all

theorem sum_calls_empty (n : Nat) : ∀ m,
    ((List.range' 1 m).map (fun c =>
        (cycleCalls (cfgEmpty n) ((generate_components (cfgEmpty n)).map Prod.fst) c).length)).sum
      = if m = 0 then 0 else 5 * m - 1 := by
  intro m
  induction m with
  | zero => rfl
  | succ m ih =>
    have hr : List.range' 1 (m+1) = List.range' 1 m ++ [1 + m] := by
      have := @List.range'_concat 1 1 m
      simpa using this
    rw [hr, List.map_append, List.sum_append, ih]
    simp only [List.map_cons, List.map_nil, List.sum_cons, List.sum_nil]
    rw [blockCalls_empty_length]
    by_cases hm0 : m = 0 <;> simp [hm0] <;> omega

theorem topoCalls_empty_length (n : Nat) (hn : 1 ≤ n) :
    (topoCalls (cfgEmpty n) (generate_components (cfgEmpty n))).length = 5 * n + 7 := by
  unfold topoCalls
  rw [List.length_append]
  have h8 : (skeletonCalls (cfgEmpty n)).length = 8 := rfl
  have hnc : (cfgEmpty n).nr_cycles = n := rfl
  rw [h8, length_flatMap_map, hnc, sum_calls_empty n n]
  rw [if_neg (by omega : ¬(n = 0))]
  omega

/-! ### Connection-label distinctness for the empty configuration -/

theorem lA_inj (c c' : Nat)
    (h : ("cc" ++ natStr c ++ "_to_valve" ++ natStr c)
       = ("cc" ++ natStr c' ++ "_to_valve" ++ natStr c')) : c = c' := by
  have hd := str_data_eq h
  rw [lit2_data, lit2_data] at hd
  exact (lit_tokens_eq "cc" c c' '_' '_' _ _ (by decide) (by decide) hd).1

theorem lB_inj (c c' : Nat)
    (h : ("valve" ++ natStr c ++ "_to_heat_ex" ++ natStr (c-1) ++ "_" ++ natStr c)
       = ("valve" ++ natStr c' ++ "_to_heat_ex" ++ natStr (c'-1) ++ "_" ++ natStr c')) :
    c = c' := by
  have hd := str_data_eq h
  rw [lit3_data, lit3_data] at hd
  exact (lit_tokens_eq "valve" c c' '_' '_' _ _ (by decide) (by decide) hd).1

theorem lD1_inj (c c' : Nat)
    (h : ("comp" ++ natStr c ++ "_to_cond" ++ natStr c)
       = ("comp" ++ natStr c' ++ "_to_cond" ++ natStr c')) : c = c' := by
  have hd := str_data_eq h
  rw [lit2_data, lit2_data] at hd
  exact (lit_tokens_eq "comp" c c' '_' '_' _ _ (by decide) (by decide) hd).1

theorem lD2_inj (c c' : Nat)
    (h : ("comp" ++ natStr c ++ "_to_heatex" ++ natStr c ++ "_" ++ natStr (c+1))
       = ("comp" ++ natStr c' ++ "_to_heatex" ++ natStr c' ++ "_" ++ natStr (c'+1))) :
    c = c' := by
  have hd := str_data_eq h
  rw [lit3_data, lit3_data] at hd
  exact (lit_tokens_eq "comp" c c' '_' '_' _ _ (by decide) (by decide) hd).1

theorem lD1D2_first (c c' : Nat)
    (h : ("comp" ++ natStr c ++ "_to_cond" ++ natStr c)
       = ("comp" ++ natStr c' ++ "_to_heatex" ++ natStr c' ++ "_" ++ natStr (c'+1))) :
    c = c' := by
  have hd := str_data_eq h
  rw [lit2_data, lit3_data] at hd
  exact (lit_tokens_eq "comp" c c' '_' '_' _ _ (by decide) (by decide) hd).1

theorem lG1_inj (c c' : Nat)
    (h : ("cond" ++ natStr c ++ "_to_cc" ++ natStr c)
       = ("cond" ++ natStr c' ++ "_to_cc" ++ natStr c')) : c = c' := by
  have hd := str_data_eq h
  rw [lit2_data, lit2_data] at hd
  exact (lit_tokens_eq "cond" c c' '_' '_' _ _ (by decide) (by decide) hd).1

theorem lG2_inj (c c' : Nat)
    (h : ("heatex" ++ natStr c ++ "_" ++ natStr (c+1) ++ "_to_cc" ++ natStr c)
       = ("heatex" ++ natStr c' ++ "_" ++ natStr (c'+1) ++ "_to_cc" ++ natStr c')) :
    c = c' := by
  have hd := str_data_eq h
  rw [lit3_data, lit3_data] at hd
  exact (lit_tokens_eq "heatex" c c' '_' '_' _ _ (by decide) (by decide) hd).1

theorem lF2_inj (c c' : Nat)
    (h : ("heatex" ++ natStr (c-1) ++ "_" ++ natStr c ++ "_to_comp" ++ natStr c)
       = ("heatex" ++ natStr (c'-1) ++ "_" ++ natStr c' ++ "_to_comp" ++ natStr c')) :
    c = c' := by
  have hd := str_data_eq h
  rw [lit3_data, lit3_data] at hd
  have h4 := (lit_tokens_eq "heatex" (c-1) (c'-1) '_' '_' _ _ (by decide) (by decide) hd).2.2
  have h5 : natDigits c ++ ("_to_comp".data ++ natDigits c)
      = natDigits c' ++ ("_to_comp".data ++ natDigits c') := h4
  obtain ⟨h6, -, -⟩ := digits_token_split _ _ '_' '_' _ _ (natDigits_all_digits c)
    (natDigits_all_digits c') (by decide) (by decide) h5
  exact natDigits_inj _ _ h6

theorem lF2_ne_lG2 (c c' : Nat) :
    ("heatex" ++ natStr (c-1) ++ "_" ++ natStr c ++ "_to_comp" ++ natStr c)
      ≠ ("heatex" ++ natStr c' ++ "_" ++ natStr (c'+1) ++ "_to_cc" ++ natStr c') := by
  apply str_ne_of_data
  rw [lit3_data, lit3_data]
  intro h
  have h4 := (lit_tokens_eq "heatex" (c-1) c' '_' '_' _ _ (by decide) (by decide) h).2.2
  have h5 : natDigits c ++ ("_to_comp".data ++ natDigits c)
      = natDigits (c'+1) ++ ("_to_cc".data ++ natDigits c') := h4
  obtain ⟨-, -, h6⟩ := digits_token_split _ _ '_' '_' _ _ (natDigits_all_digits c)
    (natDigits_all_digits (c'+1)) (by decide) (by decide) h5
  have h7 : ("to_comp".data : List Char) ++ natDigits c = "to_cc".data ++ natDigits c' := h6
  exact absurd h7 (ne_of_two_lits _ _ _ _ 4 (by decide) (by decide) (by decide))

theorem s1_ne_lB (c' : Nat) (h1 : c' ≠ 1) :
    ("valve1_to_evaporator1" : String)
      ≠ ("valve" ++ natStr c' ++ "_to_heat_ex" ++ natStr (c'-1) ++ "_" ++ natStr c') := by
  intro h
  have hs : ("valve" ++ natStr 1 ++ "_to_evaporator" ++ natStr 1 : String)
      = "valve1_to_evaporator1" := by decide
  rw [← hs] at h
  have hd := str_data_eq h
  rw [lit2_data, lit3_data] at hd
  exact h1 ((lit_tokens_eq "valve" 1 c' '_' '_' _ _ (by decide) (by decide) hd).1.symm)

theorem s7_ne_lG1 (a b : Nat) :
    ("cond" ++ natStr a ++ "_to_consumer")
      ≠ ("cond" ++ natStr b ++ "_to_cc" ++ natStr b) := by
  apply str_ne_of_data
  rw [lit_nat_lit_data, lit2_data]
  intro h
  have h4 := (lit_tokens_eq "cond" a b '_' '_' _ _ (by decide) (by decide) h).2.2
  have h5 : ("to_consumer".data : List Char) = "to_cc".data ++ natDigits b := h4
  exact absurd h5 (ne_lit_app _ _ _ 4 (by decide) (by decide))

/-! ### Connection count after `runCalls` -/

theorem mem_keys_dinsert {α : Type} (k k' : String) (v : α) (m : List (String × α)) :
    k' ∈ (dinsert k v m).map Prod.fst ↔ k' = k ∨ k' ∈ m.map Prod.fst := by
  have h2 : ([(k, v)] : List (String × α)).foldl (fun m e => dinsert e.1 e.2 m) m
      = dinsert k v m := rfl
  rw [← h2, keys_foldl_dinsert]
  simp [or_comm]

theorem runCalls_length : ∀ (calls : List SC) (hp hp' : Heatpump),
    runCalls hp calls = some hp' →
    (calls.map SC.label).Nodup →
    (∀ sc ∈ calls, sc.label ∉ hp.connections.map Prod.fst) →
    hp'.connections.length = hp.connections.length + calls.length := by
  intro calls
  induction calls with
  | nil =>
    intro hp hp' h _ _
    simp only [runCalls, Option.some.injEq] at h
    rw [← h]
    rfl
  | cons sc rest ih =>
    intro hp hp' h hnd hfresh
    simp only [runCalls] at h
    cases hsc : set_conn hp sc.label sc.src sc.outlet sc.tgt sc.inlet with
    | none => rw [hsc] at h; simp at h
    | some hp1 =>
      rw [hsc] at h
      unfold set_conn at hsc
      cases hda : dlookup sc.src hp.components with
      | none => rw [hda] at hsc; simp at hsc
      | some s =>
        rw [hda] at hsc
        cases hdb : dlookup sc.tgt hp.components with
        | none => rw [hdb] at hsc; simp at hsc
        | some t =>
          rw [hdb] at hsc
          simp only [Option.some.injEq] at hsc
          have hfr : sc.label ∉ hp.connections.map Prod.fst :=
            hfresh sc (List.mem_cons_self _ _)
          simp only [List.map_cons, List.nodup_cons] at hnd
          have hlen1 : hp1.connections.length = hp.connections.length + 1 := by
            rw [← hsc]
            show (dinsert sc.label _ hp.connections).length = _
            rw [length_dinsert, if_neg hfr]
          have hfresh2 : ∀ sc' ∈ rest, sc'.label ∉ hp1.connections.map Prod.fst := by
            intro sc' hsc'
            rw [← hsc]
            show sc'.label ∉ (dinsert sc.label _ hp.connections).map Prod.fst
            rw [mem_keys_dinsert]
            push_neg
            constructor
            · intro hlab
              exact hnd.1 (hlab ▸ List.mem_map.2 ⟨sc', hsc', rfl⟩)
            · exact hfresh sc' (List.mem_cons_of_mem _ hsc')
          have hrec := ih hp1 hp' h hnd.2 hfresh2
          rw [hrec, hlen1, List.length_cons]
          omega


theorem nodup8 {α : Type} (x1 x2 x3 x4 x5 x6 x7 x8 : α)
    (h1 : x1 ≠ x2) (h2 : x1 ≠ x3) (h3 : x1 ≠ x4) (h4 : x1 ≠ x5) (h5 : x1 ≠ x6)
    (h6 : x1 ≠ x7) (h7 : x1 ≠ x8)
    (h8 : x2 ≠ x3) (h9 : x2 ≠ x4) (h10 : x2 ≠ x5) (h11 : x2 ≠ x6) (h12 : x2 ≠ x7)
    (h13 : x2 ≠ x8)
    (h14 : x3 ≠ x4) (h15 : x3 ≠ x5) (h16 : x3 ≠ x6) (h17 : x3 ≠ x7) (h18 : x3 ≠ x8)
    (h19 : x4 ≠ x5) (h20 : x4 ≠ x6) (h21 : x4 ≠ x7) (h22 : x4 ≠ x8)
    (h23 : x5 ≠ x6) (h24 : x5 ≠ x7) (h25 : x5 ≠ x8)
    (h26 : x6 ≠ x7) (h27 : x6 ≠ x8)
    (h28 : x7 ≠ x8) :
    List.Nodup [x1, x2, x3, x4, x5, x6, x7, x8] := by
  simp only [List.nodup_cons, List.mem_cons, List.not_mem_nil, or_false, not_or,
    List.mem_singleton, List.nodup_nil, and_true]
  exact ⟨⟨h1, h2, h3, h4, h5, h6, h7⟩, ⟨h8, h9, h10, h11, h12, h13⟩,
    ⟨h14, h15, h16, h17, h18⟩, ⟨h19, h20, h21, h22⟩, ⟨h23, h24, h25⟩, ⟨h26, h27⟩,
    h28, not_false⟩

set_option maxHeartbeats 2000000 in
theorem skeletonLabels_empty_nodup (n : Nat) :
    ((skeletonCalls (cfgEmpty n)).map SC.label).Nodup := by
  show List.Nodup ["valve1_to_evaporator1", "heatsource_ff_to_heatsource_pump",
    "heatsource_pump_to_evaporator1", "evaporator1_to_heatsource_bf",
    "heatsink_cc_to_heatsink_pump", "heatsink_pump_to_cond" ++ natStr n,
    "cond" ++ natStr n ++ "_to_consumer", "consumer_to_heatsink_cc"]
  refine nodup8 _ _ _ _ _ _ _ _ ?_ ?_ ?_ ?_ ?_ ?_ ?_ ?_ ?_ ?_ ?_ ?_ ?_ ?_ ?_ ?_ ?_ ?_
    ?_ ?_ ?_ ?_ ?_ ?_ ?_ ?_ ?_ ?_ <;>
    first
      | decide
      | exact ne_by_take_gen _ _ 2 _ _ _ _ (by first | exact lit3_data _ _ _ _ _ _ | exact lit2_data _ _ _ _ | exact lit_nat_lit_data _ _ _ | exact lit_nat_data _ _ | exact str_data_self _) (by first | exact lit3_data _ _ _ _ _ _ | exact lit2_data _ _ _ _ | exact lit_nat_lit_data _ _ _ | exact lit_nat_data _ _ | exact str_data_self _) (by decide) (by decide) (by decide)
      | exact ne_by_take_gen _ _ 4 _ _ _ _ (by first | exact lit3_data _ _ _ _ _ _ | exact lit2_data _ _ _ _ | exact lit_nat_lit_data _ _ _ | exact lit_nat_data _ _ | exact str_data_self _) (by first | exact lit3_data _ _ _ _ _ _ | exact lit2_data _ _ _ _ | exact lit_nat_lit_data _ _ _ | exact lit_nat_data _ _ | exact str_data_self _) (by decide) (by decide) (by decide)
      | exact ne_by_take_gen _ _ 6 _ _ _ _ (by first | exact lit3_data _ _ _ _ _ _ | exact lit2_data _ _ _ _ | exact lit_nat_lit_data _ _ _ | exact lit_nat_data _ _ | exact str_data_self _) (by first | exact lit3_data _ _ _ _ _ _ | exact lit2_data _ _ _ _ | exact lit_nat_lit_data _ _ _ | exact lit_nat_data _ _ | exact str_data_self _) (by decide) (by decide) (by decide)
      | exact ne_by_take_gen _ _ 13 _ _ _ _ (by first | exact lit3_data _ _ _ _ _ _ | exact lit2_data _ _ _ _ | exact lit_nat_lit_data _ _ _ | exact lit_nat_data _ _ | exact str_data_self _) (by first | exact lit3_data _ _ _ _ _ _ | exact lit2_data _ _ _ _ | exact lit_nat_lit_data _ _ _ | exact lit_nat_data _ _ | exact str_data_self _) (by decide) (by decide) (by decide)

set_option maxHeartbeats 2000000 in
theorem blockLabels_empty_nodup (n c : Nat) :
    ((cycleCalls (cfgEmpty n) ((generate_components (cfgEmpty n)).map Prod.fst) c).map
        SC.label).Nodup := by
  rw [cycleCalls_empty, compFeedSingle_none, singleDischargeCall_empty,
    hotFinalCall_none_empty]
  unfold valveHeatExCalls
  by_cases h1 : c = 1 <;> by_cases h2 : c = n
  · rw [if_neg (fun hh => hh h1), if_pos h1, if_pos h2, if_pos h2]
    show List.Nodup ["cc" ++ natStr c ++ "_to_valve" ++ natStr c,
      "evaporator1_to_comp" ++ natStr c,
      "comp" ++ natStr c ++ "_to_cond" ++ natStr c,
      "cond" ++ natStr c ++ "_to_cc" ++ natStr c]
    refine nodup4 _ _ _ _ ?_ ?_ ?_ ?_ ?_ ?_ <;>
      first
        | exact ne_by_take_gen _ _ 2 _ _ _ _ (by first | exact lit3_data _ _ _ _ _ _ | exact lit2_data _ _ _ _ | exact lit_nat_lit_data _ _ _ | exact lit_nat_data _ _) (by first | exact lit3_data _ _ _ _ _ _ | exact lit2_data _ _ _ _ | exact lit_nat_lit_data _ _ _ | exact lit_nat_data _ _) (by decide) (by decide) (by decide)
        | exact ne_by_take_gen _ _ 4 _ _ _ _ (by first | exact lit3_data _ _ _ _ _ _ | exact lit2_data _ _ _ _ | exact lit_nat_lit_data _ _ _ | exact lit_nat_data _ _) (by first | exact lit3_data _ _ _ _ _ _ | exact lit2_data _ _ _ _ | exact lit_nat_lit_data _ _ _ | exact lit_nat_data _ _) (by decide) (by decide) (by decide)
  · rw [if_neg (fun hh => hh h1), if_pos h1, if_neg h2, if_neg h2]
    show List.Nodup ["cc" ++ natStr c ++ "_to_valve" ++ natStr c,
      "evaporator1_to_comp" ++ natStr c,
      "comp" ++ natStr c ++ "_to_heatex" ++ natStr c ++ "_" ++ natStr (c+1),
      "heatex" ++ natStr c ++ "_" ++ natStr (c+1) ++ "_to_cc" ++ natStr c]
    refine nodup4 _ _ _ _ ?_ ?_ ?_ ?_ ?_ ?_ <;>
      first
        | exact ne_by_take_gen _ _ 2 _ _ _ _ (by first | exact lit3_data _ _ _ _ _ _ | exact lit2_data _ _ _ _ | exact lit_nat_lit_data _ _ _ | exact lit_nat_data _ _) (by first | exact lit3_data _ _ _ _ _ _ | exact lit2_data _ _ _ _ | exact lit_nat_lit_data _ _ _ | exact lit_nat_data _ _) (by decide) (by decide) (by decide)
        | exact ne_by_take_gen _ _ 4 _ _ _ _ (by first | exact lit3_data _ _ _ _ _ _ | exact lit2_data _ _ _ _ | exact lit_nat_lit_data _ _ _ | exact lit_nat_data _ _) (by first | exact lit3_data _ _ _ _ _ _ | exact lit2_data _ _ _ _ | exact lit_nat_lit_data _ _ _ | exact lit_nat_data _ _) (by decide) (by decide) (by decide)
  · rw [if_pos h1, if_neg h1, if_pos h2, if_pos h2]
    show List.Nodup ["cc" ++ natStr c ++ "_to_valve" ++ natStr c,
      "valve" ++ natStr c ++ "_to_heat_ex" ++ natStr (c-1) ++ "_" ++ natStr c,
      "heatex" ++ natStr (c-1) ++ "_" ++ natStr c ++ "_to_comp" ++ natStr c,
      "comp" ++ natStr c ++ "_to_cond" ++ natStr c,
      "cond" ++ natStr c ++ "_to_cc" ++ natStr c]
    refine nodup5 _ _ _ _ _ ?_ ?_ ?_ ?_ ?_ ?_ ?_ ?_ ?_ ?_ <;>
      first
        | exact ne_by_take_gen _ _ 2 _ _ _ _ (by first | exact lit3_data _ _ _ _ _ _ | exact lit2_data _ _ _ _ | exact lit_nat_lit_data _ _ _ | exact lit_nat_data _ _) (by first | exact lit3_data _ _ _ _ _ _ | exact lit2_data _ _ _ _ | exact lit_nat_lit_data _ _ _ | exact lit_nat_data _ _) (by decide) (by decide) (by decide)
        | exact ne_by_take_gen _ _ 4 _ _ _ _ (by first | exact lit3_data _ _ _ _ _ _ | exact lit2_data _ _ _ _ | exact lit_nat_lit_data _ _ _ | exact lit_nat_data _ _) (by first | exact lit3_data _ _ _ _ _ _ | exact lit2_data _ _ _ _ | exact lit_nat_lit_data _ _ _ | exact lit_nat_data _ _) (by decide) (by decide) (by decide)
  · rw [if_pos h1, if_neg h1, if_neg h2, if_neg h2]
    show List.Nodup ["cc" ++ natStr c ++ "_to_valve" ++ natStr c,
      "valve" ++ natStr c ++ "_to_heat_ex" ++ natStr (c-1) ++ "_" ++ natStr c,
      "heatex" ++ natStr (c-1) ++ "_" ++ natStr c ++ "_to_comp" ++ natStr c,
      "comp" ++ natStr c ++ "_to_heatex" ++ natStr c ++ "_" ++ natStr (c+1),
      "heatex" ++ natStr c ++ "_" ++ natStr (c+1) ++ "_to_cc" ++ natStr c]
    refine nodup5 _ _ _ _ _ ?_ ?_ ?_ ?_ ?_ ?_ ?_ ?_ ?_ ?_ <;>
      first
        | exact lF2_ne_lG2 _ _
        | exact ne_by_take_gen _ _ 2 _ _ _ _ (by first | exact lit3_data _ _ _ _ _ _ | exact lit2_data _ _ _ _ | exact lit_nat_lit_data _ _ _ | exact lit_nat_data _ _) (by first | exact lit3_data _ _ _ _ _ _ | exact lit2_data _ _ _ _ | exact lit_nat_lit_data _ _ _ | exact lit_nat_data _ _) (by decide) (by decide) (by decide)
        | exact ne_by_take_gen _ _ 4 _ _ _ _ (by first | exact lit3_data _ _ _ _ _ _ | exact lit2_data _ _ _ _ | exact lit_nat_lit_data _ _ _ | exact lit_nat_data _ _) (by first | exact lit3_data _ _ _ _ _ _ | exact lit2_data _ _ _ _ | exact lit_nat_lit_data _ _ _ | exact lit_nat_data _ _) (by decide) (by decide) (by decide)

theorem mem_blockLabels_empty (n c : Nat) (l : String)
    (h : l ∈ (cycleCalls (cfgEmpty n) ((generate_components (cfgEmpty n)).map Prod.fst)
        c).map SC.label) :
    l = "cc" ++ natStr c ++ "_to_valve" ++ natStr c
    ∨ (c ≠ 1 ∧ l = "valve" ++ natStr c ++ "_to_heat_ex" ++ natStr (c-1) ++ "_" ++ natStr c)
    ∨ (c = 1 ∧ l = "evaporator1_to_comp" ++ natStr c)
    ∨ (c ≠ 1 ∧ l = "heatex" ++ natStr (c-1) ++ "_" ++ natStr c ++ "_to_comp" ++ natStr c)
    ∨ (c = n ∧ l = "comp" ++ natStr c ++ "_to_cond" ++ natStr c)
    ∨ (c ≠ n ∧ l = "comp" ++ natStr c ++ "_to_heatex" ++ natStr c ++ "_" ++ natStr (c+1))
    ∨ (c = n ∧ l = "cond" ++ natStr c ++ "_to_cc" ++ natStr c)
    ∨ (c ≠ n ∧ l = "heatex" ++ natStr c ++ "_" ++ natStr (c+1) ++ "_to_cc" ++ natStr c) := by
  rw [cycleCalls_empty, compFeedSingle_none, singleDischargeCall_empty,
    hotFinalCall_none_empty] at h
  unfold valveHeatExCalls at h
  by_cases h1 : c = 1 <;> by_cases h2 : c = n
  · rw [if_neg (fun hh => hh h1), if_pos h1, if_pos h2, if_pos h2] at h
    simp only [List.map_append, List.mem_append, List.map_cons, List.map_nil,
      List.mem_cons, List.not_mem_nil, or_false] at h
    rcases h with ((h | h | h) | h)
    · exact Or.inl h
    · exact Or.inr (Or.inr (Or.inl ⟨h1, h⟩))
    · exact Or.inr (Or.inr (Or.inr (Or.inr (Or.inl ⟨h2, h⟩))))
    · exact Or.inr (Or.inr (Or.inr (Or.inr (Or.inr (Or.inr (Or.inl ⟨h2, h⟩))))))
  · rw [if_neg (fun hh => hh h1), if_pos h1, if_neg h2, if_neg h2] at h
    simp only [List.map_append, List.mem_append, List.map_cons, List.map_nil,
      List.mem_cons, List.not_mem_nil, or_false] at h
    rcases h with ((h | h | h) | h)
    · exact Or.inl h
    · exact Or.inr (Or.inr (Or.inl ⟨h1, h⟩))
    · exact Or.inr (Or.inr (Or.inr (Or.inr (Or.inr (Or.inl ⟨h2, h⟩)))))
    · exact Or.inr (Or.inr (Or.inr (Or.inr (Or.inr (Or.inr (Or.inr ⟨h2, h⟩))))))
  · rw [if_pos h1, if_neg h1, if_pos h2, if_pos h2] at h
    simp only [List.map_append, List.mem_append, List.map_cons, List.map_nil,
      List.mem_cons, List.not_mem_nil, or_false] at h
    rcases h with (((h | h) | h | h) | h)
    · exact Or.inl h
    · exact Or.inr (Or.inl ⟨h1, h⟩)
    · exact Or.inr (Or.inr (Or.inr (Or.inl ⟨h1, h⟩)))
    · exact Or.inr (Or.inr (Or.inr (Or.inr (Or.inl ⟨h2, h⟩))))
    · exact Or.inr (Or.inr (Or.inr (Or.inr (Or.inr (Or.inr (Or.inl ⟨h2, h⟩))))))
  · rw [if_pos h1, if_neg h1, if_neg h2, if_neg h2] at h
    simp only [List.map_append, List.mem_append, List.map_cons, List.map_nil,
      List.mem_cons, List.not_mem_nil, or_false] at h
    rcases h with (((h | h) | h | h) | h)
    · exact Or.inl h
    · exact Or.inr (Or.inl ⟨h1, h⟩)
    · exact Or.inr (Or.inr (Or.inr (Or.inl ⟨h1, h⟩)))
    · exact Or.inr (Or.inr (Or.inr (Or.inr (Or.inr (Or.inl ⟨h2, h⟩)))))
    · exact Or.inr (Or.inr (Or.inr (Or.inr (Or.inr (Or.inr (Or.inr ⟨h2, h⟩))))))


theorem blockLabels_empty_disjoint (n c c' : Nat) (hcc : c ≠ c') (l : String)
    (h : l ∈ (cycleCalls (cfgEmpty n) ((generate_components (cfgEmpty n)).map Prod.fst)
        c).map SC.label)
    (h' : l ∈ (cycleCalls (cfgEmpty n) ((generate_components (cfgEmpty n)).map Prod.fst)
        c').map SC.label) : False := by
  rcases mem_blockLabels_empty n c l h with h1 | ⟨hA, h1⟩ | ⟨hA, h1⟩ | ⟨hA, h1⟩ | ⟨hA, h1⟩
    | ⟨hA, h1⟩ | ⟨hA, h1⟩ | ⟨hA, h1⟩ <;>
    rcases mem_blockLabels_empty n c' l h' with h2 | ⟨hB, h2⟩ | ⟨hB, h2⟩ | ⟨hB, h2⟩
      | ⟨hB, h2⟩ | ⟨hB, h2⟩ | ⟨hB, h2⟩ | ⟨hB, h2⟩ <;>
    (have heq := h1.symm.trans h2)
  · exact hcc (lA_inj _ _ heq)
  · exact absurd heq (ne_by_take_gen _ _ 2 "cc" "valve" _ _ (lit2_data _ _ _ _) (lit3_data _ _ _ _ _ _) (by decide) (by decide) (by decide))
  · exact absurd heq (ne_by_take_gen _ _ 2 "cc" "evaporator1_to_comp" _ _ (lit2_data _ _ _ _) (lit_nat_data _ _) (by decide) (by decide) (by decide))
  · exact absurd heq (ne_by_take_gen _ _ 2 "cc" "heatex" _ _ (lit2_data _ _ _ _) (lit3_data _ _ _ _ _ _) (by decide) (by decide) (by decide))
  · exact absurd heq (ne_by_take_gen _ _ 2 "cc" "comp" _ _ (lit2_data _ _ _ _) (lit2_data _ _ _ _) (by decide) (by decide) (by decide))
  · exact absurd heq (ne_by_take_gen _ _ 2 "cc" "comp" _ _ (lit2_data _ _ _ _) (lit3_data _ _ _ _ _ _) (by decide) (by decide) (by decide))
  · exact absurd heq (ne_by_take_gen _ _ 2 "cc" "cond" _ _ (lit2_data _ _ _ _) (lit2_data _ _ _ _) (by decide) (by decide) (by decide))
  · exact absurd heq (ne_by_take_gen _ _ 2 "cc" "heatex" _ _ (lit2_data _ _ _ _) (lit3_data _ _ _ _ _ _) (by decide) (by decide) (by decide))
  · exact absurd heq (ne_by_take_gen _ _ 2 "valve" "cc" _ _ (lit3_data _ _ _ _ _ _) (lit2_data _ _ _ _) (by decide) (by decide) (by decide))
  · exact hcc (lB_inj _ _ heq)
  · exact absurd heq (ne_by_take_gen _ _ 2 "valve" "evaporator1_to_comp" _ _ (lit3_data _ _ _ _ _ _) (lit_nat_data _ _) (by decide) (by decide) (by decide))
  · exact absurd heq (ne_by_take_gen _ _ 2 "valve" "heatex" _ _ (lit3_data _ _ _ _ _ _) (lit3_data _ _ _ _ _ _) (by decide) (by decide) (by decide))
  · exact absurd heq (ne_by_take_gen _ _ 2 "valve" "comp" _ _ (lit3_data _ _ _ _ _ _) (lit2_data _ _ _ _) (by decide) (by decide) (by decide))
  · exact absurd heq (ne_by_take_gen _ _ 2 "valve" "comp" _ _ (lit3_data _ _ _ _ _ _) (lit3_data _ _ _ _ _ _) (by decide) (by decide) (by decide))
  · exact absurd heq (ne_by_take_gen _ _ 2 "valve" "cond" _ _ (lit3_data _ _ _ _ _ _) (lit2_data _ _ _ _) (by decide) (by decide) (by decide))
  · exact absurd heq (ne_by_take_gen _ _ 2 "valve" "heatex" _ _ (lit3_data _ _ _ _ _ _) (lit3_data _ _ _ _ _ _) (by decide) (by decide) (by decide))
  · exact absurd heq (ne_by_take_gen _ _ 2 "evaporator1_to_comp" "cc" _ _ (lit_nat_data _ _) (lit2_data _ _ _ _) (by decide) (by decide) (by decide))
  · exact absurd heq (ne_by_take_gen _ _ 2 "evaporator1_to_comp" "valve" _ _ (lit_nat_data _ _) (lit3_data _ _ _ _ _ _) (by decide) (by decide) (by decide))
  · exact hcc (lit_natStr_inj "evaporator1_to_comp" _ _ heq)
  · exact absurd heq (ne_by_take_gen _ _ 2 "evaporator1_to_comp" "heatex" _ _ (lit_nat_data _ _) (lit3_data _ _ _ _ _ _) (by decide) (by decide) (by decide))
  · exact absurd heq (ne_by_take_gen _ _ 2 "evaporator1_to_comp" "comp" _ _ (lit_nat_data _ _) (lit2_data _ _ _ _) (by decide) (by decide) (by decide))
  · exact absurd heq (ne_by_take_gen _ _ 2 "evaporator1_to_comp" "comp" _ _ (lit_nat_data _ _) (lit3_data _ _ _ _ _ _) (by decide) (by decide) (by decide))
  · exact absurd heq (ne_by_take_gen _ _ 2 "evaporator1_to_comp" "cond" _ _ (lit_nat_data _ _) (lit2_data _ _ _ _) (by decide) (by decide) (by decide))
  · exact absurd heq (ne_by_take_gen _ _ 2 "evaporator1_to_comp" "heatex" _ _ (lit_nat_data _ _) (lit3_data _ _ _ _ _ _) (by decide) (by decide) (by decide))
  · exact absurd heq (ne_by_take_gen _ _ 2 "heatex" "cc" _ _ (lit3_data _ _ _ _ _ _) (lit2_data _ _ _ _) (by decide) (by decide) (by decide))
  · exact absurd heq (ne_by_take_gen _ _ 2 "heatex" "valve" _ _ (lit3_data _ _ _ _ _ _) (lit3_data _ _ _ _ _ _) (by decide) (by decide) (by decide))
  · exact absurd heq (ne_by_take_gen _ _ 2 "heatex" "evaporator1_to_comp" _ _ (lit3_data _ _ _ _ _ _) (lit_nat_data _ _) (by decide) (by decide) (by decide))
  · exact hcc (lF2_inj _ _ heq)
  · exact absurd heq (ne_by_take_gen _ _ 2 "heatex" "comp" _ _ (lit3_data _ _ _ _ _ _) (lit2_data _ _ _ _) (by decide) (by decide) (by decide))
  · exact absurd heq (ne_by_take_gen _ _ 2 "heatex" "comp" _ _ (lit3_data _ _ _ _ _ _) (lit3_data _ _ _ _ _ _) (by decide) (by decide) (by decide))
  · exact absurd heq (ne_by_take_gen _ _ 2 "heatex" "cond" _ _ (lit3_data _ _ _ _ _ _) (lit2_data _ _ _ _) (by decide) (by decide) (by decide))
  · exact absurd heq (lF2_ne_lG2 _ _)
  · exact absurd heq (ne_by_take_gen _ _ 2 "comp" "cc" _ _ (lit2_data _ _ _ _) (lit2_data _ _ _ _) (by decide) (by decide) (by decide))
  · exact absurd heq (ne_by_take_gen _ _ 2 "comp" "valve" _ _ (lit2_data _ _ _ _) (lit3_data _ _ _ _ _ _) (by decide) (by decide) (by decide))
  · exact absurd heq (ne_by_take_gen _ _ 2 "comp" "evaporator1_to_comp" _ _ (lit2_data _ _ _ _) (lit_nat_data _ _) (by decide) (by decide) (by decide))
  · exact absurd heq (ne_by_take_gen _ _ 2 "comp" "heatex" _ _ (lit2_data _ _ _ _) (lit3_data _ _ _ _ _ _) (by decide) (by decide) (by decide))
  · exact hcc (lD1_inj _ _ heq)
  · exact hcc (lD1D2_first _ _ heq)
  · exact absurd heq (ne_by_take_gen _ _ 4 "comp" "cond" _ _ (lit2_data _ _ _ _) (lit2_data _ _ _ _) (by decide) (by decide) (by decide))
  · exact absurd heq (ne_by_take_gen _ _ 2 "comp" "heatex" _ _ (lit2_data _ _ _ _) (lit3_data _ _ _ _ _ _) (by decide) (by decide) (by decide))
  · exact absurd heq (ne_by_take_gen _ _ 2 "comp" "cc" _ _ (lit3_data _ _ _ _ _ _) (lit2_data _ _ _ _) (by decide) (by decide) (by decide))
  · exact absurd heq (ne_by_take_gen _ _ 2 "comp" "valve" _ _ (lit3_data _ _ _ _ _ _) (lit3_data _ _ _ _ _ _) (by decide) (by decide) (by decide))
  · exact absurd heq (ne_by_take_gen _ _ 2 "comp" "evaporator1_to_comp" _ _ (lit3_data _ _ _ _ _ _) (lit_nat_data _ _) (by decide) (by decide) (by decide))
  · exact absurd heq (ne_by_take_gen _ _ 2 "comp" "heatex" _ _ (lit3_data _ _ _ _ _ _) (lit3_data _ _ _ _ _ _) (by decide) (by decide) (by decide))
  · exact hcc ((lD1D2_first _ _ heq.symm).symm)
  · exact hcc (lD2_inj _ _ heq)
  · exact absurd heq (ne_by_take_gen _ _ 4 "comp" "cond" _ _ (lit3_data _ _ _ _ _ _) (lit2_data _ _ _ _) (by decide) (by decide) (by decide))
  · exact absurd heq (ne_by_take_gen _ _ 2 "comp" "heatex" _ _ (lit3_data _ _ _ _ _ _) (lit3_data _ _ _ _ _ _) (by decide) (by decide) (by decide))
  · exact absurd heq (ne_by_take_gen _ _ 2 "cond" "cc" _ _ (lit2_data _ _ _ _) (lit2_data _ _ _ _) (by decide) (by decide) (by decide))
  · exact absurd heq (ne_by_take_gen _ _ 2 "cond" "valve" _ _ (lit2_data _ _ _ _) (lit3_data _ _ _ _ _ _) (by decide) (by decide) (by decide))
  · exact absurd heq (ne_by_take_gen _ _ 2 "cond" "evaporator1_to_comp" _ _ (lit2_data _ _ _ _) (lit_nat_data _ _) (by decide) (by decide) (by decide))
  · exact absurd heq (ne_by_take_gen _ _ 2 "cond" "heatex" _ _ (lit2_data _ _ _ _) (lit3_data _ _ _ _ _ _) (by decide) (by decide) (by decide))
  · exact absurd heq (ne_by_take_gen _ _ 4 "cond" "comp" _ _ (lit2_data _ _ _ _) (lit2_data _ _ _ _) (by decide) (by decide) (by decide))
  · exact absurd heq (ne_by_take_gen _ _ 4 "cond" "comp" _ _ (lit2_data _ _ _ _) (lit3_data _ _ _ _ _ _) (by decide) (by decide) (by decide))
  · exact hcc (lG1_inj _ _ heq)
  · exact absurd heq (ne_by_take_gen _ _ 2 "cond" "heatex" _ _ (lit2_data _ _ _ _) (lit3_data _ _ _ _ _ _) (by decide) (by decide) (by decide))
  · exact absurd heq (ne_by_take_gen _ _ 2 "heatex" "cc" _ _ (lit3_data _ _ _ _ _ _) (lit2_data _ _ _ _) (by decide) (by decide) (by decide))
  · exact absurd heq (ne_by_take_gen _ _ 2 "heatex" "valve" _ _ (lit3_data _ _ _ _ _ _) (lit3_data _ _ _ _ _ _) (by decide) (by decide) (by decide))
  · exact absurd heq (ne_by_take_gen _ _ 2 "heatex" "evaporator1_to_comp" _ _ (lit3_data _ _ _ _ _ _) (lit_nat_data _ _) (by decide) (by decide) (by decide))
  · exact absurd heq.symm (lF2_ne_lG2 _ _)
  · exact absurd heq (ne_by_take_gen _ _ 2 "heatex" "comp" _ _ (lit3_data _ _ _ _ _ _) (lit2_data _ _ _ _) (by decide) (by decide) (by decide))
  · exact absurd heq (ne_by_take_gen _ _ 2 "heatex" "comp" _ _ (lit3_data _ _ _ _ _ _) (lit3_data _ _ _ _ _ _) (by decide) (by decide) (by decide))
  · exact absurd heq (ne_by_take_gen _ _ 2 "heatex" "cond" _ _ (lit3_data _ _ _ _ _ _) (lit2_data _ _ _ _) (by decide) (by decide) (by decide))
  · exact hcc (lG2_inj _ _ heq)

theorem skeleton_block_disjoint (n c : Nat) (l : String)
    (hs : l ∈ (skeletonCalls (cfgEmpty n)).map SC.label)
    (hb : l ∈ (cycleCalls (cfgEmpty n) ((generate_components (cfgEmpty n)).map
        Prod.fst) c).map SC.label) : False := by
  have hs2 : l ∈ (["valve1_to_evaporator1", "heatsource_ff_to_heatsource_pump",
      "heatsource_pump_to_evaporator1", "evaporator1_to_heatsource_bf",
      "heatsink_cc_to_heatsink_pump", "heatsink_pump_to_cond" ++ natStr n,
      "cond" ++ natStr n ++ "_to_consumer", "consumer_to_heatsink_cc"] : List String) := hs
  simp only [List.mem_cons, List.not_mem_nil, or_false] at hs2
  rcases hs2 with h1 | h1 | h1 | h1 | h1 | h1 | h1 | h1 <;>
    rcases mem_blockLabels_empty n c l hb with h2 | ⟨hB, h2⟩ | ⟨hB, h2⟩ | ⟨hB, h2⟩
      | ⟨hB, h2⟩ | ⟨hB, h2⟩ | ⟨hB, h2⟩ | ⟨hB, h2⟩ <;>
    (have heq := h1.symm.trans h2)
  · exact absurd heq (ne_by_take_gen _ _ 2 "valve1_to_evaporator1" "cc" _ _ (str_data_self _) (lit2_data _ _ _ _) (by decide) (by decide) (by decide))
  · exact absurd heq (s1_ne_lB _ hB)
  · exact absurd heq (ne_by_take_gen _ _ 2 "valve1_to_evaporator1" "evaporator1_to_comp" _ _ (str_data_self _) (lit_nat_data _ _) (by decide) (by decide) (by decide))
  · exact absurd heq (ne_by_take_gen _ _ 2 "valve1_to_evaporator1" "heatex" _ _ (str_data_self _) (lit3_data _ _ _ _ _ _) (by decide) (by decide) (by decide))
  · exact absurd heq (ne_by_take_gen _ _ 2 "valve1_to_evaporator1" "comp" _ _ (str_data_self _) (lit2_data _ _ _ _) (by decide) (by decide) (by decide))
  · exact absurd heq (ne_by_take_gen _ _ 2 "valve1_to_evaporator1" "comp" _ _ (str_data_self _) (lit3_data _ _ _ _ _ _) (by decide) (by decide) (by decide))
  · exact absurd heq (ne_by_take_gen _ _ 2 "valve1_to_evaporator1" "cond" _ _ (str_data_self _) (lit2_data _ _ _ _) (by decide) (by decide) (by decide))
  · exact absurd heq (ne_by_take_gen _ _ 2 "valve1_to_evaporator1" "heatex" _ _ (str_data_self _) (lit3_data _ _ _ _ _ _) (by decide) (by decide) (by decide))
  · exact absurd heq (ne_by_take_gen _ _ 2 "heatsource_ff_to_heatsource_pump" "cc" _ _ (str_data_self _) (lit2_data _ _ _ _) (by decide) (by decide) (by decide))
  · exact absurd heq (ne_by_take_gen _ _ 2 "heatsource_ff_to_heatsource_pump" "valve" _ _ (str_data_self _) (lit3_data _ _ _ _ _ _) (by decide) (by decide) (by decide))
  · exact absurd heq (ne_by_take_gen _ _ 2 "heatsource_ff_to_heatsource_pump" "evaporator1_to_comp" _ _ (str_data_self _) (lit_nat_data _ _) (by decide) (by decide) (by decide))
  · exact absurd heq (ne_by_take_gen _ _ 6 "heatsource_ff_to_heatsource_pump" "heatex" _ _ (str_data_self _) (lit3_data _ _ _ _ _ _) (by decide) (by decide) (by decide))
  · exact absurd heq (ne_by_take_gen _ _ 2 "heatsource_ff_to_heatsource_pump" "comp" _ _ (str_data_self _) (lit2_data _ _ _ _) (by decide) (by decide) (by decide))
  · exact absurd heq (ne_by_take_gen _ _ 2 "heatsource_ff_to_heatsource_pump" "comp" _ _ (str_data_self _) (lit3_data _ _ _ _ _ _) (by decide) (by decide) (by decide))
  · exact absurd heq (ne_by_take_gen _ _ 2 "heatsource_ff_to_heatsource_pump" "cond" _ _ (str_data_self _) (lit2_data _ _ _ _) (by decide) (by decide) (by decide))
  · exact absurd heq (ne_by_take_gen _ _ 6 "heatsource_ff_to_heatsource_pump" "heatex" _ _ (str_data_self _) (lit3_data _ _ _ _ _ _) (by decide) (by decide) (by decide))
  · exact absurd heq (ne_by_take_gen _ _ 2 "heatsource_pump_to_evaporator1" "cc" _ _ (str_data_self _) (lit2_data _ _ _ _) (by decide) (by decide) (by decide))
  · exact absurd heq (ne_by_take_gen _ _ 2 "heatsource_pump_to_evaporator1" "valve" _ _ (str_data_self _) (lit3_data _ _ _ _ _ _) (by decide) (by decide) (by decide))
  · exact absurd heq (ne_by_take_gen _ _ 2 "heatsource_pump_to_evaporator1" "evaporator1_to_comp" _ _ (str_data_self _) (lit_nat_data _ _) (by decide) (by decide) (by decide))
  · exact absurd heq (ne_by_take_gen _ _ 6 "heatsource_pump_to_evaporator1" "heatex" _ _ (str_data_self _) (lit3_data _ _ _ _ _ _) (by decide) (by decide) (by decide))
  · exact absurd heq (ne_by_take_gen _ _ 2 "heatsource_pump_to_evaporator1" "comp" _ _ (str_data_self _) (lit2_data _ _ _ _) (by decide) (by decide) (by decide))
  · exact absurd heq (ne_by_take_gen _ _ 2 "heatsource_pump_to_evaporator1" "comp" _ _ (str_data_self _) (lit3_data _ _ _ _ _ _) (by decide) (by decide) (by decide))
  · exact absurd heq (ne_by_take_gen _ _ 2 "heatsource_pump_to_evaporator1" "cond" _ _ (str_data_self _) (lit2_data _ _ _ _) (by decide) (by decide) (by decide))
  · exact absurd heq (ne_by_take_gen _ _ 6 "heatsource_pump_to_evaporator1" "heatex" _ _ (str_data_self _) (lit3_data _ _ _ _ _ _) (by decide) (by decide) (by decide))
  · exact absurd heq (ne_by_take_gen _ _ 2 "evaporator1_to_heatsource_bf" "cc" _ _ (str_data_self _) (lit2_data _ _ _ _) (by decide) (by decide) (by decide))
  · exact absurd heq (ne_by_take_gen _ _ 2 "evaporator1_to_heatsource_bf" "valve" _ _ (str_data_self _) (lit3_data _ _ _ _ _ _) (by decide) (by decide) (by decide))
  · exact absurd heq (ne_by_take_gen _ _ 16 "evaporator1_to_heatsource_bf" "evaporator1_to_comp" _ _ (str_data_self _) (lit_nat_data _ _) (by decide) (by decide) (by decide))
  · exact absurd heq (ne_by_take_gen _ _ 2 "evaporator1_to_heatsource_bf" "heatex" _ _ (str_data_self _) (lit3_data _ _ _ _ _ _) (by decide) (by decide) (by decide))
  · exact absurd heq (ne_by_take_gen _ _ 2 "evaporator1_to_heatsource_bf" "comp" _ _ (str_data_self _) (lit2_data _ _ _ _) (by decide) (by decide) (by decide))
  · exact absurd heq (ne_by_take_gen _ _ 2 "evaporator1_to_heatsource_bf" "comp" _ _ (str_data_self _) (lit3_data _ _ _ _ _ _) (by decide) (by decide) (by decide))
  · exact absurd heq (ne_by_take_gen _ _ 2 "evaporator1_to_heatsource_bf" "cond" _ _ (str_data_self _) (lit2_data _ _ _ _) (by decide) (by decide) (by decide))
  · exact absurd heq (ne_by_take_gen _ _ 2 "evaporator1_to_heatsource_bf" "heatex" _ _ (str_data_self _) (lit3_data _ _ _ _ _ _) (by decide) (by decide) (by decide))
  · exact absurd heq (ne_by_take_gen _ _ 2 "heatsink_cc_to_heatsink_pump" "cc" _ _ (str_data_self _) (lit2_data _ _ _ _) (by decide) (by decide) (by decide))
  · exact absurd heq (ne_by_take_gen _ _ 2 "heatsink_cc_to_heatsink_pump" "valve" _ _ (str_data_self _) (lit3_data _ _ _ _ _ _) (by decide) (by decide) (by decide))
  · exact absurd heq (ne_by_take_gen _ _ 2 "heatsink_cc_to_heatsink_pump" "evaporator1_to_comp" _ _ (str_data_self _) (lit_nat_data _ _) (by decide) (by decide) (by decide))
  · exact absurd heq (ne_by_take_gen _ _ 6 "heatsink_cc_to_heatsink_pump" "heatex" _ _ (str_data_self _) (lit3_data _ _ _ _ _ _) (by decide) (by decide) (by decide))
  · exact absurd heq (ne_by_take_gen _ _ 2 "heatsink_cc_to_heatsink_pump" "comp" _ _ (str_data_self _) (lit2_data _ _ _ _) (by decide) (by decide) (by decide))
  · exact absurd heq (ne_by_take_gen _ _ 2 "heatsink_cc_to_heatsink_pump" "comp" _ _ (str_data_self _) (lit3_data _ _ _ _ _ _) (by decide) (by decide) (by decide))
  · exact absurd heq (ne_by_take_gen _ _ 2 "heatsink_cc_to_heatsink_pump" "cond" _ _ (str_data_self _) (lit2_data _ _ _ _) (by decide) (by decide) (by decide))
  · exact absurd heq (ne_by_take_gen _ _ 6 "heatsink_cc_to_heatsink_pump" "heatex" _ _ (str_data_self _) (lit3_data _ _ _ _ _ _) (by decide) (by decide) (by decide))
  · exact absurd heq (ne_by_take_gen _ _ 2 "heatsink_pump_to_cond" "cc" _ _ (lit_nat_data _ _) (lit2_data _ _ _ _) (by decide) (by decide) (by decide))
  · exact absurd heq (ne_by_take_gen _ _ 2 "heatsink_pump_to_cond" "valve" _ _ (lit_nat_data _ _) (lit3_data _ _ _ _ _ _) (by decide) (by decide) (by decide))
  · exact absurd heq (ne_by_take_gen _ _ 2 "heatsink_pump_to_cond" "evaporator1_to_comp" _ _ (lit_nat_data _ _) (lit_nat_data _ _) (by decide) (by decide) (by decide))
  · exact absurd heq (ne_by_take_gen _ _ 6 "heatsink_pump_to_cond" "heatex" _ _ (lit_nat_data _ _) (lit3_data _ _ _ _ _ _) (by decide) (by decide) (by decide))
  · exact absurd heq (ne_by_take_gen _ _ 2 "heatsink_pump_to_cond" "comp" _ _ (lit_nat_data _ _) (lit2_data _ _ _ _) (by decide) (by decide) (by decide))
  · exact absurd heq (ne_by_take_gen _ _ 2 "heatsink_pump_to_cond" "comp" _ _ (lit_nat_data _ _) (lit3_data _ _ _ _ _ _) (by decide) (by decide) (by decide))
  · exact absurd heq (ne_by_take_gen _ _ 2 "heatsink_pump_to_cond" "cond" _ _ (lit_nat_data _ _) (lit2_data _ _ _ _) (by decide) (by decide) (by decide))
  · exact absurd heq (ne_by_take_gen _ _ 6 "heatsink_pump_to_cond" "heatex" _ _ (lit_nat_data _ _) (lit3_data _ _ _ _ _ _) (by decide) (by decide) (by decide))
  · exact absurd heq (ne_by_take_gen _ _ 2 "cond" "cc" _ _ (lit_nat_lit_data _ _ _) (lit2_data _ _ _ _) (by decide) (by decide) (by decide))
  · exact absurd heq (ne_by_take_gen _ _ 2 "cond" "valve" _ _ (lit_nat_lit_data _ _ _) (lit3_data _ _ _ _ _ _) (by decide) (by decide) (by decide))
  · exact absurd heq (ne_by_take_gen _ _ 2 "cond" "evaporator1_to_comp" _ _ (lit_nat_lit_data _ _ _) (lit_nat_data _ _) (by decide) (by decide) (by decide))
  · exact absurd heq (ne_by_take_gen _ _ 2 "cond" "heatex" _ _ (lit_nat_lit_data _ _ _) (lit3_data _ _ _ _ _ _) (by decide) (by decide) (by decide))
  · exact absurd heq (ne_by_take_gen _ _ 4 "cond" "comp" _ _ (lit_nat_lit_data _ _ _) (lit2_data _ _ _ _) (by decide) (by decide) (by decide))
  · exact absurd heq (ne_by_take_gen _ _ 4 "cond" "comp" _ _ (lit_nat_lit_data _ _ _) (lit3_data _ _ _ _ _ _) (by decide) (by decide) (by decide))
  · exact absurd heq (s7_ne_lG1 _ _)
  · exact absurd heq (ne_by_take_gen _ _ 2 "cond" "heatex" _ _ (lit_nat_lit_data _ _ _) (lit3_data _ _ _ _ _ _) (by decide) (by decide) (by decide))
  · exact absurd heq (ne_by_take_gen _ _ 2 "consumer_to_heatsink_cc" "cc" _ _ (str_data_self _) (lit2_data _ _ _ _) (by decide) (by decide) (by decide))
  · exact absurd heq (ne_by_take_gen _ _ 2 "consumer_to_heatsink_cc" "valve" _ _ (str_data_self _) (lit3_data _ _ _ _ _ _) (by decide) (by decide) (by decide))
  · exact absurd heq (ne_by_take_gen _ _ 2 "consumer_to_heatsink_cc" "evaporator1_to_comp" _ _ (str_data_self _) (lit_nat_data _ _) (by decide) (by decide) (by decide))
  · exact absurd heq (ne_by_take_gen _ _ 2 "consumer_to_heatsink_cc" "heatex" _ _ (str_data_self _) (lit3_data _ _ _ _ _ _) (by decide) (by decide) (by decide))
  · exact absurd heq (ne_by_take_gen _ _ 4 "consumer_to_heatsink_cc" "comp" _ _ (str_data_self _) (lit2_data _ _ _ _) (by decide) (by decide) (by decide))
  · exact absurd heq (ne_by_take_gen _ _ 4 "consumer_to_heatsink_cc" "comp" _ _ (str_data_self _) (lit3_data _ _ _ _ _ _) (by decide) (by decide) (by decide))
  · exact absurd heq (ne_by_take_gen _ _ 4 "consumer_to_heatsink_cc" "cond" _ _ (str_data_self _) (lit2_data _ _ _ _) (by decide) (by decide) (by decide))
  · exact absurd heq (ne_by_take_gen _ _ 2 "consumer_to_heatsink_cc" "heatex" _ _ (str_data_self _) (lit3_data _ _ _ _ _ _) (by decide) (by decide) (by decide))

theorem topoLabels_empty_nodup (n : Nat) :
    ((topoCalls (cfgEmpty n) (generate_components (cfgEmpty n))).map SC.label).Nodup := by
  unfold topoCalls
  rw [List.map_append, List.nodup_append]
  refine ⟨skeletonLabels_empty_nodup n, ?_, ?_⟩
  · rw [List.map_flatMap]
    apply nodup_flatMap_of
    · intro c _
      exact blockLabels_empty_nodup n c
    · have hlt : List.Pairwise (· < ·) (List.range' 1 (cfgEmpty n).nr_cycles) := by
        have := List.pairwise_lt_range' 1 n 1 (by omega)
        simpa using this
      refine List.Pairwise.imp ?_ hlt
      intro a b hab x hxa hxb
      exact blockLabels_empty_disjoint n a b (Nat.ne_of_lt hab) x hxa hxb
  · intro l hl hl2
    rw [List.map_flatMap] at hl2
    obtain ⟨c, -, hlc⟩ := List.mem_flatMap.1 hl2
    exact skeleton_block_disjoint n c l hl hlc

/-- C4 (amended): for every `N ≥ 1`, the build from an empty `int_heatex`
map and an empty `intercooler` map yields exactly `4N + 7` components
(which matches the claim's component formula `7 + 2N + N + (N-1) + 1`)
and exactly `5N + 7` connections: the connection count exceeds the
component count by `N`, not by one. -/
theorem C4_cardinalities (n : Nat) (hn : 1 ≤ n) (hp : Heatpump)
    (hbuild : buildHeatpump (cfgEmpty n) = some hp) :
    hp.components.length = 4 * n + 7 ∧
    hp.connections.length = 5 * n + 7 ∧
    hp.connections.length = hp.components.length + n := by
  have hbuild' : runCalls ⟨generate_components (cfgEmpty n), []⟩
      (topoCalls (cfgEmpty n) (generate_components (cfgEmpty n))) = some hp := hbuild
  have hcomps : hp.components = generate_components (cfgEmpty n) :=
    runCalls_components _ _ _ hbuild'
  have h1 : hp.components.length = 4 * n + 7 := by
    rw [hcomps]
    exact components_empty_length n hn
  have h2 : hp.connections.length = 5 * n + 7 := by
    have hlen := runCalls_length _ _ _ hbuild' (topoLabels_empty_nodup n)
      (fun sc _ => by simp)
    rw [topoCalls_empty_length n hn] at hlen
    simpa using hlen
  exact ⟨h1, h2, by omega⟩

/-- Witness for C4 (amended) at `N = 2`: 15 components and 17 connections. -/
theorem C4_witness :
    hpE2.components.length = 4 * 2 + 7 ∧
    hpE2.connections.length = 5 * 2 + 7 ∧
    hpE2.connections.length = hpE2.components.length + 2 :=
  C4_cardinalities 2 (by decide) hpE2 (by decide)
